import Mathlib

/-!
# Keyboard firmware: kinetic mouse model, event postponer and test lookup

Shallow embedding of `right/src/mouse_controller.c` (namespace `MouseController`),
of `right/src/postponer.c` (namespace `Postponer`) and of the test lookup of
`right/src/test_suite/test_suite.c` (namespace `TestSuite`).

Modelling conventions

* C `float` values are modelled by exact rationals (`ℚ`): every arithmetic
  operation of the source is the corresponding exact operation, so rounding of
  the 32-bit format is not represented.  A division by zero, which gives an
  infinite or undefined `float` in the source, has no counterpart: statements
  that involve `recalculateSpeed` or `expDriver` are made where the divisor is
  nonzero.
* `uint8_t` activation counters are natural numbers; a counter is "true" in a
  C condition when it is nonzero.  Increments wrap modulo 256.
* `int8_t` direction signs and the integer outputs `xOut`, `yOut` are integers.
* Global variables of the translation unit (`ActiveMouseStates`,
  `CompensateDiagonalSpeed`, `mouseElapsedTime`) are explicit arguments.
* The functions `sqrt`, `pow` and `log` of the C mathematics library are
  parameters.
* Types and constants declared in headers outside the sources at hand (button
  masks, report field widths, the buffer constants of the postponer) are
  parameters or follow the specification, as stated at each definition.
* The postponer's ring buffer is a function from slot numbers to records, keys
  are identified by numbers, and `CurrentTime` is an argument of each call.
* A C string is the list of its bytes in front of the terminating NUL; the
  bounded `for` loops of the postponer queries and of the test lookup are
  recursions over the remaining iterations.
-/

namespace MouseController

/-! ## Data model -/

/-- Codes of the logical mouse actions (`serialized_mouse_action_t`).  The
enumeration is closed; its members are the codes named in the source. -/
inductive SerializedMouseAction
  | LeftClick | MiddleClick | RightClick
  | MoveUp | MoveDown | MoveLeft | MoveRight
  | ScrollUp | ScrollDown | ScrollLeft | ScrollRight
  | Accelerate | Decelerate
  | Button_4 | Button_5 | Button_6 | Button_7 | Button_8
  deriving DecidableEq, Repr

open SerializedMouseAction

/-- An array of activation counters indexed by action code
(`uint8_t ActiveMouseStates[ACTIVE_MOUSE_STATES_COUNT]`). -/
abbrev MouseStates := SerializedMouseAction → Nat

/-- Speed tier (`mouse_speed_t`). -/
inductive mouse_speed_t
  | MouseSpeed_Normal | MouseSpeed_Accelerated | MouseSpeed_Decelerated
  deriving DecidableEq, Repr

open mouse_speed_t

/-- Kinetic state of one motion kind (`mouse_kinetic_state_t`). -/
structure mouse_kinetic_state_t where
  isScroll : Bool
  wasMoveAction : Bool
  upState : SerializedMouseAction
  downState : SerializedMouseAction
  leftState : SerializedMouseAction
  rightState : SerializedMouseAction
  verticalStateSign : Int
  horizontalStateSign : Int
  intMultiplier : Nat
  currentSpeed : ℚ
  targetSpeed : ℚ
  initialSpeed : Nat
  acceleration : Nat
  deceleratedSpeed : Nat
  baseSpeed : Nat
  acceleratedSpeed : Nat
  xSum : ℚ
  ySum : ℚ
  xOut : Int
  yOut : Int
  prevMouseSpeed : mouse_speed_t
  deriving DecidableEq

/-- Static initialiser of `MouseMoveState`; fields not named in the
initialiser are zero. -/
def MouseMoveState : mouse_kinetic_state_t where
  isScroll := false
  wasMoveAction := false
  upState := MoveUp
  downState := MoveDown
  leftState := MoveLeft
  rightState := MoveRight
  verticalStateSign := 0
  horizontalStateSign := 0
  intMultiplier := 25
  currentSpeed := 0
  targetSpeed := 0
  initialSpeed := 5
  acceleration := 35
  deceleratedSpeed := 10
  baseSpeed := 40
  acceleratedSpeed := 80
  xSum := 0
  ySum := 0
  xOut := 0
  yOut := 0
  prevMouseSpeed := MouseSpeed_Normal

/-- Static initialiser of `MouseScrollState`.  Note that its `upState` is
`ScrollDown` and its `downState` is `ScrollUp`. -/
def MouseScrollState : mouse_kinetic_state_t where
  isScroll := true
  wasMoveAction := false
  upState := ScrollDown
  downState := ScrollUp
  leftState := ScrollLeft
  rightState := ScrollRight
  verticalStateSign := 0
  horizontalStateSign := 0
  intMultiplier := 1
  currentSpeed := 0
  targetSpeed := 0
  initialSpeed := 20
  acceleration := 20
  deceleratedSpeed := 10
  baseSpeed := 20
  acceleratedSpeed := 50
  xSum := 0
  ySum := 0
  xOut := 0
  yOut := 0
  prevMouseSpeed := MouseSpeed_Normal

/-! ## `modff` -/

/-- Integral part computed by `modff`: the argument truncated toward zero. -/
def modffInt (x : ℚ) : Int := if 0 ≤ x then ⌊x⌋ else ⌈x⌉

/-- Fractional part returned by `modff`; it carries the sign of the argument. -/
def modffFrac (x : ℚ) : ℚ := x - (modffInt x : ℚ)

/-! ## Direction signs -/

/-- Source `updateOneDirectionSign`: a sign that still has the expected value
although the expected direction is inactive flips to the other direction when
that one is active and is cleared otherwise. -/
def updateOneDirectionSign (ActiveMouseStates : MouseStates) (sign expectedSign : Int)
    (expectedState otherState : SerializedMouseAction) : Int :=
  if sign = expectedSign ∧ ActiveMouseStates expectedState = 0 then
    (if ActiveMouseStates otherState ≠ 0 then -expectedSign else 0)
  else sign

/-- Source `updateDirectionSigns`: four calls of `updateOneDirectionSign`, two
on the horizontal sign followed by two on the vertical sign. -/
def updateDirectionSigns (ActiveMouseStates : MouseStates)
    (kineticState : mouse_kinetic_state_t) : mouse_kinetic_state_t :=
  let h1 := updateOneDirectionSign ActiveMouseStates kineticState.horizontalStateSign (-1)
    kineticState.leftState kineticState.rightState
  let h2 := updateOneDirectionSign ActiveMouseStates h1 1
    kineticState.rightState kineticState.leftState
  let v1 := updateOneDirectionSign ActiveMouseStates kineticState.verticalStateSign (-1)
    kineticState.upState kineticState.downState
  let v2 := updateOneDirectionSign ActiveMouseStates v1 1
    kineticState.downState kineticState.upState
  { kineticState with horizontalStateSign := h2, verticalStateSign := v2 }

/-- The module-level variables written by the key-transition handlers. -/
structure Globals where
  ActiveMouseStates : MouseStates
  ToggledMouseStates : MouseStates
  MouseMoveState : mouse_kinetic_state_t
  MouseScrollState : mouse_kinetic_state_t

/-- Source `MouseController_ActivateDirectionSigns`: the `switch` over the
eight direction codes; every other code falls through without effect. -/
def MouseController_ActivateDirectionSigns (state : SerializedMouseAction) (g : Globals) :
    Globals :=
  match state with
  | MoveUp => { g with MouseMoveState := { g.MouseMoveState with verticalStateSign := -1 } }
  | MoveDown => { g with MouseMoveState := { g.MouseMoveState with verticalStateSign := 1 } }
  | MoveLeft => { g with MouseMoveState := { g.MouseMoveState with horizontalStateSign := -1 } }
  | MoveRight => { g with MouseMoveState := { g.MouseMoveState with horizontalStateSign := 1 } }
  | ScrollUp => { g with MouseScrollState := { g.MouseScrollState with verticalStateSign := 1 } }
  | ScrollDown =>
    { g with MouseScrollState := { g.MouseScrollState with verticalStateSign := -1 } }
  | ScrollLeft =>
    { g with MouseScrollState := { g.MouseScrollState with horizontalStateSign := -1 } }
  | ScrollRight =>
    { g with MouseScrollState := { g.MouseScrollState with horizontalStateSign := 1 } }
  | _ => g

/-- Source `ToggleMouseState`.  Activation increments both the toggled and the
active counter (8-bit, wrapping) and updates the direction signs; deactivation
decrements the toggled counter when it is positive. -/
def ToggleMouseState (action : SerializedMouseAction) (activate : Bool) (g : Globals) :
    Globals :=
  if activate then
    let g1 := { g with
      ToggledMouseStates := Function.update g.ToggledMouseStates action
        ((g.ToggledMouseStates action + 1) % 256) }
    let g2 := { g1 with
      ActiveMouseStates := Function.update g1.ActiveMouseStates action
        ((g1.ActiveMouseStates action + 1) % 256) }
    MouseController_ActivateDirectionSigns action g2
  else
    { g with
      ToggledMouseStates := Function.update g.ToggledMouseStates action
        (g.ToggledMouseStates action - (if g.ToggledMouseStates action > 0 then 1 else 0)) }

/-! ## Kinetic axis model: `processMouseKineticState`

The body of the source function is split into its consecutive stages; the
function itself is their composition. -/

/-- Local `doublePressedStateExists` of the source. -/
def doublePressedStateExists (ActiveMouseStates : MouseStates)
    (kineticState : mouse_kinetic_state_t) : Bool :=
  decide (ActiveMouseStates kineticState.upState > 1) ||
  decide (ActiveMouseStates kineticState.downState > 1) ||
  decide (ActiveMouseStates kineticState.leftState > 1) ||
  decide (ActiveMouseStates kineticState.rightState > 1)

/-- Local `isMoveAction` of the source. -/
def isMoveAction (ActiveMouseStates : MouseStates)
    (kineticState : mouse_kinetic_state_t) : Bool :=
  decide (ActiveMouseStates kineticState.upState ≠ 0) ||
  decide (ActiveMouseStates kineticState.downState ≠ 0) ||
  decide (ActiveMouseStates kineticState.leftState ≠ 0) ||
  decide (ActiveMouseStates kineticState.rightState ≠ 0)

/-- First stage: when no motion was active in the previous tick and the
decelerate modifier is not active, `currentSpeed` restarts from
`intMultiplier * initialSpeed`. -/
def resetSpeed (ActiveMouseStates : MouseStates)
    (kineticState : mouse_kinetic_state_t) : mouse_kinetic_state_t :=
  if kineticState.wasMoveAction = false ∧ ActiveMouseStates Decelerate = 0 then
    { kineticState with
      currentSpeed := ((kineticState.intMultiplier * kineticState.initialSpeed : Nat) : ℚ) }
  else kineticState

/-- Local `mouseSpeed` of the source after the tier selection. -/
def mouseSpeed (ActiveMouseStates : MouseStates)
    (kineticState : mouse_kinetic_state_t) : mouse_speed_t :=
  if ActiveMouseStates Accelerate ≠ 0 ∨
      doublePressedStateExists ActiveMouseStates kineticState = true then
    MouseSpeed_Accelerated
  else if ActiveMouseStates Decelerate ≠ 0 then MouseSpeed_Decelerated
  else MouseSpeed_Normal

/-- Second stage: selection of `targetSpeed` by tier. -/
def selectTargetSpeed (ActiveMouseStates : MouseStates)
    (kineticState : mouse_kinetic_state_t) : mouse_kinetic_state_t :=
  if ActiveMouseStates Accelerate ≠ 0 ∨
      doublePressedStateExists ActiveMouseStates kineticState = true then
    { kineticState with
      targetSpeed := ((kineticState.intMultiplier * kineticState.acceleratedSpeed : Nat) : ℚ) }
  else if ActiveMouseStates Decelerate ≠ 0 then
    { kineticState with
      targetSpeed := ((kineticState.intMultiplier * kineticState.deceleratedSpeed : Nat) : ℚ) }
  else if isMoveAction ActiveMouseStates kineticState = true then
    { kineticState with
      targetSpeed := ((kineticState.intMultiplier * kineticState.baseSpeed : Nat) : ℚ) }
  else kineticState

/-- Third stage: `currentSpeed` jumps to `targetSpeed` in the accelerated tier
and when the tier changed while motion continues. -/
def snapSpeed (ActiveMouseStates : MouseStates)
    (kineticState : mouse_kinetic_state_t) : mouse_kinetic_state_t :=
  if mouseSpeed ActiveMouseStates kineticState = MouseSpeed_Accelerated ∨
      (kineticState.wasMoveAction = true ∧ isMoveAction ActiveMouseStates kineticState = true ∧
        kineticState.prevMouseSpeed ≠ mouseSpeed ActiveMouseStates kineticState) then
    { kineticState with currentSpeed := kineticState.targetSpeed }
  else kineticState

/-- Speed step of one tick: `acceleration * (float)mouseElapsedTime / 1000.0f`
with `acceleration = intMultiplier * acceleration`. -/
def speedStep (mouseElapsedTime : Nat) (kineticState : mouse_kinetic_state_t) : ℚ :=
  ((kineticState.intMultiplier * kineticState.acceleration : Nat) : ℚ) *
    (mouseElapsedTime : ℚ) / 1000

/-- Fourth stage (motion branch): `currentSpeed` moves toward `targetSpeed` by
one speed step and is clamped at `targetSpeed`. -/
def rampSpeed (mouseElapsedTime : Nat) (kineticState : mouse_kinetic_state_t) :
    mouse_kinetic_state_t :=
  if kineticState.currentSpeed < kineticState.targetSpeed then
    let c := kineticState.currentSpeed + speedStep mouseElapsedTime kineticState
    { kineticState with
      currentSpeed := if c > kineticState.targetSpeed then kineticState.targetSpeed else c }
  else
    let c := kineticState.currentSpeed - speedStep mouseElapsedTime kineticState
    { kineticState with
      currentSpeed := if c < kineticState.targetSpeed then kineticState.targetSpeed else c }

/-- Local `distance` of the source after the diagonal compensation, computed
on the state whose speed is ramped and whose signs are re-evaluated. -/
def tickDistance (CompensateDiagonalSpeed : Bool) (mouseElapsedTime : Nat)
    (kineticState : mouse_kinetic_state_t) : ℚ :=
  let distance := kineticState.currentSpeed * (mouseElapsedTime : ℚ) / 1000
  if kineticState.horizontalStateSign ≠ 0 ∧ kineticState.verticalStateSign ≠ 0 ∧
      CompensateDiagonalSpeed = true then
    distance / (141 / 100)
  else distance

/-- Fifth stage (motion branch): integration of the distance into the
per-axis sums, split of each sum by `modff`, and the first-scroll-tick rule. -/
def integrate (ActiveMouseStates : MouseStates) (CompensateDiagonalSpeed : Bool)
    (mouseElapsedTime : Nat) (kineticState : mouse_kinetic_state_t) : mouse_kinetic_state_t :=
  let firstScroll : Bool := kineticState.isScroll && !kineticState.wasMoveAction
  let k1 := if firstScroll = true then { kineticState with xSum := 0, ySum := 0 }
    else kineticState
  let k2 := updateDirectionSigns ActiveMouseStates k1
  let distance := tickDistance CompensateDiagonalSpeed mouseElapsedTime k2
  let xSum := k2.xSum + distance * (k2.horizontalStateSign : ℚ)
  let ySum := k2.ySum + distance * (k2.verticalStateSign : ℚ)
  let horizontalMovement : Bool := decide (k2.horizontalStateSign ≠ 0)
  let xSumInt := modffInt xSum
  let xSumFrac := modffFrac xSum
  let forceX : Bool := firstScroll && decide (xSumInt = 0) && horizontalMovement
  let xOut := if forceX = true then
    (if ActiveMouseStates k2.leftState ≠ 0 then (-1 : Int) else 1) else xSumInt
  let xRem := if forceX = true then (0 : ℚ) else xSumFrac
  let verticalMovement : Bool := decide (k2.verticalStateSign ≠ 0)
  let ySumInt := modffInt ySum
  let ySumFrac := modffFrac ySum
  let forceY : Bool := firstScroll && decide (ySumInt = 0) && verticalMovement
  let yOut := if forceY = true then
    (if ActiveMouseStates k2.upState ≠ 0 then (-1 : Int) else 1) else ySumInt
  let yRem := if forceY = true then (0 : ℚ) else ySumFrac
  { k2 with xSum := xRem, ySum := yRem, xOut := xOut, yOut := yOut }

/-- Source `processMouseKineticState`. -/
def processMouseKineticState (ActiveMouseStates : MouseStates)
    (CompensateDiagonalSpeed : Bool) (mouseElapsedTime : Nat)
    (kineticState : mouse_kinetic_state_t) : mouse_kinetic_state_t :=
  let k1 := resetSpeed ActiveMouseStates kineticState
  let k2 := selectTargetSpeed ActiveMouseStates k1
  let k3 := snapSpeed ActiveMouseStates k2
  let k4 := if isMoveAction ActiveMouseStates k3 = true then
      integrate ActiveMouseStates CompensateDiagonalSpeed mouseElapsedTime
        (rampSpeed mouseElapsedTime k3)
    else { k3 with currentSpeed := 0 }
  { k4 with
    prevMouseSpeed := mouseSpeed ActiveMouseStates kineticState
    wasMoveAction := isMoveAction ActiveMouseStates kineticState }

/-- State of the three stages in front of the ramp: reset, tier selection and
snap (source lines 117 to 144). -/
def preRamp (ActiveMouseStates : MouseStates) (kineticState : mouse_kinetic_state_t) :
    mouse_kinetic_state_t :=
  snapSpeed ActiveMouseStates
    (selectTargetSpeed ActiveMouseStates (resetSpeed ActiveMouseStates kineticState))

/-! ## The kinetic part of the tick function -/

/-- Pointer fields of the outgoing report that the kinetic models write.  The
fields hold the integers that are assigned to them. -/
structure usb_mouse_report_t where
  buttons : Nat
  x : Int
  y : Int
  wheelX : Int
  wheelY : Int
  deriving DecidableEq

/-- State touched by the kinetic part of `MouseController_ProcessMouseActions`. -/
structure KineticTickState where
  MouseMoveState : mouse_kinetic_state_t
  MouseScrollState : mouse_kinetic_state_t
  ActiveUsbMouseReport : usb_mouse_report_t

/-- The assignments `xOut = 0; yOut = 0` that follow each read of the outputs. -/
def clearOutputs (kineticState : mouse_kinetic_state_t) : mouse_kinetic_state_t :=
  { kineticState with xOut := 0, yOut := 0 }

/-- Kinetic part of `MouseController_ProcessMouseActions` (the statements between
the measurement of the elapsed time and the adapters): both kinetic states are
processed, their outputs are stored in the report and then zeroed.  The outputs
are stored as they are; the reduction to the eight bits of a field is applied
where a later stage adds to the field. -/
def processKineticStates (ActiveMouseStates : MouseStates) (CompensateDiagonalSpeed : Bool)
    (mouseElapsedTime : Nat) (s : KineticTickState) : KineticTickState :=
  let move := processMouseKineticState ActiveMouseStates CompensateDiagonalSpeed
    mouseElapsedTime s.MouseMoveState
  let r1 := { s.ActiveUsbMouseReport with x := move.xOut, y := move.yOut }
  let scroll := processMouseKineticState ActiveMouseStates CompensateDiagonalSpeed
    mouseElapsedTime s.MouseScrollState
  let r2 := { r1 with wheelX := scroll.xOut, wheelY := scroll.yOut }
  { MouseMoveState := clearOutputs move
    MouseScrollState := clearOutputs scroll
    ActiveUsbMouseReport := r2 }

/-! ## Sequences of calls

A kinetic state is processed once per tick.  Between two ticks the key-down
handler may overwrite either direction sign, and after each call the caller
reads `xOut`, `yOut` and zeroes them. -/

/-- What one tick supplies to a call of `processMouseKineticState`: the
snapshot of active states, the compensation flag, the elapsed milliseconds, and
the direction signs as the key handlers left them. -/
structure TickInput where
  ActiveMouseStates : MouseStates
  CompensateDiagonalSpeed : Bool
  mouseElapsedTime : Nat
  horizontalStateSign : Int
  verticalStateSign : Int

/-- One call of `processMouseKineticState` on the state carrying the signs of
the tick input. -/
def kineticCall (i : TickInput) (kineticState : mouse_kinetic_state_t) :
    mouse_kinetic_state_t :=
  processMouseKineticState i.ActiveMouseStates i.CompensateDiagonalSpeed i.mouseElapsedTime
    { kineticState with
      horizontalStateSign := i.horizontalStateSign
      verticalStateSign := i.verticalStateSign }

/-- State after a sequence of ticks (outputs zeroed by the caller after each). -/
def finalState : List TickInput → mouse_kinetic_state_t → mouse_kinetic_state_t
  | [], kineticState => kineticState
  | i :: rest, kineticState => finalState rest (clearOutputs (kineticCall i kineticState))

/-- Sum of the integers `xOut` read by the caller over a sequence of ticks. -/
def emittedX : List TickInput → mouse_kinetic_state_t → Int
  | [], _ => 0
  | i :: rest, kineticState =>
    (kineticCall i kineticState).xOut + emittedX rest (clearOutputs (kineticCall i kineticState))

/-- Sum of the integers `yOut` read by the caller over a sequence of ticks. -/
def emittedY : List TickInput → mouse_kinetic_state_t → Int
  | [], _ => 0
  | i :: rest, kineticState =>
    (kineticCall i kineticState).yOut + emittedY rest (clearOutputs (kineticCall i kineticState))

/-- Signed horizontal distance of one tick, read off the state after the call:
`currentSpeed * elapsed / 1000`, diagonally compensated, times the sign. -/
def signedDistanceX (i : TickInput) (after : mouse_kinetic_state_t) : ℚ :=
  tickDistance i.CompensateDiagonalSpeed i.mouseElapsedTime after *
    (after.horizontalStateSign : ℚ)

/-- Signed vertical distance of one tick, read off the state after the call. -/
def signedDistanceY (i : TickInput) (after : mouse_kinetic_state_t) : ℚ :=
  tickDistance i.CompensateDiagonalSpeed i.mouseElapsedTime after *
    (after.verticalStateSign : ℚ)

/-- Exact sum of the signed horizontal distances over a sequence of ticks. -/
def travelledX : List TickInput → mouse_kinetic_state_t → ℚ
  | [], _ => 0
  | i :: rest, kineticState =>
    signedDistanceX i (kineticCall i kineticState) +
      travelledX rest (clearOutputs (kineticCall i kineticState))

/-- Exact sum of the signed vertical distances over a sequence of ticks. -/
def travelledY : List TickInput → mouse_kinetic_state_t → ℚ
  | [], _ => 0
  | i :: rest, kineticState =>
    signedDistanceY i (kineticCall i kineticState) +
      travelledY rest (clearOutputs (kineticCall i kineticState))

/-- A direction sign has one of its three values. -/
def ValidSign (s : Int) : Prop := s = -1 ∨ s = 0 ∨ s = 1

instance (s : Int) : Decidable (ValidSign s) := by unfold ValidSign; infer_instance

/-! ## Auxiliary definitions for the statements -/

/-- Horizontal sum that `integrate` hands to `modff`. -/
def integrateSumX (A : MouseStates) (C : Bool) (t : Nat) (k : mouse_kinetic_state_t) : ℚ :=
  (if (k.isScroll && !k.wasMoveAction) = true then 0 else k.xSum) +
    tickDistance C t (updateDirectionSigns A k) *
      ((updateDirectionSigns A k).horizontalStateSign : ℚ)

/-- Vertical sum that `integrate` hands to `modff`. -/
def integrateSumY (A : MouseStates) (C : Bool) (t : Nat) (k : mouse_kinetic_state_t) : ℚ :=
  (if (k.isScroll && !k.wasMoveAction) = true then 0 else k.ySum) +
    tickDistance C t (updateDirectionSigns A k) *
      ((updateDirectionSigns A k).verticalStateSign : ℚ)

/-- The direction opposing a direction code on the same axis of the same kind. -/
def opposingDirection : SerializedMouseAction → Option SerializedMouseAction
  | MoveUp => some MoveDown
  | MoveDown => some MoveUp
  | MoveLeft => some MoveRight
  | MoveRight => some MoveLeft
  | ScrollUp => some ScrollDown
  | ScrollDown => some ScrollUp
  | ScrollLeft => some ScrollRight
  | ScrollRight => some ScrollLeft
  | _ => none

/-- Sign value that `updateDirectionSigns` associates with a direction code of a
kinetic state: `-1` for its `upState` and `leftState`, `+1` for its `downState`
and `rightState`. -/
def directionValue (k : mouse_kinetic_state_t) (d : SerializedMouseAction) : Int :=
  if d = k.upState ∨ d = k.leftState then -1
  else if d = k.downState ∨ d = k.rightState then 1
  else 0

/-- The kinetic state a direction code belongs to and the sign of the axis it
acts on: `(isScroll, isVertical)`. -/
def directionAxis : SerializedMouseAction → Option (Bool × Bool)
  | MoveUp => some (false, true)
  | MoveDown => some (false, true)
  | MoveLeft => some (false, false)
  | MoveRight => some (false, false)
  | ScrollUp => some (true, true)
  | ScrollDown => some (true, true)
  | ScrollLeft => some (true, false)
  | ScrollRight => some (true, false)
  | _ => none

/-- Kinetic state of the kind a direction code belongs to. -/
def kineticStateOf (g : Globals) (d : SerializedMouseAction) : mouse_kinetic_state_t :=
  match directionAxis d with
  | some (true, _) => g.MouseScrollState
  | _ => g.MouseMoveState

/-- Sign of the axis a direction code acts on, read from a kinetic state. -/
def axisSign (k : mouse_kinetic_state_t) (d : SerializedMouseAction) : Int :=
  match directionAxis d with
  | some (_, true) => k.verticalStateSign
  | _ => k.horizontalStateSign

/-- The direction tables of both kinetic states are those of the static
initialisers (no statement of the source assigns these fields). -/
def DirectionTablesIntact (g : Globals) : Prop :=
  g.MouseMoveState.upState = MoveUp ∧ g.MouseMoveState.downState = MoveDown ∧
  g.MouseMoveState.leftState = MoveLeft ∧ g.MouseMoveState.rightState = MoveRight ∧
  g.MouseScrollState.upState = ScrollDown ∧ g.MouseScrollState.downState = ScrollUp ∧
  g.MouseScrollState.leftState = ScrollLeft ∧ g.MouseScrollState.rightState = ScrollRight

/-- Start-up value of the module-level variables. -/
def initialGlobals : Globals where
  ActiveMouseStates := fun _ => 0
  ToggledMouseStates := fun _ => 0
  MouseMoveState := MouseMoveState
  MouseScrollState := MouseScrollState

/-! ## Concrete inputs used by the worked instances -/

/-- Snapshot with `MoveUp` held once and nothing else. -/
def moveUpOnly : MouseStates := fun a =>
  match a with
  | MoveUp => 1
  | _ => 0

/-- Snapshot with `MoveUp` and the accelerate modifier held. -/
def moveUpAccelerated : MouseStates := fun a =>
  match a with
  | MoveUp => 1
  | Accelerate => 1
  | _ => 0

/-- Move state in the middle of an upward motion at the normal tier: motion was
active in the previous tick, the speed is 142.5 on its way to 1000. -/
def movingUpNormal : mouse_kinetic_state_t :=
  { MouseMoveState with
    verticalStateSign := -1
    wasMoveAction := true
    currentSpeed := 285 / 2
    targetSpeed := 1000 }

/-- Snapshot with `MoveUp` pressed twice (counter 2) and nothing else. -/
def moveUpTwice : MouseStates := fun a =>
  match a with
  | MoveUp => 2
  | _ => 0

/-- Snapshot with `MoveUp` and the decelerate modifier held. -/
def moveUpDecelerated : MouseStates := fun a =>
  match a with
  | MoveUp => 1
  | Decelerate => 1
  | _ => 0

/-- Snapshot with `MoveRight` held once and nothing else. -/
def moveRightOnly : MouseStates := fun a =>
  match a with
  | MoveRight => 1
  | _ => 0

/-- Snapshot with `ScrollRight` held once and nothing else. -/
def scrollRightOnly : MouseStates := fun a =>
  match a with
  | ScrollRight => 1
  | _ => 0

/-- Snapshot with `ScrollDown` held once and nothing else. -/
def scrollDownOnly : MouseStates := fun a =>
  match a with
  | ScrollDown => 1
  | _ => 0

/-- Snapshot in which both horizontal scroll directions are held. -/
def bothScrollKeys : MouseStates := fun a =>
  match a with
  | ScrollLeft => 1
  | ScrollRight => 1
  | _ => 0

/-- Snapshot in which nothing is held. -/
def nothingHeld : MouseStates := fun _ => 0

/-- Scroll state at rest whose horizontal sign was set by the activation of
`ScrollRight`. -/
def scrollRightLast : mouse_kinetic_state_t :=
  { MouseScrollState with horizontalStateSign := 1 }

/-- Scroll state at rest whose vertical sign was set by the activation of
`ScrollDown`. -/
def scrollDownLast : mouse_kinetic_state_t :=
  { MouseScrollState with verticalStateSign := -1 }

/-- Move state at rest whose horizontal sign is still that of `MoveLeft`. -/
def moveLeftStale : mouse_kinetic_state_t :=
  { MouseMoveState with horizontalStateSign := -1 }

/-- A tick of 20 ms with `MoveUp` held and the vertical sign set by its activation. -/
def tickUp20 : TickInput where
  ActiveMouseStates := moveUpOnly
  CompensateDiagonalSpeed := false
  mouseElapsedTime := 20
  horizontalStateSign := 0
  verticalStateSign := -1

/-- Start-up value of the state of the kinetic part of the tick function. -/
def initialTickState : KineticTickState where
  MouseMoveState := MouseMoveState
  MouseScrollState := MouseScrollState
  ActiveUsbMouseReport := { buttons := 0, x := 0, y := 0, wheelX := 0, wheelY := 0 }

/-! ## Further definitions for the statements -/

/-- Largest speed a kinetic state can be asked to reach:
`intMultiplier * max(initialSpeed, deceleratedSpeed, baseSpeed, acceleratedSpeed)`. -/
def speedCeiling (k : mouse_kinetic_state_t) : ℚ :=
  (k.intMultiplier : ℚ) *
    ((max (max k.initialSpeed k.deceleratedSpeed) (max k.baseSpeed k.acceleratedSpeed) : Nat) : ℚ)

/-- The sign tracker agrees with the key state: a horizontal sign `-1` (`+1`)
means the left (right) direction is active, a vertical sign `-1` (`+1`) means
the up (down) direction is active. -/
def SignsSynchronised (A : MouseStates) (k : mouse_kinetic_state_t) : Prop :=
  (k.horizontalStateSign ≠ 0 →
    (k.horizontalStateSign = -1 ∧ A k.leftState ≠ 0) ∨
      (k.horizontalStateSign = 1 ∧ A k.rightState ≠ 0)) ∧
  (k.verticalStateSign ≠ 0 →
    (k.verticalStateSign = -1 ∧ A k.upState ≠ 0) ∨
      (k.verticalStateSign = 1 ∧ A k.downState ≠ 0))

/-- Move state at rest with the horizontal sign set by the activation of
`MoveRight`. -/
def moveRightPressed : mouse_kinetic_state_t :=
  { MouseMoveState with horizontalStateSign := 1 }

/-- Move state at rest with the vertical sign set by the activation of `MoveUp`. -/
def moveUpStart : mouse_kinetic_state_t :=
  { MouseMoveState with verticalStateSign := -1 }

/-- End-to-end scenario, state after the first tick of 20 ms with `MoveUp` held. -/
def scenarioTick1 : mouse_kinetic_state_t :=
  processMouseKineticState moveUpOnly false 20 moveUpStart

/-- End-to-end scenario, state after the second tick (the caller has zeroed the
outputs of the first). -/
def scenarioTick2 : mouse_kinetic_state_t :=
  processMouseKineticState moveUpOnly false 20 (clearOutputs scenarioTick1)

/-- End-to-end scenario, state after the third tick. -/
def scenarioTick3 : mouse_kinetic_state_t :=
  processMouseKineticState moveUpOnly false 20 (clearOutputs scenarioTick2)

/-! ## Pointer adapters, key cluster, report aggregator and buttons

The remaining stages of `MouseController_ProcessMouseActions`.  The function-local
and file-local `static` variables of the source are fields of one state record;
inputs that the function only reads are fields of an environment record. -/

/-- Conversion of an integer to a signed 8-bit value (two's complement). -/
def int8_wrap (v : Int) : Int := (v + 128) % 256 - 128

/-- Conversion of an integer to `uint8_t`. -/
def uint8_wrap (v : Int) : Int := v % 256

/-- Difference `a - b` of two `uint32_t` time stamps, modulo `2 ^ 32`. -/
def uint32_sub (a b : Nat) : Nat := (a % 2 ^ 32 + 2 ^ 32 - b % 2 ^ 32) % 2 ^ 32

/-- Record `TouchpadEvents` written by the touchpad driver.  The wheel fields
are signed accumulators of wheel ticks. -/
structure touchpad_events_t where
  x : Int
  y : Int
  wheelX : Int
  wheelY : Int
  singleTap : Bool
  twoFingerTap : Bool
  tapAndHold : Bool
  deriving DecidableEq

/-- Module identifiers.  The four named ones are the cases of the `switch` of
the source; `ModuleId_Unhandled` stands for every identifier without a case. -/
inductive module_id_t
  | ModuleId_KeyClusterLeft
  | ModuleId_TouchpadRight
  | ModuleId_TrackballRight
  | ModuleId_TrackpointRight
  | ModuleId_Unhandled
  deriving DecidableEq, Repr

open module_id_t

/-- Raw pointer delta of a module (`pointerDelta`). -/
structure pointer_delta_t where
  x : Int
  y : Int
  deriving DecidableEq

/-- State of one attached module (`uhk_module_state_t`), as far as the mouse
controller reads it. -/
structure uhk_module_state_t where
  moduleId : module_id_t
  pointerDelta : pointer_delta_t
  pointerCount : Nat
  deriving DecidableEq

/-- Layer identifiers (`layer_id_t`); only `LayerId_Mouse` and `LayerId_Fn` are
named by the mouse controller. -/
inductive layer_id_t
  | LayerId_Base | LayerId_Mod | LayerId_Fn | LayerId_Mouse
  deriving DecidableEq, Repr

open layer_id_t

/-- Text written to the status display by `expDriver`. -/
inductive CurveText
  | LIN | SRT
  deriving DecidableEq, Repr

/-- Bit masks `MouseButton_*` of the report's `buttons` field.  Their values
are declared outside the sources at hand and are parameters of the model. -/
structure MouseButtonMasks where
  MouseButton_Left : Nat
  MouseButton_Middle : Nat
  MouseButton_Right : Nat
  MouseButton_4 : Nat
  MouseButton_5 : Nat
  MouseButton_6 : Nat
  MouseButton_7 : Nat
  MouseButton_8 : Nat

/-- File-local tuning variables of the speed shaping (`minSpeedCoef`, `midSpeed`,
`midSpeedCoef`, `maxSpeedCoef`, `expBase`, `expShift`). -/
structure ExpDriverParams where
  minSpeedCoef : ℚ
  midSpeed : ℚ
  midSpeedCoef : ℚ
  maxSpeedCoef : ℚ
  expBase : ℚ
  expShift : ℚ

/-- Initial values of the tuning variables. -/
def defaultExpDriverParams : ExpDriverParams where
  minSpeedCoef := 1 / 2
  midSpeed := 3000
  midSpeedCoef := 1
  maxSpeedCoef := 8
  expBase := 2
  expShift := -1

/-- What one call of `MouseController_ProcessMouseActions` reads without
writing: the snapshot of active states, the flags and globals set elsewhere, the
elapsed time returned by the timer, the tuning variables, and the two functions
of the C mathematics library that the source calls (`sqrt`, `pow`). -/
structure TickEnvironment where
  ActiveMouseStates : MouseStates
  CompensateDiagonalSpeed : Bool
  mouseElapsedTime : Nat
  CurrentTime : Nat
  touchpadConnected : Bool
  ActiveLayer : layer_id_t
  touchpadScrollDivisor : Nat
  params : ExpDriverParams
  buttons : MouseButtonMasks
  sqrt : ℚ → ℚ
  pow : ℚ → ℚ → ℚ

/-- Variables written by `MouseController_ProcessMouseActions`: the kinetic
states and the mouse report, the keyboard report's scancode array with its fill
index, the touchpad record, the module states, and the `static` variables of
the function, of `recalculateSpeed` and of `expDriver`. -/
structure MouseControllerState where
  kinetic : KineticTickState
  scancodes : Nat → Nat
  basicScancodeIndex : Nat
  TouchpadEvents : touchpad_events_t
  UhkModuleStates : List uhk_module_state_t
  sumX : ℚ
  sumY : ℚ
  wX : Int
  wY : Int
  wLastX : Nat
  lastUpdate : Nat
  avgSpeedPerS : ℚ
  speedLastUpdate : Nat
  lastLine : Bool
  ledText : Option CurveText

/-- Macro `NONE` of the source. -/
def NONE : Nat := 0

/-- Macro `LX` of the source. -/
def LX : Nat := 1

/-- Macro `LY` of the source. -/
def LY : Nat := 2

/-- Constant `wC` of the source. -/
def wC : Int := 1

/-- HID usage code of the right arrow key. -/
def HID_KEYBOARD_SC_RIGHT_ARROW : Nat := 0x4F

/-- HID usage code of the left arrow key. -/
def HID_KEYBOARD_SC_LEFT_ARROW : Nat := 0x50

/-- HID usage code of the down arrow key. -/
def HID_KEYBOARD_SC_DOWN_ARROW : Nat := 0x51

/-- HID usage code of the up arrow key. -/
def HID_KEYBOARD_SC_UP_ARROW : Nat := 0x52

/-- Source `recalculateSpeed`: on a nonzero sample the speed estimate is
replaced (weight factor 1) by the sample's length per second since the previous
sample.  The division is the exact one; a zero divisor, which makes the source
value infinite (and not a number from the next sample on), is not represented:
the estimate of the model is that of the source only where
`uint32_sub CurrentTime speedLastUpdate` is nonzero. -/
def recalculateSpeed (env : TickEnvironment) (inx iny : Int) (s : MouseControllerState) :
    MouseControllerState :=
  if inx ≠ 0 ∨ iny ≠ 0 then
    let x : ℚ := (inx : ℚ)
    let y : ℚ := (iny : ℚ)
    let diffMs : ℚ := ((uint32_sub env.CurrentTime s.speedLastUpdate : Nat) : ℚ)
    let weightFactor : ℚ := 1
    let speedDiffPerS : ℚ := env.sqrt (x * x + y * y) * 1000 / diffMs
    { s with
      avgSpeedPerS := s.avgSpeedPerS * (1 - weightFactor) + speedDiffPerS * weightFactor
      speedLastUpdate := env.CurrentTime }
  else s

/-- Value returned by source `expDriver`: the linear curve when bit 14 of the
current time is clear, the power curve otherwise.  The quotient by `midSpeed` is
the exact one: the value is that of the source only where `midSpeed` is nonzero
(for `midSpeed = 0` the source value is infinite or not a number). -/
def expDriver (env : TickEnvironment) (s : MouseControllerState) : ℚ :=
  let origNormSpeed := s.avgSpeedPerS / env.params.midSpeed
  if env.CurrentTime &&& 16384 = 0 then
    env.params.minSpeedCoef +
      origNormSpeed * (env.params.midSpeedCoef - env.params.minSpeedCoef)
  else
    2 * env.params.minSpeedCoef *
      env.pow origNormSpeed (env.params.midSpeedCoef - env.params.minSpeedCoef)

/-- Side effect of source `expDriver`: the display text and the flag `lastLine`
follow the curve in use. -/
def expDriverEffect (env : TickEnvironment) (s : MouseControllerState) : MouseControllerState :=
  if env.CurrentTime &&& 16384 = 0 then
    if s.lastLine = false then { s with ledText := some CurveText.LIN, lastLine := true }
    else s
  else
    if s.lastLine = true then { s with ledText := some CurveText.SRT, lastLine := false }
    else s

/-- Wheel part of source `processTouchpadActions` for one accumulator: the
quotient stored in a `uint8_t`. -/
def wheelInteger (w : Int) (touchpadScrollDivisor : Nat) : Int :=
  uint8_wrap (Int.tdiv w (touchpadScrollDivisor : Int))

/-- First part of source `processTouchpadActions`: the motion sample updates
the speed estimate, is shaped and added to the accumulator (`outX`, `outY` point
to `sumX`, `sumY`), and is consumed.  The products are exact: they are those of
the source where the coefficient `q` is finite. -/
def touchpadMotion (env : TickEnvironment) (s : MouseControllerState) : MouseControllerState :=
  let s1 := recalculateSpeed env s.TouchpadEvents.x s.TouchpadEvents.y s
  let q := expDriver env s1
  let s2 := expDriverEffect env s1
  { s2 with
    sumX := s2.sumX + q * (s2.TouchpadEvents.x : ℚ)
    sumY := s2.sumY + q * (s2.TouchpadEvents.y : ℚ)
    TouchpadEvents := { s2.TouchpadEvents with x := 0, y := 0 } }

/-- Horizontal wheel part of source `processTouchpadActions`.
Modelled from the spec: the wheel fields of the report are signed 8-bit, so the
compound assignment with the `uint8_t` operand is taken modulo 256. -/
def touchpadWheelX (env : TickEnvironment) (s : MouseControllerState) : MouseControllerState :=
  let wheelXInteger := wheelInteger s.TouchpadEvents.wheelX env.touchpadScrollDivisor
  if wheelXInteger ≠ 0 then
    { s with
      kinetic := { s.kinetic with
        ActiveUsbMouseReport := { s.kinetic.ActiveUsbMouseReport with
          wheelX := int8_wrap (s.kinetic.ActiveUsbMouseReport.wheelX + wheelXInteger) } }
      TouchpadEvents := { s.TouchpadEvents with
        wheelX := Int.tmod s.TouchpadEvents.wheelX (env.touchpadScrollDivisor : Int) } }
  else s

/-- Vertical wheel part of source `processTouchpadActions`; the quotient is
subtracted.  Modelled from the spec: the wheel fields of the report are signed
8-bit. -/
def touchpadWheelY (env : TickEnvironment) (s : MouseControllerState) : MouseControllerState :=
  let wheelYInteger := wheelInteger s.TouchpadEvents.wheelY env.touchpadScrollDivisor
  if wheelYInteger ≠ 0 then
    { s with
      kinetic := { s.kinetic with
        ActiveUsbMouseReport := { s.kinetic.ActiveUsbMouseReport with
          wheelY := int8_wrap (s.kinetic.ActiveUsbMouseReport.wheelY - wheelYInteger) } }
      TouchpadEvents := { s.TouchpadEvents with
        wheelY := Int.tmod s.TouchpadEvents.wheelY (env.touchpadScrollDivisor : Int) } }
  else s

/-- Mask added to the report's buttons when a flag is set. -/
def maskIf (flag : Bool) (mask : Nat) : Nat := if flag = true then mask else 0

/-- Tap part of source `processTouchpadActions`: the single tap and the
two-finger tap set their button and are cleared, tap-and-hold sets the left
button and stays. -/
def touchpadTaps (env : TickEnvironment) (s : MouseControllerState) : MouseControllerState :=
  let s1 := if s.TouchpadEvents.singleTap = true then
      { s with
        kinetic := { s.kinetic with
          ActiveUsbMouseReport := { s.kinetic.ActiveUsbMouseReport with
            buttons := s.kinetic.ActiveUsbMouseReport.buttons |||
              env.buttons.MouseButton_Left } }
        TouchpadEvents := { s.TouchpadEvents with singleTap := false } }
    else s
  let s2 := if s1.TouchpadEvents.twoFingerTap = true then
      { s1 with
        kinetic := { s1.kinetic with
          ActiveUsbMouseReport := { s1.kinetic.ActiveUsbMouseReport with
            buttons := s1.kinetic.ActiveUsbMouseReport.buttons |||
              env.buttons.MouseButton_Right } }
        TouchpadEvents := { s1.TouchpadEvents with twoFingerTap := false } }
    else s1
  if s2.TouchpadEvents.tapAndHold = true then
    { s2 with
      kinetic := { s2.kinetic with
        ActiveUsbMouseReport := { s2.kinetic.ActiveUsbMouseReport with
          buttons := s2.kinetic.ActiveUsbMouseReport.buttons |||
            env.buttons.MouseButton_Left } } }
  else s2

/-- Source `processTouchpadActions`: its four consecutive parts. -/
def processTouchpadActions (env : TickEnvironment) (s : MouseControllerState) :
    MouseControllerState :=
  touchpadTaps env (touchpadWheelY env (touchpadWheelX env (touchpadMotion env s)))

/-- One arrow keystroke of the key cluster: the scancode is stored at the fill
index, the index advances, both counters are cleared and the axis is recorded. -/
def keyClusterEmit (scancode axis : Nat) (s : MouseControllerState) : MouseControllerState :=
  { s with
    scancodes := Function.update s.scancodes s.basicScancodeIndex scancode
    basicScancodeIndex := s.basicScancodeIndex + 1
    wX := 0
    wY := 0
    wLastX := axis }

/-- The four consecutive threshold tests of the key-cluster case, on the
counters after the accumulation of the delta. -/
def keyClusterArrows (s : MouseControllerState) : MouseControllerState :=
  let s1 := if (s.wX ≥ wC ∧ s.wLastX = LX) ∨ s.wX ≥ wC * 2 then
      keyClusterEmit HID_KEYBOARD_SC_RIGHT_ARROW LX s else s
  let s2 := if (s1.wX ≤ -wC ∧ s1.wLastX = LX) ∨ s1.wX ≤ -wC * 2 then
      keyClusterEmit HID_KEYBOARD_SC_LEFT_ARROW LX s1 else s1
  let s3 := if (s2.wY ≥ wC ∧ s2.wLastX = LY) ∨ s2.wY ≥ wC * 2 then
      keyClusterEmit HID_KEYBOARD_SC_DOWN_ARROW LY s2 else s2
  if (s3.wY ≤ -wC ∧ s3.wLastX = LY) ∨ s3.wY ≤ -wC * 2 then
    keyClusterEmit HID_KEYBOARD_SC_UP_ARROW LY s3 else s3

/-- Case `ModuleId_KeyClusterLeft` of the module loop: inactivity reset, then
accumulation of the delta into the 8-bit counters, then the threshold tests. -/
def processKeyCluster (env : TickEnvironment) (pointerDelta : pointer_delta_t)
    (s : MouseControllerState) : MouseControllerState :=
  let s1 := if pointerDelta.x ≠ 0 ∨ pointerDelta.y ≠ 0 then
      let s0 := if uint32_sub env.CurrentTime s.lastUpdate > 500 then
          { s with wX := 0, wY := 0, wLastX := NONE }
        else s
      { s0 with lastUpdate := env.CurrentTime }
    else s
  let s2 := { s1 with
    wX := int8_wrap (s1.wX + pointerDelta.x)
    wY := int8_wrap (s1.wY + pointerDelta.y) }
  keyClusterArrows s2

/-- Case `ModuleId_TrackballRight` of the module loop. -/
def processTrackball (env : TickEnvironment) (pointerDelta : pointer_delta_t)
    (s : MouseControllerState) : MouseControllerState :=
  let s1 := recalculateSpeed env pointerDelta.x pointerDelta.y s
  let q := expDriver env s1
  let s2 := expDriverEffect env s1
  { s2 with
    sumX := s2.sumX + (pointerDelta.x : ℚ) * q
    sumY := s2.sumY - (pointerDelta.y : ℚ) * q }

/-- Case `ModuleId_TrackpointRight` of the module loop. -/
def processTrackpoint (pointerDelta : pointer_delta_t) (s : MouseControllerState) :
    MouseControllerState :=
  { s with
    sumX := s.sumX + (pointerDelta.x : ℚ)
    sumY := s.sumY - (pointerDelta.y : ℚ) }

/-- Body of the `switch` over the module identifier. -/
def processModulePointer (env : TickEnvironment) (moduleState : uhk_module_state_t)
    (s : MouseControllerState) : MouseControllerState :=
  match moduleState.moduleId with
  | ModuleId_KeyClusterLeft => processKeyCluster env moduleState.pointerDelta s
  | ModuleId_TouchpadRight => s
  | ModuleId_TrackballRight => processTrackball env moduleState.pointerDelta s
  | ModuleId_TrackpointRight => processTrackpoint moduleState.pointerDelta s
  | ModuleId_Unhandled => s

/-- The loop over the module states: a module with a nonzero `pointerCount` sets
`moveDeltaChanged`, is processed by its case and has its delta zeroed.  The
result is the list of module states after the loop, the other variables, and
`moveDeltaChanged`. -/
def processModules (env : TickEnvironment) :
    List uhk_module_state_t → MouseControllerState → Bool →
      List uhk_module_state_t × MouseControllerState × Bool
  | [], s, moveDeltaChanged => ([], s, moveDeltaChanged)
  | moduleState :: rest, s, moveDeltaChanged =>
    if moduleState.pointerCount ≠ 0 then
      let r := processModules env rest (processModulePointer env moduleState s) true
      ({ moduleState with pointerDelta := { x := 0, y := 0 } } :: r.1, r.2.1, r.2.2)
    else
      let r := processModules env rest s moveDeltaChanged
      (moduleState :: r.1, r.2.1, r.2.2)

/-- Local `scrollMode` of the source. -/
def scrollMode (ActiveLayer : layer_id_t) : Bool :=
  decide (ActiveLayer = LayerId_Mouse) || decide (ActiveLayer = LayerId_Fn)

/-- Local `scrollSpeedDivisor` of the source. -/
def scrollSpeedDivisor : ℚ := 8

/-- The report aggregator: when a pointer source contributed, the accumulator
is divided in scroll mode, split by `modff`, its integral part added to the
wheel fields (scroll mode) or to `x`, `y` (move mode), and its fractional part
kept, multiplied back in scroll mode.
Modelled from the spec: the fields `x`, `y`, `wheelX`, `wheelY` of the report
are signed 8-bit, so the sum of a field and the integral part is stored as a
signed 8-bit value: the sum itself when it lies in `-128..127`, and otherwise
the sum reduced modulo 256, which is how the conversion of the out-of-range
`float` sum comes out on the usual targets. -/
def aggregatePointerSums (scrollMode moveDeltaChanged : Bool) (s : MouseControllerState) :
    MouseControllerState :=
  if moveDeltaChanged = true then
    let sumX1 := if scrollMode = true then s.sumX / scrollSpeedDivisor else s.sumX
    let sumY1 := if scrollMode = true then s.sumY / scrollSpeedDivisor else s.sumY
    let xSumInt := modffInt sumX1
    let sumX2 := modffFrac sumX1
    let ySumInt := modffInt sumY1
    let sumY2 := modffFrac sumY1
    if scrollMode = true then
      { s with
        kinetic := { s.kinetic with
          ActiveUsbMouseReport := { s.kinetic.ActiveUsbMouseReport with
            wheelX := int8_wrap (s.kinetic.ActiveUsbMouseReport.wheelX + xSumInt)
            wheelY := int8_wrap (s.kinetic.ActiveUsbMouseReport.wheelY - ySumInt) } }
        sumX := sumX2 * scrollSpeedDivisor
        sumY := sumY2 * scrollSpeedDivisor }
    else
      { s with
        kinetic := { s.kinetic with
          ActiveUsbMouseReport := { s.kinetic.ActiveUsbMouseReport with
            x := int8_wrap (s.kinetic.ActiveUsbMouseReport.x + xSumInt)
            y := int8_wrap (s.kinetic.ActiveUsbMouseReport.y + ySumInt) } }
        sumX := sumX2
        sumY := sumY2 }
  else s

/-- One of the eight final statements: the bit of a click code is set in the
report when its counter is nonzero. -/
def orButton (ActiveMouseStates : MouseStates) (code : SerializedMouseAction) (mask : Nat)
    (buttons : Nat) : Nat :=
  if ActiveMouseStates code ≠ 0 then buttons ||| mask else buttons

/-- The eight final statements of the source, in their order. -/
def applyClickButtons (env : TickEnvironment) (buttons : Nat) : Nat :=
  let b1 := orButton env.ActiveMouseStates LeftClick env.buttons.MouseButton_Left buttons
  let b2 := orButton env.ActiveMouseStates MiddleClick env.buttons.MouseButton_Middle b1
  let b3 := orButton env.ActiveMouseStates RightClick env.buttons.MouseButton_Right b2
  let b4 := orButton env.ActiveMouseStates Button_4 env.buttons.MouseButton_4 b3
  let b5 := orButton env.ActiveMouseStates Button_5 env.buttons.MouseButton_5 b4
  let b6 := orButton env.ActiveMouseStates Button_6 env.buttons.MouseButton_6 b5
  let b7 := orButton env.ActiveMouseStates Button_7 env.buttons.MouseButton_7 b6
  orButton env.ActiveMouseStates Button_8 env.buttons.MouseButton_8 b7

/-- Source `MouseController_ProcessMouseActions`. -/
def MouseController_ProcessMouseActions (env : TickEnvironment) (s : MouseControllerState) :
    MouseControllerState :=
  let s1 := { s with
    kinetic := processKineticStates env.ActiveMouseStates env.CompensateDiagonalSpeed
      env.mouseElapsedTime s.kinetic }
  let s2 := if env.touchpadConnected = true then processTouchpadActions env s1 else s1
  let r := processModules env s2.UhkModuleStates s2 env.touchpadConnected
  let s3 := { r.2.1 with UhkModuleStates := r.1 }
  let s4 := aggregatePointerSums (scrollMode env.ActiveLayer) r.2.2 s3
  { s4 with
    kinetic := { s4.kinetic with
      ActiveUsbMouseReport := { s4.kinetic.ActiveUsbMouseReport with
        buttons := applyClickButtons env s4.kinetic.ActiveUsbMouseReport.buttons } } }

/-- The arrow, with its axis, that the threshold tests select: the first
applicable of right, left, down, up. -/
def keyClusterChoice (wX wY : Int) (wLastX : Nat) : Option (Nat × Nat) :=
  if (wX ≥ 1 ∧ wLastX = LX) ∨ wX ≥ 2 then some (HID_KEYBOARD_SC_RIGHT_ARROW, LX)
  else if (wX ≤ -1 ∧ wLastX = LX) ∨ wX ≤ -2 then some (HID_KEYBOARD_SC_LEFT_ARROW, LX)
  else if (wY ≥ 1 ∧ wLastX = LY) ∨ wY ≥ 2 then some (HID_KEYBOARD_SC_DOWN_ARROW, LY)
  else if (wY ≤ -1 ∧ wLastX = LY) ∨ wY ≤ -2 then some (HID_KEYBOARD_SC_UP_ARROW, LY)
  else none

/-- Divisor of the report aggregator: 8 in scroll mode, 1 otherwise. -/
def aggregatorDivisor (scrollMode : Bool) : ℚ := if scrollMode = true then 8 else 1

/-- Button bits that the touchpad taps contribute: left for a single tap or
tap-and-hold, right for a two-finger tap. -/
def tapBits (buttons : MouseButtonMasks) (t : touchpad_events_t) : Nat :=
  maskIf (t.singleTap || t.tapAndHold) buttons.MouseButton_Left |||
    maskIf t.twoFingerTap buttons.MouseButton_Right

/-- Button bits of the click codes whose counter is nonzero. -/
def clickBits (env : TickEnvironment) : Nat :=
  maskIf (decide (env.ActiveMouseStates LeftClick ≠ 0)) env.buttons.MouseButton_Left |||
  maskIf (decide (env.ActiveMouseStates MiddleClick ≠ 0)) env.buttons.MouseButton_Middle |||
  maskIf (decide (env.ActiveMouseStates RightClick ≠ 0)) env.buttons.MouseButton_Right |||
  maskIf (decide (env.ActiveMouseStates Button_4 ≠ 0)) env.buttons.MouseButton_4 |||
  maskIf (decide (env.ActiveMouseStates Button_5 ≠ 0)) env.buttons.MouseButton_5 |||
  maskIf (decide (env.ActiveMouseStates Button_6 ≠ 0)) env.buttons.MouseButton_6 |||
  maskIf (decide (env.ActiveMouseStates Button_7 ≠ 0)) env.buttons.MouseButton_7 |||
  maskIf (decide (env.ActiveMouseStates Button_8 ≠ 0)) env.buttons.MouseButton_8

/-- Sample values of the button masks: one bit per button. -/
def sampleButtonMasks : MouseButtonMasks where
  MouseButton_Left := 1
  MouseButton_Middle := 4
  MouseButton_Right := 2
  MouseButton_4 := 8
  MouseButton_5 := 16
  MouseButton_6 := 32
  MouseButton_7 := 64
  MouseButton_8 := 128

/-- Sample environment of a tick: nothing held, touchpad connected, base layer,
divisor 8; the two library functions are stand-ins whose values play no role in
the instances that use this environment. -/
def sampleEnvironment : TickEnvironment where
  ActiveMouseStates := nothingHeld
  CompensateDiagonalSpeed := false
  mouseElapsedTime := 20
  CurrentTime := 1000
  touchpadConnected := true
  ActiveLayer := LayerId_Base
  touchpadScrollDivisor := 8
  params := defaultExpDriverParams
  buttons := sampleButtonMasks
  sqrt := fun x => x
  pow := fun x _ => x

/-- Sample state in front of a tick: start-up values, with a touchpad record
holding wheel accumulators `-17` and `20`. -/
def sampleState : MouseControllerState where
  kinetic := initialTickState
  scancodes := fun _ => 0
  basicScancodeIndex := 0
  TouchpadEvents :=
    { x := 0, y := 0, wheelX := -17, wheelY := 20
      singleTap := false, twoFingerTap := false, tapAndHold := false }
  UhkModuleStates := []
  sumX := 0
  sumY := 0
  wX := 0
  wY := 0
  wLastX := NONE
  lastUpdate := 0
  avgSpeedPerS := 0
  speedLastUpdate := 0
  lastLine := true
  ledText := none

/-! ## Tuning of the speed shaping, and inputs for the adapters and the toggles -/

/-- Source `MouseController_SetExpDriverParams`: the three arguments are stored
and the two derived variables are recomputed from the stored values; the
ceiling `maxSpeedCoef` is not written.  The function `log` of the C mathematics
library is a parameter. -/
def MouseController_SetExpDriverParams (log : ℚ → ℚ)
    (minSpeedCoef_ midSpeed_ midSpeedCoef_ : ℚ) (p : ExpDriverParams) : ExpDriverParams :=
  let p1 := { p with minSpeedCoef := minSpeedCoef_ }
  let p2 := { p1 with midSpeed := midSpeed_ }
  let p3 := { p2 with midSpeedCoef := midSpeedCoef_ }
  let p4 := { p3 with expBase := p3.midSpeedCoef / p3.minSpeedCoef }
  { p4 with expShift := log p4.minSpeedCoef / log p4.expBase }

/-- The sample environment at another value of `CurrentTime`. -/
def environmentAt (now : Nat) : TickEnvironment :=
  { sampleEnvironment with CurrentTime := now }

/-- Key-cluster variables after a right arrow: the start-up state has processed
the delta `(2, 0)` at time 1000. -/
def afterRightArrow : MouseControllerState :=
  processKeyCluster (environmentAt 1000) { x := 2, y := 0 } sampleState

/-- A trackpoint module that reports the raw delta `(3, -2)`. -/
def trackpointModule : uhk_module_state_t where
  moduleId := ModuleId_TrackpointRight
  pointerDelta := { x := 3, y := -2 }
  pointerCount := 1

/-- A key-cluster module without a pending report. -/
def idleClusterModule : uhk_module_state_t where
  moduleId := ModuleId_KeyClusterLeft
  pointerDelta := { x := 0, y := 0 }
  pointerCount := 0

/-- State in front of a tick in which only the trackpoint module reports (the
touchpad record holds no motion). -/
def trackpointState : MouseControllerState :=
  { sampleState with UhkModuleStates := [idleClusterModule, trackpointModule] }

/-- State whose speed estimate is 48000 pixels per second. -/
def fastPointerState : MouseControllerState :=
  { sampleState with avgSpeedPerS := 48000 }

/-- Globals in which every toggled counter holds the largest 8-bit value. -/
def saturatedGlobals : Globals :=
  { initialGlobals with ToggledMouseStates := fun _ => 255 }

/-- The speed estimate above which the linear curve exceeds the ceiling
`maxSpeedCoef`. -/
def ceilingSpeed (p : ExpDriverParams) : ℚ :=
  p.midSpeed * (p.maxSpeedCoef - p.minSpeedCoef) / (p.midSpeedCoef - p.minSpeedCoef)

/-! ## The divisor of the speed estimate, and inputs for the last statements -/

/-- Local `diffMs` of source `recalculateSpeed`, in front of its conversion to
`float`: the 32-bit difference between the current time and the time stamp of
the previous nonzero sample. -/
def diffMs (env : TickEnvironment) (s : MouseControllerState) : Nat :=
  uint32_sub env.CurrentTime s.speedLastUpdate

/-- A trackball module that reports the raw delta `(2, 1)`. -/
def trackballModule : uhk_module_state_t where
  moduleId := ModuleId_TrackballRight
  pointerDelta := { x := 2, y := 1 }
  pointerCount := 1

/-- State in front of a tick in which the touchpad reports the motion `(3, 0)`
and a trackball module reports `(2, 1)`. -/
def touchpadAndTrackballState : MouseControllerState :=
  { sampleState with
    TouchpadEvents := { sampleState.TouchpadEvents with x := 3, y := 0 }
    UhkModuleStates := [trackballModule] }

/-- The state in which the module loop of that tick starts: the kinetic part and
`processTouchpadActions` have run at the sample environment. -/
def afterTouchpad : MouseControllerState :=
  processTouchpadActions sampleEnvironment
    { touchpadAndTrackballState with
      kinetic := processKineticStates sampleEnvironment.ActiveMouseStates
        sampleEnvironment.CompensateDiagonalSpeed sampleEnvironment.mouseElapsedTime
        touchpadAndTrackballState.kinetic }

/-! ## Inputs at the limits of the 8-bit report fields, and the square-root curve -/

/-- State in front of the report aggregator in move mode: the report's `x` is 0
and the accumulator holds 200, as after a trackpoint delta of 200. -/
def wideCarryState : MouseControllerState :=
  { sampleState with sumX := 200 }

/-- State in front of `processTouchpadActions` in which the report's `wheelX`
holds 127, the largest signed 8-bit value, and the touchpad's horizontal wheel
accumulator holds 16. -/
def fullWheelState : MouseControllerState :=
  { sampleState with
    kinetic := { sampleState.kinetic with
      ActiveUsbMouseReport := { sampleState.kinetic.ActiveUsbMouseReport with wheelX := 127 } }
    TouchpadEvents := { sampleState.TouchpadEvents with wheelX := 16, wheelY := 0 } }

/-- State in front of `processTouchpadActions` whose horizontal wheel
accumulator holds 2048, that is 256 times the divisor 8. -/
def wideWheelState : MouseControllerState :=
  { sampleState with
    TouchpadEvents := { sampleState.TouchpadEvents with wheelX := 2048, wheelY := 0 } }

/-- The sample environment without a touchpad. -/
def trackpointEnvironment : TickEnvironment :=
  { sampleEnvironment with touchpadConnected := false }

/-- A trackpoint module that reports the raw delta `(200, 0)`. -/
def wideTrackpointModule : uhk_module_state_t where
  moduleId := ModuleId_TrackpointRight
  pointerDelta := { x := 200, y := 0 }
  pointerCount := 1

/-- State in front of a tick in which only that trackpoint module reports. -/
def wideTrackpointState : MouseControllerState :=
  { sampleState with UhkModuleStates := [wideTrackpointModule] }

/-- Stand-in for the library function `pow` that agrees with it where the
exponent is `1/2` and the base is the square of a natural number: the integer
square root of the integral part of the base; for other exponents the base. -/
def integerSqrtPow : ℚ → ℚ → ℚ := fun x y =>
  if y = 1 / 2 then ((Nat.sqrt ⌊x⌋₊ : Nat) : ℚ) else x

/-- The sample environment at a time whose bit 14 is set (square-root curve),
with `integerSqrtPow` in the place of `pow`. -/
def sqrtModeEnvironment : TickEnvironment :=
  { sampleEnvironment with CurrentTime := 16384, pow := integerSqrtPow }

/-- State whose speed estimate is 300000 pixels per second. -/
def veryFastPointerState : MouseControllerState :=
  { sampleState with avgSpeedPerS := 300000 }

/-- Move state with `MoveUp` pressed and a stale horizontal sign `+1` left by an
earlier `MoveRight`. -/
def moveUpStaleRight : mouse_kinetic_state_t :=
  { moveUpStart with horizontalStateSign := 1 }

end MouseController

namespace Postponer

/-! ## Event postponer: `right/src/postponer.c`

The file-local variables of the source are the fields of one state record.  A
key (`key_state_t*`) is identified by a number; of the key state only the field
`current`, the one the postponer writes, is represented.  `CurrentTime` is an
argument of every function that reads it. -/

/-- Record of the event buffer (`struct postponer_buffer_record_type_t`), with
the three fields the source assigns. -/
structure postponer_buffer_record_type_t where
  time : Nat
  key : Nat
  active : Bool
  deriving DecidableEq

/-- Constants `POSTPONER_BUFFER_SIZE` and `POSTPONER_BUFFER_MAX_FILL`.  Their
values are declared in `postponer.h`, outside the sources at hand, and are
parameters of the model. -/
structure PostponerConstants where
  POSTPONER_BUFFER_SIZE : Nat
  POSTPONER_BUFFER_MAX_FILL : Nat

/-- Variables of the postponer: the ring buffer with its fill and its head (both
`uint8_t`), the cycle counter (`uint8_t`), the two time stamps, the key of the next event
(`none` for `NULL`), and the field `current` of every key state. -/
structure PostponerState where
  buffer : Nat → postponer_buffer_record_type_t
  bufferSize : Nat
  bufferPosition : Nat
  cyclesUntilActivation : Nat
  lastPressTime : Nat
  Postponer_NextEventKey : Option Nat
  CurrentPostponedTime : Nat
  current : Nat → Bool

/-- Macro `POS` of the source. -/
def POS (K : PostponerConstants) (bufferPosition idx : Nat) : Nat :=
  (bufferPosition + idx) % K.POSTPONER_BUFFER_SIZE

/-- Modelled from the spec: the macro `MAX`, which is declared in a header
outside the sources at hand; it is the larger of its two arguments ("maximum of
all the requests is taken"). -/
def MAX (a b : Nat) : Nat := if a > b then a else b

/-- Source `consumeEvent`.  The new head is stored in a `uint8_t`. -/
def consumeEvent (K : PostponerConstants) (count : Nat) (st : PostponerState) :
    PostponerState :=
  let st1 := { st with bufferPosition := POS K st.bufferPosition count % 256 }
  let st2 := { st1 with
    bufferSize := if count > st1.bufferSize then 0 else st1.bufferSize - count }
  let st3 := { st2 with
    Postponer_NextEventKey :=
      if st2.bufferSize = 0 then none else some (st2.buffer st2.bufferPosition).key }
  { st3 with
    CurrentPostponedTime :=
      (st3.buffer (POS K st3.bufferPosition (K.POSTPONER_BUFFER_SIZE - 1))).time }

/-- Source `PostponerCore_PostponeNCycles`, for an argument `n` in `0..255`.
The sum `n + 1` and the maximum are computed in `int`; the assignment to the
`uint8_t` counter keeps the low eight bits. -/
def PostponerCore_PostponeNCycles (K : PostponerConstants) (CurrentTime : Nat) (n : Nat)
    (st : PostponerState) : PostponerState :=
  let st1 := if st.bufferSize = 0 ∧ st.cyclesUntilActivation = 0 then
      { st with
        buffer := Function.update st.buffer
          (POS K st.bufferPosition (K.POSTPONER_BUFFER_SIZE - 1))
          { st.buffer (POS K st.bufferPosition (K.POSTPONER_BUFFER_SIZE - 1)) with
            time := CurrentTime } }
    else st
  { st1 with cyclesUntilActivation := MAX (n + 1) st1.cyclesUntilActivation % 256 }

/-- Source `PostponerCore_IsActive`. -/
def PostponerCore_IsActive (st : PostponerState) : Bool :=
  decide (st.bufferSize > 0) || decide (st.cyclesUntilActivation > 0)

/-- Source `PostponerCore_TrackKeyEvent`.  The slot index and the fill level
`bufferSize` are stored in a `uint8_t`. -/
def PostponerCore_TrackKeyEvent (K : PostponerConstants) (CurrentTime : Nat)
    (keyState : Nat) (active : Bool) (st : PostponerState) : PostponerState :=
  let pos := POS K st.bufferPosition st.bufferSize % 256
  let st1 := { st with
    buffer := Function.update st.buffer pos
      { time := CurrentTime, key := keyState, active := active } }
  let st2 := { st1 with
    bufferSize :=
      if st1.bufferSize < K.POSTPONER_BUFFER_SIZE then (st1.bufferSize + 1) % 256
      else st1.bufferSize }
  { st2 with lastPressTime := if active = true then CurrentTime else st2.lastPressTime }

/-- Source `PostponerCore_RunPostponedEvents`. -/
def PostponerCore_RunPostponedEvents (K : PostponerConstants) (CurrentTime : Nat)
    (st : PostponerState) : PostponerState :=
  if st.bufferSize ≠ 0 ∧
      (st.cyclesUntilActivation = 0 ∨ st.bufferSize > K.POSTPONER_BUFFER_MAX_FILL) then
    let st1 := { st with
      current := Function.update st.current (st.buffer st.bufferPosition).key
        (st.buffer st.bufferPosition).active }
    let st2 := consumeEvent K 1 st1
    PostponerCore_PostponeNCycles K CurrentTime 1 st2
  else st

/-- Source `PostponerCore_FinishCycle`. -/
def PostponerCore_FinishCycle (CurrentTime : Nat) (st : PostponerState) : PostponerState :=
  let st1 := { st with
    cyclesUntilActivation :=
      st.cyclesUntilActivation - (if st.cyclesUntilActivation > 0 then 1 else 0) }
  if st1.bufferSize = 0 ∧ st1.cyclesUntilActivation = 0 then
    { st1 with CurrentPostponedTime := CurrentTime }
  else st1

/-- A sequence of calls of `PostponerCore_FinishCycle`, one per element of the
list, which gives `CurrentTime` at each call. -/
def finishCycles : List Nat → PostponerState → PostponerState
  | [], st => st
  | CurrentTime :: rest, st => finishCycles rest (PostponerCore_FinishCycle CurrentTime st)

/-- One update cycle as far as the postponer takes part in it:
`PostponerCore_RunPostponedEvents` followed by `PostponerCore_FinishCycle`. -/
def updateCycle (K : PostponerConstants) (CurrentTime : Nat) (st : PostponerState) :
    PostponerState :=
  PostponerCore_FinishCycle CurrentTime (PostponerCore_RunPostponedEvents K CurrentTime st)

/-- A sequence of update cycles, one per element of the list, which gives
`CurrentTime` in each cycle. -/
def updateCycles (K : PostponerConstants) : List Nat → PostponerState → PostponerState
  | [], st => st
  | CurrentTime :: rest, st => updateCycles K rest (updateCycle K CurrentTime st)

/-- A sequence of calls of `PostponerCore_TrackKeyEvent`, one per record of the
list: the record gives the key, the flag and `CurrentTime` at the call. -/
def trackEvents (K : PostponerConstants) :
    List postponer_buffer_record_type_t → PostponerState → PostponerState
  | [], st => st
  | e :: rest, st => trackEvents K rest (PostponerCore_TrackKeyEvent K e.time e.key e.active st)

/-- The queued records in queue order: `buffer[POS(0)]`, ...,
`buffer[POS(bufferSize - 1)]`. -/
def queue (K : PostponerConstants) (st : PostponerState) :
    List postponer_buffer_record_type_t :=
  (List.range st.bufferSize).map (fun i => st.buffer (POS K st.bufferPosition i))

/-- The key states after the records of a list have been written in order: each
record stores its active flag in the field `current` of its key. -/
def replay : List postponer_buffer_record_type_t → (Nat → Bool) → (Nat → Bool)
  | [], current => current
  | e :: rest, current => replay rest (Function.update current e.key e.active)

/-- Sample values of the two constants. -/
def sampleConstants : PostponerConstants where
  POSTPONER_BUFFER_SIZE := 32
  POSTPONER_BUFFER_MAX_FILL := 27

/-- Start-up value of the postponer variables, with every key released. -/
def idlePostponer : PostponerState where
  buffer := fun _ => { time := 0, key := 0, active := false }
  bufferSize := 0
  bufferPosition := 0
  cyclesUntilActivation := 0
  lastPressTime := 0
  Postponer_NextEventKey := none
  CurrentPostponedTime := 0
  current := fun _ => false

/-- The idle postponer after a request that left five cycles to go. -/
def postponedFive : PostponerState :=
  { idlePostponer with cyclesUntilActivation := 5 }

/-- Three events: key 7 pressed, key 9 pressed, key 7 released. -/
def sampleEvents : List postponer_buffer_record_type_t :=
  [{ time := 10, key := 7, active := true }, { time := 11, key := 9, active := true },
    { time := 12, key := 7, active := false }]

/-- The record at queue position `i`: `buffer[POS(i)]`. -/
def queueRecord (K : PostponerConstants) (st : PostponerState) (i : Nat) :
    postponer_buffer_record_type_t :=
  st.buffer (POS K st.bufferPosition i)

/-- The loop of source `getPendingKeypressIdx`, entered at index `i` with
`remaining = bufferSize - i` iterations to go and the counter `n`; the index
found is returned as a `uint8_t`, `255` when the loop runs out. -/
def getPendingKeypressIdxLoop (K : PostponerConstants) (st : PostponerState) :
    Nat → Nat → Nat → Nat
  | 0, _, _ => 255
  | remaining + 1, i, n =>
    if (st.buffer (POS K st.bufferPosition i)).active = true then
      if n = 0 then i % 256
      else getPendingKeypressIdxLoop K st remaining (i + 1) (n - 1)
    else getPendingKeypressIdxLoop K st remaining (i + 1) n

/-- Source `getPendingKeypressIdx`. -/
def getPendingKeypressIdx (K : PostponerConstants) (st : PostponerState) (n : Nat) : Nat :=
  getPendingKeypressIdxLoop K st st.bufferSize 0 n

/-- The loop of source `PostponerQuery_PendingKeypressCount`, entered at index
`i` with `remaining` iterations to go; the counter is a `uint8_t`. -/
def pendingKeypressCountLoop (K : PostponerConstants) (st : PostponerState) :
    Nat → Nat → Nat → Nat
  | 0, _, cnt => cnt
  | remaining + 1, i, cnt =>
    pendingKeypressCountLoop K st remaining (i + 1)
      (if (st.buffer (POS K st.bufferPosition i)).active = true then (cnt + 1) % 256 else cnt)

/-- Source `PostponerQuery_PendingKeypressCount`. -/
def PostponerQuery_PendingKeypressCount (K : PostponerConstants) (st : PostponerState) : Nat :=
  pendingKeypressCountLoop K st st.bufferSize 0 0

/-- The second loop of source `PostponerQuery_InfoByQueueIdx`, entered at index
`i` with `remaining` iterations to go: the slot of the first record that is a
release of the key `pressKey`. -/
def releaseLoop (K : PostponerConstants) (st : PostponerState) (pressKey : Nat) :
    Nat → Nat → Option Nat
  | 0, _ => none
  | remaining + 1, i =>
    if (st.buffer (POS K st.bufferPosition i)).active = false ∧
        (st.buffer (POS K st.bufferPosition i)).key = pressKey then
      some (POS K st.bufferPosition i)
    else releaseLoop K st pressKey remaining (i + 1)

/-- Source `PostponerQuery_InfoByQueueIdx`.  The two results `*press` and
`*release` are pointers into the buffer: each is the number of a slot, or `none`
for `NULL`. -/
def PostponerQuery_InfoByQueueIdx (K : PostponerConstants) (st : PostponerState) (idx : Nat) :
    Option Nat × Option Nat :=
  let startIdx := getPendingKeypressIdx K st idx
  if startIdx = 255 then (none, none)
  else
    let press := POS K st.bufferPosition startIdx
    (some press, releaseLoop K st (st.buffer press).key (st.bufferSize - startIdx) startIdx)

/-- Small values of the two constants, for instances with a full buffer. -/
def smallConstants : PostponerConstants where
  POSTPONER_BUFFER_SIZE := 4
  POSTPONER_BUFFER_MAX_FILL := 2

/-- Four events: keys 1 to 4 pressed in this order. -/
def fourEvents : List postponer_buffer_record_type_t :=
  [{ time := 10, key := 1, active := true }, { time := 11, key := 2, active := true },
    { time := 12, key := 3, active := true }, { time := 13, key := 4, active := true }]

/-- The postponer with a full buffer of four slots: the four events have been
tracked from the idle state. -/
def fullPostponer : PostponerState :=
  trackEvents smallConstants fourEvents idlePostponer

/-- The postponer after the three sample events have been tracked. -/
def sampleQueue : PostponerState :=
  trackEvents sampleConstants sampleEvents idlePostponer

end Postponer

namespace TestSuite

/-! ## Test runner: `right/src/test_suite/test_suite.c`

The file-local variables of the source are the fields of one state record.  The
types `test_t` and `test_module_t` and the table `AllTestModules` are declared
in headers outside the sources at hand; they are modelled with the fields the
source reads.  A string is the list of its bytes in front of the terminating
NUL.  The configuration manager, the input and output machines and the logger
are outside the state. -/

/-- A table of test actions (`const test_action_t*`): the table of a test, named
by a number, or one of the two tables of the postponing environment. -/
inductive test_actions_ref
  | ofTest (id : Nat)
  | envPostponingPrologue
  | envPostponingEpilogue
  deriving DecidableEq, Repr

/-- Modelled from the spec: `test_t` is declared in a header outside the
sources at hand; these are the fields the source reads. -/
structure test_t where
  name : List Nat
  actions : test_actions_ref
  envFlags : Nat
  deriving DecidableEq

/-- Modelled from the spec: `test_module_t` is declared in a header outside the
sources at hand; `testCount` is the length of `tests`. -/
structure test_module_t where
  name : List Nat
  tests : List test_t
  deriving DecidableEq

/-- Enumeration `test_phase_t`. -/
inductive test_phase_t
  | TestPhase_Prologue
  | TestPhase_Main
  | TestPhase_Epilogue
  deriving DecidableEq, Repr

open test_phase_t

/-- Macro `ENV_PASS_NONE`. -/
def ENV_PASS_NONE : Nat := 0

/-- Macro `ENV_PASS_POSTPONING`. -/
def ENV_PASS_POSTPONING : Nat := 1

/-- Variables of the test runner. -/
structure TestSuiteState where
  TestHooks_Active : Bool
  TestSuite_Verbose : Bool
  currentModuleIndex : Nat
  currentTestIndex : Nat
  totalTestCount : Nat
  passedCount : Nat
  failedCount : Nat
  singleTestMode : Bool
  isRerunning : Bool
  rerunModuleIndex : Nat
  rerunTestIndex : Nat
  rerunEnvPass : Nat
  inInterTestDelay : Bool
  interTestDelayStart : Nat
  currentEnvPass : Nat
  currentPhase : test_phase_t
  phaseTest : test_t
  deriving DecidableEq

/-- Source `streq`: the byte range `[a, aEnd)` against the NUL-terminated string
at `b`.  The first list holds the bytes of the range; the second holds the bytes
at `b`, the byte behind its end being NUL. -/
def streq : List Nat → List Nat → Bool
  | [], [] => true
  | [], y :: _ => decide (y = 0)
  | _ :: _, [] => false
  | x :: a, y :: b => if y = 0 then false else if x ≠ y then false else streq a b

/-- Source `getCurrentActions`. -/
def getCurrentActions (s : TestSuiteState) (test : test_t) : test_actions_ref :=
  if s.currentEnvPass = ENV_PASS_NONE then test.actions
  else
    match s.currentPhase with
    | TestPhase_Prologue =>
      if s.currentEnvPass = ENV_PASS_POSTPONING then test_actions_ref.envPostponingPrologue
      else test.actions
    | TestPhase_Main => test.actions
    | TestPhase_Epilogue =>
      if s.currentEnvPass = ENV_PASS_POSTPONING then test_actions_ref.envPostponingEpilogue
      else test.actions

/-- Source `startPhase`, as far as it writes the variables of the runner. -/
def startPhase (test : test_t) (s : TestSuiteState) : TestSuiteState :=
  let s1 := { s with phaseTest := { s.phaseTest with name := test.name } }
  let s2 := { s1 with phaseTest := { s1.phaseTest with actions := getCurrentActions s1 test } }
  { s2 with phaseTest := { s2.phaseTest with envFlags := test.envFlags } }

/-- Source `startTest`, as far as it writes the variables of the runner. -/
def startTest (test : test_t) (s : TestSuiteState) : TestSuiteState :=
  let s1 := if s.currentEnvPass = ENV_PASS_NONE then { s with currentPhase := TestPhase_Main }
    else { s with currentPhase := TestPhase_Prologue }
  startPhase test s1

/-- The statements of source `TestSuite_RunSingle` that run when the test with
the indices `mi`, `ti` has been found. -/
def selectSingleTest (mi ti : Nat) (test : test_t) (s : TestSuiteState) : TestSuiteState :=
  let s1 := { s with
    currentModuleIndex := mi
    currentTestIndex := ti
    passedCount := 0
    failedCount := 0
    inInterTestDelay := false
    isRerunning := false
    singleTestMode := true
    TestSuite_Verbose := true
    currentEnvPass := ENV_PASS_NONE
    currentPhase := TestPhase_Main }
  { startTest test s1 with TestHooks_Active := true }

/-- The inner loop of source `TestSuite_RunSingle` over the tests of a module,
entered at index `ti`: the index and the record of the first test whose name
matches. -/
def findTest (testName : List Nat) : List test_t → Nat → Option (Nat × test_t)
  | [], _ => none
  | test :: rest, ti =>
    if streq testName test.name = true then some (ti, test)
    else findTest testName rest (ti + 1)

/-- The outer loop of source `TestSuite_RunSingle`, entered at index `mi`: a
module whose name does not match is skipped; in a module whose name matches the
inner loop runs, and the outer loop goes on when it finds nothing. -/
def findModuleTest (moduleName testName : List Nat) :
    List test_module_t → Nat → Option (Nat × Nat × test_t)
  | [], _ => none
  | module :: rest, mi =>
    if streq moduleName module.name = true then
      match findTest testName module.tests 0 with
      | some (ti, test) => some (mi, ti, test)
      | none => findModuleTest moduleName testName rest (mi + 1)
    else findModuleTest moduleName testName rest (mi + 1)

/-- Source `TestSuite_RunSingle`: the returned value and the variables after the
call.  The arguments are the table `AllTestModules` and the bytes of the ranges
`[moduleStart, moduleEnd)` and `[testStart, testEnd)`.  The loop counters are
`uint16_t`; the tables hold fewer than `2 ^ 16` entries. -/
def TestSuite_RunSingle (AllTestModules : List test_module_t)
    (moduleName testName : List Nat) (s : TestSuiteState) : Nat × TestSuiteState :=
  match findModuleTest moduleName testName AllTestModules 0 with
  | some (mi, ti, test) => (0, selectSingleTest mi ti test s)
  | none => (255, s)

/-- Bytes of the string `"kb"`. -/
def name_kb : List Nat := [107, 98]

/-- Bytes of the string `"tap"`. -/
def name_tap : List Nat := [116, 97, 112]

/-- Bytes of the string `"tapHold"`. -/
def name_tapHold : List Nat := [116, 97, 112, 72, 111, 108, 100]

/-- Bytes of the string `"ta"`. -/
def name_ta : List Nat := [116, 97]

/-- A sample table: module `"kb"` with the tests `"tapHold"` and `"tap"`. -/
def sampleModules : List test_module_t :=
  [{ name := name_kb
     tests := [{ name := name_tapHold, actions := test_actions_ref.ofTest 0, envFlags := 0 },
       { name := name_tap, actions := test_actions_ref.ofTest 1, envFlags := 0 }] }]

/-- Start-up value of the variables of the test runner. -/
def initialTestSuiteState : TestSuiteState where
  TestHooks_Active := false
  TestSuite_Verbose := false
  currentModuleIndex := 0
  currentTestIndex := 0
  totalTestCount := 0
  passedCount := 0
  failedCount := 0
  singleTestMode := false
  isRerunning := false
  rerunModuleIndex := 0
  rerunTestIndex := 0
  rerunEnvPass := 0
  inInterTestDelay := false
  interTestDelayStart := 0
  currentEnvPass := 0
  currentPhase := TestPhase_Main
  phaseTest := { name := [], actions := test_actions_ref.ofTest 0, envFlags := 0 }

end TestSuite

namespace MouseController

open SerializedMouseAction mouse_speed_t module_id_t layer_id_t

/-! ## Lemmas on `modff` -/

theorem modffInt_add_modffFrac (x : ℚ) : (modffInt x : ℚ) + modffFrac x = x := by
  unfold modffFrac; ring

theorem abs_modffFrac_lt_one (x : ℚ) : |modffFrac x| < 1 := by
  unfold modffFrac modffInt
  split_ifs with h
  · have h1 := Int.floor_le x
    have h2 := Int.lt_floor_add_one x
    rw [abs_lt]; constructor <;> linarith
  · have h1 := Int.le_ceil x
    have h2 := Int.ceil_lt_add_one x
    rw [abs_lt]; constructor <;> linarith

theorem modffInt_eq_zero_of_nonneg {x : ℚ} (h0 : 0 ≤ x) (h1 : x < 1) : modffInt x = 0 := by
  unfold modffInt
  rw [if_pos h0, Int.floor_eq_iff]
  constructor <;> simpa using (by assumption)

theorem modffInt_eq_zero_of_nonpos {x : ℚ} (h0 : x ≤ 0) (h1 : -1 < x) : modffInt x = 0 := by
  unfold modffInt
  split_ifs with h
  · have : x = 0 := le_antisymm h0 h
    subst this; simp
  · rw [Int.ceil_eq_iff]
    constructor
    · simpa using h1
    · simpa using h0

theorem modffInt_eq_of_nonneg {x : ℚ} (n : Int) (h0 : 0 ≤ x) (h1 : (n : ℚ) ≤ x)
    (h2 : x < (n : ℚ) + 1) : modffInt x = n := by
  unfold modffInt
  rw [if_pos h0, Int.floor_eq_iff]
  exact ⟨h1, h2⟩

theorem modffInt_eq_of_neg {x : ℚ} (n : Int) (h0 : x < 0) (h1 : (n : ℚ) - 1 < x)
    (h2 : x ≤ (n : ℚ)) : modffInt x = n := by
  unfold modffInt
  rw [if_neg (not_le.mpr h0), Int.ceil_eq_iff]
  exact ⟨h1, h2⟩

/-! ## Lemmas on the stages of `processMouseKineticState` -/

theorem resetSpeed_eq (A : MouseStates) (k : mouse_kinetic_state_t) :
    ∃ c, resetSpeed A k = { k with currentSpeed := c } := by
  unfold resetSpeed; split_ifs
  · exact ⟨_, rfl⟩
  · exact ⟨k.currentSpeed, rfl⟩

theorem selectTargetSpeed_eq (A : MouseStates) (k : mouse_kinetic_state_t) :
    ∃ T, selectTargetSpeed A k = { k with targetSpeed := T } := by
  unfold selectTargetSpeed; split_ifs
  · exact ⟨_, rfl⟩
  · exact ⟨_, rfl⟩
  · exact ⟨_, rfl⟩
  · exact ⟨k.targetSpeed, rfl⟩

theorem snapSpeed_eq (A : MouseStates) (k : mouse_kinetic_state_t) :
    ∃ c, snapSpeed A k = { k with currentSpeed := c } := by
  unfold snapSpeed; split_ifs
  · exact ⟨_, rfl⟩
  · exact ⟨k.currentSpeed, rfl⟩

theorem rampSpeed_eq (t : Nat) (k : mouse_kinetic_state_t) :
    ∃ c, rampSpeed t k = { k with currentSpeed := c } := by
  unfold rampSpeed; split_ifs <;> exact ⟨_, rfl⟩

theorem preRamp_eq (A : MouseStates) (k : mouse_kinetic_state_t) :
    ∃ c T, preRamp A k = { k with currentSpeed := c, targetSpeed := T } := by
  unfold preRamp
  obtain ⟨c1, h1⟩ := resetSpeed_eq A k
  obtain ⟨T, h2⟩ := selectTargetSpeed_eq A (resetSpeed A k)
  obtain ⟨c2, h3⟩ := snapSpeed_eq A (selectTargetSpeed A (resetSpeed A k))
  refine ⟨c2, T, ?_⟩
  rw [h3, h2, h1]

theorem isMoveAction_congr (A : MouseStates) (k : mouse_kinetic_state_t) (c T : ℚ) :
    isMoveAction A { k with currentSpeed := c, targetSpeed := T } = isMoveAction A k := rfl

theorem isMoveAction_preRamp (A : MouseStates) (k : mouse_kinetic_state_t) :
    isMoveAction A (preRamp A k) = isMoveAction A k := by
  obtain ⟨c, T, h⟩ := preRamp_eq A k
  rw [h]; rfl

theorem process_rest (A : MouseStates) (C : Bool) (t : Nat) (k : mouse_kinetic_state_t)
    (h : isMoveAction A k = false) :
    processMouseKineticState A C t k =
      { preRamp A k with
        currentSpeed := 0
        prevMouseSpeed := mouseSpeed A k
        wasMoveAction := false } := by
  have h' := isMoveAction_preRamp A k
  unfold preRamp at h'
  unfold processMouseKineticState
  simp only [h', h, preRamp]
  simp

theorem process_motion (A : MouseStates) (C : Bool) (t : Nat) (k : mouse_kinetic_state_t)
    (h : isMoveAction A k = true) :
    processMouseKineticState A C t k =
      { integrate A C t (rampSpeed t (preRamp A k)) with
        prevMouseSpeed := mouseSpeed A k
        wasMoveAction := true } := by
  have h' := isMoveAction_preRamp A k
  unfold preRamp at h'
  unfold processMouseKineticState
  simp only [h', h, preRamp]
  simp

theorem integrate_abs_xSum (A : MouseStates) (C : Bool) (t : Nat) (k : mouse_kinetic_state_t) :
    |(integrate A C t k).xSum| < 1 := by
  simp only [integrate]
  split_ifs <;> first | simp | exact abs_modffFrac_lt_one _

theorem integrate_abs_ySum (A : MouseStates) (C : Bool) (t : Nat) (k : mouse_kinetic_state_t) :
    |(integrate A C t k).ySum| < 1 := by
  simp only [integrate]
  split_ifs <;> first | simp | exact abs_modffFrac_lt_one _

theorem tickDistance_integrate (A : MouseStates) (C : Bool) (t : Nat)
    (k : mouse_kinetic_state_t) :
    tickDistance C t (integrate A C t k) = tickDistance C t (updateDirectionSigns A k) := by
  unfold integrate
  cases hs : (k.isScroll && !k.wasMoveAction) <;> simp [hs, tickDistance, updateDirectionSigns]

theorem integrate_horizontalStateSign (A : MouseStates) (C : Bool) (t : Nat)
    (k : mouse_kinetic_state_t) :
    (integrate A C t k).horizontalStateSign = (updateDirectionSigns A k).horizontalStateSign := by
  unfold integrate
  cases hs : (k.isScroll && !k.wasMoveAction) <;> simp [hs, updateDirectionSigns]

theorem integrate_verticalStateSign (A : MouseStates) (C : Bool) (t : Nat)
    (k : mouse_kinetic_state_t) :
    (integrate A C t k).verticalStateSign = (updateDirectionSigns A k).verticalStateSign := by
  unfold integrate
  cases hs : (k.isScroll && !k.wasMoveAction) <;> simp [hs, updateDirectionSigns]

theorem integrate_move_x (A : MouseStates) (C : Bool) (t : Nat) (k : mouse_kinetic_state_t)
    (hs : k.isScroll = false) :
    ((integrate A C t k).xOut : ℚ) + (integrate A C t k).xSum =
      k.xSum + tickDistance C t (integrate A C t k) *
        ((integrate A C t k).horizontalStateSign : ℚ) := by
  rw [tickDistance_integrate, integrate_horizontalStateSign]
  simp only [integrate, hs, Bool.false_and, Bool.false_eq_true, if_false]
  rw [modffInt_add_modffFrac]
  simp [updateDirectionSigns]

theorem integrate_move_y (A : MouseStates) (C : Bool) (t : Nat) (k : mouse_kinetic_state_t)
    (hs : k.isScroll = false) :
    ((integrate A C t k).yOut : ℚ) + (integrate A C t k).ySum =
      k.ySum + tickDistance C t (integrate A C t k) *
        ((integrate A C t k).verticalStateSign : ℚ) := by
  rw [tickDistance_integrate, integrate_verticalStateSign]
  simp only [integrate, hs, Bool.false_and, Bool.false_eq_true, if_false]
  rw [modffInt_add_modffFrac]
  simp [updateDirectionSigns]

theorem rampSpeed_preRamp_eq (A : MouseStates) (t : Nat) (k : mouse_kinetic_state_t) :
    ∃ c T, rampSpeed t (preRamp A k) = { k with currentSpeed := c, targetSpeed := T } := by
  obtain ⟨c, T, h⟩ := preRamp_eq A k
  obtain ⟨c2, h2⟩ := rampSpeed_eq t (preRamp A k)
  exact ⟨c2, T, by rw [h2, h]⟩

theorem tickDistance_of_currentSpeed_zero (C : Bool) (t : Nat) (k : mouse_kinetic_state_t)
    (h : k.currentSpeed = 0) : tickDistance C t k = 0 := by
  unfold tickDistance
  simp [h]

theorem integrate_isScroll (A : MouseStates) (C : Bool) (t : Nat)
    (k : mouse_kinetic_state_t) : (integrate A C t k).isScroll = k.isScroll := by
  unfold integrate
  cases hs : (k.isScroll && !k.wasMoveAction) <;> simp [hs, updateDirectionSigns]

theorem process_isScroll (A : MouseStates) (C : Bool) (t : Nat)
    (k : mouse_kinetic_state_t) : (processMouseKineticState A C t k).isScroll = k.isScroll := by
  cases h : isMoveAction A k
  · rw [process_rest A C t k h]
    obtain ⟨c, T, hp⟩ := preRamp_eq A k
    rw [hp]
  · rw [process_motion A C t k h]
    obtain ⟨c, T, hp⟩ := rampSpeed_preRamp_eq A t k
    show (integrate A C t (rampSpeed t (preRamp A k))).isScroll = _
    rw [integrate_isScroll, hp]

/-- One call on the move state: the emitted integer plus the new remainder is
the old remainder plus the signed distance of the tick. -/
theorem process_move_x (A : MouseStates) (C : Bool) (t : Nat) (k : mouse_kinetic_state_t)
    (hs : k.isScroll = false) (ho : k.xOut = 0) :
    ((processMouseKineticState A C t k).xOut : ℚ) + (processMouseKineticState A C t k).xSum =
      k.xSum + tickDistance C t (processMouseKineticState A C t k) *
        ((processMouseKineticState A C t k).horizontalStateSign : ℚ) := by
  cases h : isMoveAction A k
  · rw [process_rest A C t k h]
    obtain ⟨c, T, hp⟩ := preRamp_eq A k
    rw [hp, tickDistance_of_currentSpeed_zero _ _ _ rfl]
    simp [ho]
  · rw [process_motion A C t k h]
    obtain ⟨c, T, hp⟩ := rampSpeed_preRamp_eq A t k
    have key := integrate_move_x A C t (rampSpeed t (preRamp A k)) (by rw [hp]; exact hs)
    have hx : (rampSpeed t (preRamp A k)).xSum = k.xSum := by rw [hp]
    rw [hx] at key
    exact key

theorem process_move_y (A : MouseStates) (C : Bool) (t : Nat) (k : mouse_kinetic_state_t)
    (hs : k.isScroll = false) (ho : k.yOut = 0) :
    ((processMouseKineticState A C t k).yOut : ℚ) + (processMouseKineticState A C t k).ySum =
      k.ySum + tickDistance C t (processMouseKineticState A C t k) *
        ((processMouseKineticState A C t k).verticalStateSign : ℚ) := by
  cases h : isMoveAction A k
  · rw [process_rest A C t k h]
    obtain ⟨c, T, hp⟩ := preRamp_eq A k
    rw [hp, tickDistance_of_currentSpeed_zero _ _ _ rfl]
    simp [ho]
  · rw [process_motion A C t k h]
    obtain ⟨c, T, hp⟩ := rampSpeed_preRamp_eq A t k
    have key := integrate_move_y A C t (rampSpeed t (preRamp A k)) (by rw [hp]; exact hs)
    have hx : (rampSpeed t (preRamp A k)).ySum = k.ySum := by rw [hp]
    rw [hx] at key
    exact key

/-- Remainder bound of one call. -/
theorem process_abs_sums (A : MouseStates) (C : Bool) (t : Nat) (k : mouse_kinetic_state_t)
    (hx : |k.xSum| < 1) (hy : |k.ySum| < 1) :
    |(processMouseKineticState A C t k).xSum| < 1 ∧
      |(processMouseKineticState A C t k).ySum| < 1 := by
  cases h : isMoveAction A k
  · rw [process_rest A C t k h]
    obtain ⟨c, T, hp⟩ := preRamp_eq A k
    rw [hp]
    exact ⟨hx, hy⟩
  · rw [process_motion A C t k h]
    exact ⟨integrate_abs_xSum A C t _, integrate_abs_ySum A C t _⟩

theorem conservation_aux (inputs : List TickInput) :
    ∀ k : mouse_kinetic_state_t, k.isScroll = false → k.xOut = 0 → k.yOut = 0 →
      ((emittedX inputs k : ℚ) + (finalState inputs k).xSum = k.xSum + travelledX inputs k) ∧
      ((emittedY inputs k : ℚ) + (finalState inputs k).ySum = k.ySum + travelledY inputs k) := by
  induction inputs with
  | nil => intro k _ _ _; simp [emittedX, emittedY, finalState, travelledX, travelledY]
  | cons i rest ih =>
    intro k hs hox hoy
    have hsc : (kineticCall i k).isScroll = false := by
      unfold kineticCall; rw [process_isScroll]; exact hs
    obtain ⟨ihx, ihy⟩ := ih (clearOutputs (kineticCall i k)) hsc rfl rfl
    have sx := process_move_x i.ActiveMouseStates i.CompensateDiagonalSpeed i.mouseElapsedTime
      { k with horizontalStateSign := i.horizontalStateSign
               verticalStateSign := i.verticalStateSign } hs hox
    have sy := process_move_y i.ActiveMouseStates i.CompensateDiagonalSpeed i.mouseElapsedTime
      { k with horizontalStateSign := i.horizontalStateSign
               verticalStateSign := i.verticalStateSign } hs hoy
    simp only [emittedX, emittedY, finalState, travelledX, travelledY, signedDistanceX,
      signedDistanceY]
    have cx : (clearOutputs (kineticCall i k)).xSum = (kineticCall i k).xSum := rfl
    have cy : (clearOutputs (kineticCall i k)).ySum = (kineticCall i k).ySum := rfl
    rw [cx] at ihx
    rw [cy] at ihy
    change ((kineticCall i k).xOut : ℚ) + (kineticCall i k).xSum = k.xSum +
      tickDistance i.CompensateDiagonalSpeed i.mouseElapsedTime (kineticCall i k) *
        ((kineticCall i k).horizontalStateSign : ℚ) at sx
    change ((kineticCall i k).yOut : ℚ) + (kineticCall i k).ySum = k.ySum +
      tickDistance i.CompensateDiagonalSpeed i.mouseElapsedTime (kineticCall i k) *
        ((kineticCall i k).verticalStateSign : ℚ) at sy
    push_cast
    constructor <;> linarith

theorem finalState_abs_sums (inputs : List TickInput) :
    ∀ k : mouse_kinetic_state_t, |k.xSum| < 1 → |k.ySum| < 1 →
      |(finalState inputs k).xSum| < 1 ∧ |(finalState inputs k).ySum| < 1 := by
  induction inputs with
  | nil => intro k hx hy; exact ⟨hx, hy⟩
  | cons i rest ih =>
    intro k hx hy
    have h := process_abs_sums i.ActiveMouseStates i.CompensateDiagonalSpeed i.mouseElapsedTime
      { k with horizontalStateSign := i.horizontalStateSign
               verticalStateSign := i.verticalStateSign } hx hy
    exact ih (clearOutputs (kineticCall i k)) h.1 h.2

theorem integrate_currentSpeed (A : MouseStates) (C : Bool) (t : Nat)
    (k : mouse_kinetic_state_t) : (integrate A C t k).currentSpeed = k.currentSpeed := by
  unfold integrate
  cases hs : (k.isScroll && !k.wasMoveAction) <;> simp [hs, updateDirectionSigns]

theorem integrate_targetSpeed (A : MouseStates) (C : Bool) (t : Nat)
    (k : mouse_kinetic_state_t) : (integrate A C t k).targetSpeed = k.targetSpeed := by
  unfold integrate
  cases hs : (k.isScroll && !k.wasMoveAction) <;> simp [hs, updateDirectionSigns]

theorem rampSpeed_targetSpeed (t : Nat) (k : mouse_kinetic_state_t) :
    (rampSpeed t k).targetSpeed = k.targetSpeed := by
  unfold rampSpeed; split_ifs <;> rfl

theorem snapSpeed_targetSpeed (A : MouseStates) (k : mouse_kinetic_state_t) :
    (snapSpeed A k).targetSpeed = k.targetSpeed := by
  unfold snapSpeed; split_ifs <;> rfl

theorem resetSpeed_targetSpeed (A : MouseStates) (k : mouse_kinetic_state_t) :
    (resetSpeed A k).targetSpeed = k.targetSpeed := by
  unfold resetSpeed; split_ifs <;> rfl

theorem speedStep_nonneg (t : Nat) (k : mouse_kinetic_state_t) : 0 ≤ speedStep t k := by
  unfold speedStep; positivity

/-- Speed and target after a motion tick are those of the ramp stage. -/
theorem process_motion_speeds (A : MouseStates) (C : Bool) (t : Nat)
    (k : mouse_kinetic_state_t) (h : isMoveAction A k = true) :
    (processMouseKineticState A C t k).currentSpeed =
        (rampSpeed t (preRamp A k)).currentSpeed ∧
      (processMouseKineticState A C t k).targetSpeed = (preRamp A k).targetSpeed := by
  rw [process_motion A C t k h]
  constructor
  · exact integrate_currentSpeed A C t _
  · show (integrate A C t (rampSpeed t (preRamp A k))).targetSpeed = _
    rw [integrate_targetSpeed, rampSpeed_targetSpeed]

theorem selectTargetSpeed_targetSpeed (A : MouseStates) (k : mouse_kinetic_state_t) :
    (selectTargetSpeed A k).targetSpeed =
      if A Accelerate ≠ 0 ∨ doublePressedStateExists A k = true then
        ((k.intMultiplier * k.acceleratedSpeed : Nat) : ℚ)
      else if A Decelerate ≠ 0 then ((k.intMultiplier * k.deceleratedSpeed : Nat) : ℚ)
      else if isMoveAction A k = true then ((k.intMultiplier * k.baseSpeed : Nat) : ℚ)
      else k.targetSpeed := by
  unfold selectTargetSpeed
  split_ifs <;> rfl

/-- Target speed after any tick is the one chosen by the tier selection. -/
theorem process_targetSpeed (A : MouseStates) (C : Bool) (t : Nat)
    (k : mouse_kinetic_state_t) :
    (processMouseKineticState A C t k).targetSpeed = (selectTargetSpeed A k).targetSpeed := by
  have hsel : (preRamp A k).targetSpeed = (selectTargetSpeed A k).targetSpeed := by
    unfold preRamp
    rw [snapSpeed_targetSpeed]
    obtain ⟨c, hc⟩ := resetSpeed_eq A k
    rw [hc, selectTargetSpeed_targetSpeed, selectTargetSpeed_targetSpeed]
    rfl
  cases h : isMoveAction A k
  · rw [process_rest A C t k h]
    exact hsel
  · rw [(process_motion_speeds A C t k h).2, hsel]

theorem rampSpeed_of_eq (t : Nat) (k : mouse_kinetic_state_t)
    (h : k.currentSpeed = k.targetSpeed) : (rampSpeed t k).currentSpeed = k.targetSpeed := by
  have hs := speedStep_nonneg t k
  unfold rampSpeed
  rw [if_neg (by rw [h]; exact lt_irrefl _)]
  simp only
  split_ifs with h2
  · rfl
  · rw [h] at h2 ⊢
    push_neg at h2
    linarith

theorem selectTargetSpeed_resetSpeed_eq (A : MouseStates) (k : mouse_kinetic_state_t) :
    ∃ c T, selectTargetSpeed A (resetSpeed A k) =
      { k with currentSpeed := c, targetSpeed := T } := by
  obtain ⟨c, hc⟩ := resetSpeed_eq A k
  obtain ⟨T, hT⟩ := selectTargetSpeed_eq A (resetSpeed A k)
  exact ⟨c, T, by rw [hT, hc]⟩

theorem snapSpeed_of_cond (A : MouseStates) (k : mouse_kinetic_state_t)
    (h : mouseSpeed A k = MouseSpeed_Accelerated ∨
      (k.wasMoveAction = true ∧ isMoveAction A k = true ∧ k.prevMouseSpeed ≠ mouseSpeed A k)) :
    (snapSpeed A k).currentSpeed = k.targetSpeed := by
  unfold snapSpeed
  rw [if_pos h]

theorem preRamp_snap (A : MouseStates) (k : mouse_kinetic_state_t)
    (h : mouseSpeed A k = MouseSpeed_Accelerated ∨
      (k.wasMoveAction = true ∧ isMoveAction A k = true ∧ k.prevMouseSpeed ≠ mouseSpeed A k)) :
    (preRamp A k).currentSpeed = (preRamp A k).targetSpeed := by
  obtain ⟨c, T, hk⟩ := selectTargetSpeed_resetSpeed_eq A k
  unfold preRamp
  rw [snapSpeed_targetSpeed]
  exact snapSpeed_of_cond A _ (by rw [hk]; exact h)

theorem mouseSpeed_accelerated_iff (A : MouseStates) (k : mouse_kinetic_state_t) :
    mouseSpeed A k = MouseSpeed_Accelerated ↔
      (A Accelerate ≠ 0 ∨ doublePressedStateExists A k = true) := by
  unfold mouseSpeed
  split_ifs with h1 h2 <;> simp [h1]

theorem rampSpeed_currentSpeed (t : Nat) (k : mouse_kinetic_state_t) :
    (rampSpeed t k).currentSpeed =
      if k.currentSpeed < k.targetSpeed then
        min (k.currentSpeed + speedStep t k) k.targetSpeed
      else max (k.currentSpeed - speedStep t k) k.targetSpeed := by
  unfold rampSpeed
  by_cases h1 : k.currentSpeed < k.targetSpeed
  · rw [if_pos h1, if_pos h1]
    simp only
    split_ifs with h2
    · rw [min_eq_right (le_of_lt h2)]
    · rw [min_eq_left (not_lt.mp h2)]
  · rw [if_neg h1, if_neg h1]
    simp only
    split_ifs with h3
    · rw [max_eq_right (le_of_lt h3)]
    · rw [max_eq_left (not_lt.mp h3)]

theorem speedStep_preRamp (A : MouseStates) (t : Nat) (k : mouse_kinetic_state_t) :
    speedStep t (preRamp A k) =
      (k.intMultiplier : ℚ) * (k.acceleration : ℚ) * (t : ℚ) / 1000 := by
  obtain ⟨c, T, h⟩ := preRamp_eq A k
  rw [h]
  unfold speedStep
  push_cast
  rfl

theorem doublePressed_imp_isMoveAction (A : MouseStates) (k : mouse_kinetic_state_t)
    (h : doublePressedStateExists A k = true) : isMoveAction A k = true := by
  unfold doublePressedStateExists at h
  unfold isMoveAction
  simp only [Bool.or_eq_true, decide_eq_true_eq] at h ⊢
  omega

/-- State after a tick without motion, field by field. -/
theorem process_rest_fields (A : MouseStates) (C : Bool) (t : Nat)
    (k : mouse_kinetic_state_t) (h : isMoveAction A k = false) :
    processMouseKineticState A C t k =
      { k with
        currentSpeed := 0
        targetSpeed := (selectTargetSpeed A k).targetSpeed
        prevMouseSpeed := mouseSpeed A k
        wasMoveAction := false } := by
  have ht := process_targetSpeed A C t k
  rw [process_rest A C t k h] at ht ⊢
  obtain ⟨c, T, hp⟩ := preRamp_eq A k
  rw [hp] at ht ⊢
  have hT : T = (selectTargetSpeed A k).targetSpeed := ht
  rw [hT]

theorem selectTargetSpeed_idem (A : MouseStates) (k : mouse_kinetic_state_t) (c : ℚ)
    (p : mouse_speed_t) (w : Bool) (x y : Int) :
    (selectTargetSpeed A { k with
        currentSpeed := c
        targetSpeed := (selectTargetSpeed A k).targetSpeed
        prevMouseSpeed := p
        wasMoveAction := w
        xOut := x
        yOut := y }).targetSpeed = (selectTargetSpeed A k).targetSpeed := by
  rw [selectTargetSpeed_targetSpeed, selectTargetSpeed_targetSpeed]
  show (if A Accelerate ≠ 0 ∨ doublePressedStateExists A k = true then
        ((k.intMultiplier * k.acceleratedSpeed : Nat) : ℚ)
      else if A Decelerate ≠ 0 then ((k.intMultiplier * k.deceleratedSpeed : Nat) : ℚ)
      else if isMoveAction A k = true then ((k.intMultiplier * k.baseSpeed : Nat) : ℚ)
      else (if A Accelerate ≠ 0 ∨ doublePressedStateExists A k = true then
        ((k.intMultiplier * k.acceleratedSpeed : Nat) : ℚ)
      else if A Decelerate ≠ 0 then ((k.intMultiplier * k.deceleratedSpeed : Nat) : ℚ)
      else if isMoveAction A k = true then ((k.intMultiplier * k.baseSpeed : Nat) : ℚ)
      else k.targetSpeed)) = _
  split_ifs <;> rfl

/-- A second tick without motion on the same snapshot changes nothing. -/
theorem process_rest_idem (A : MouseStates) (C C2 : Bool) (t t2 : Nat)
    (k : mouse_kinetic_state_t) (h : isMoveAction A k = false) :
    clearOutputs (processMouseKineticState A C2 t2
        (clearOutputs (processMouseKineticState A C t k))) =
      clearOutputs (processMouseKineticState A C t k) := by
  have h2 : isMoveAction A (clearOutputs (processMouseKineticState A C t k)) = false := by
    rw [process_rest_fields A C t k h]; exact h
  rw [process_rest_fields A C2 t2 _ h2, process_rest_fields A C t k h]
  have hi := selectTargetSpeed_idem A k 0 (mouseSpeed A k) false 0 0
  unfold clearOutputs
  simp only
  rw [hi]
  rfl

theorem modffInt_eq_zero_of_abs_lt_one {x : ℚ} (h : |x| < 1) : modffInt x = 0 := by
  rw [abs_lt] at h
  rcases le_total 0 x with h0 | h0
  · exact modffInt_eq_zero_of_nonneg h0 h.2
  · exact modffInt_eq_zero_of_nonpos h0 h.1

theorem modffInt_zero : modffInt 0 = 0 := modffInt_eq_zero_of_nonneg le_rfl zero_lt_one

theorem integrate_xOut (A : MouseStates) (C : Bool) (t : Nat) (k : mouse_kinetic_state_t) :
    (integrate A C t k).xOut =
      if ((k.isScroll && !k.wasMoveAction) && decide (modffInt (integrateSumX A C t k) = 0) &&
          decide ((updateDirectionSigns A k).horizontalStateSign ≠ 0)) = true then
        (if A k.leftState ≠ 0 then -1 else 1)
      else modffInt (integrateSumX A C t k) := by
  simp only [integrate, integrateSumX]
  rcases k with ⟨_ | _, _ | _, _⟩ <;> rfl

theorem integrate_xSum (A : MouseStates) (C : Bool) (t : Nat) (k : mouse_kinetic_state_t) :
    (integrate A C t k).xSum =
      if ((k.isScroll && !k.wasMoveAction) && decide (modffInt (integrateSumX A C t k) = 0) &&
          decide ((updateDirectionSigns A k).horizontalStateSign ≠ 0)) = true then 0
      else modffFrac (integrateSumX A C t k) := by
  simp only [integrate, integrateSumX]
  rcases k with ⟨_ | _, _ | _, _⟩ <;> rfl

theorem integrate_yOut (A : MouseStates) (C : Bool) (t : Nat) (k : mouse_kinetic_state_t) :
    (integrate A C t k).yOut =
      if ((k.isScroll && !k.wasMoveAction) && decide (modffInt (integrateSumY A C t k) = 0) &&
          decide ((updateDirectionSigns A k).verticalStateSign ≠ 0)) = true then
        (if A k.upState ≠ 0 then -1 else 1)
      else modffInt (integrateSumY A C t k) := by
  simp only [integrate, integrateSumY]
  rcases k with ⟨_ | _, _ | _, _⟩ <;> rfl

theorem integrate_ySum (A : MouseStates) (C : Bool) (t : Nat) (k : mouse_kinetic_state_t) :
    (integrate A C t k).ySum =
      if ((k.isScroll && !k.wasMoveAction) && decide (modffInt (integrateSumY A C t k) = 0) &&
          decide ((updateDirectionSigns A k).verticalStateSign ≠ 0)) = true then 0
      else modffFrac (integrateSumY A C t k) := by
  simp only [integrate, integrateSumY]
  rcases k with ⟨_ | _, _ | _, _⟩ <;> rfl

/-- The first scroll tick on the horizontal axis: a sum that truncates to zero
on a moving axis is replaced by a unit chosen by the left counter. -/
theorem integrate_first_scroll_x (A : MouseStates) (C : Bool) (t : Nat)
    (k : mouse_kinetic_state_t) (hs : k.isScroll = true) (hw : k.wasMoveAction = false)
    (hne : (updateDirectionSigns A k).horizontalStateSign ≠ 0)
    (hd : |tickDistance C t (updateDirectionSigns A k) *
      ((updateDirectionSigns A k).horizontalStateSign : ℚ)| < 1) :
    (integrate A C t k).xOut = (if A k.leftState ≠ 0 then -1 else 1) ∧
      (integrate A C t k).xSum = 0 := by
  have hsum : integrateSumX A C t k = tickDistance C t (updateDirectionSigns A k) *
      ((updateDirectionSigns A k).horizontalStateSign : ℚ) := by
    simp [integrateSumX, hs, hw]
  have hz : modffInt (integrateSumX A C t k) = 0 := by
    rw [hsum]; exact modffInt_eq_zero_of_abs_lt_one hd
  rw [integrate_xOut, integrate_xSum, hz]
  simp [hs, hw, hne]

theorem integrate_first_scroll_y (A : MouseStates) (C : Bool) (t : Nat)
    (k : mouse_kinetic_state_t) (hs : k.isScroll = true) (hw : k.wasMoveAction = false)
    (hne : (updateDirectionSigns A k).verticalStateSign ≠ 0)
    (hd : |tickDistance C t (updateDirectionSigns A k) *
      ((updateDirectionSigns A k).verticalStateSign : ℚ)| < 1) :
    (integrate A C t k).yOut = (if A k.upState ≠ 0 then -1 else 1) ∧
      (integrate A C t k).ySum = 0 := by
  have hsum : integrateSumY A C t k = tickDistance C t (updateDirectionSigns A k) *
      ((updateDirectionSigns A k).verticalStateSign : ℚ) := by
    simp [integrateSumY, hs, hw]
  have hz : modffInt (integrateSumY A C t k) = 0 := by
    rw [hsum]; exact modffInt_eq_zero_of_abs_lt_one hd
  rw [integrate_yOut, integrate_ySum, hz]
  simp [hs, hw, hne]

/-- The first scroll tick on an axis whose sign is zero emits nothing. -/
theorem integrate_first_scroll_x_idle (A : MouseStates) (C : Bool) (t : Nat)
    (k : mouse_kinetic_state_t) (hs : k.isScroll = true) (hw : k.wasMoveAction = false)
    (h0 : (updateDirectionSigns A k).horizontalStateSign = 0) :
    (integrate A C t k).xOut = 0 ∧ (integrate A C t k).xSum = 0 := by
  have hsum : integrateSumX A C t k = 0 := by
    simp [integrateSumX, hs, hw, h0]
  rw [integrate_xOut, integrate_xSum, hsum, modffInt_zero]
  simp [h0, modffFrac, modffInt_zero]

theorem integrate_first_scroll_y_idle (A : MouseStates) (C : Bool) (t : Nat)
    (k : mouse_kinetic_state_t) (hs : k.isScroll = true) (hw : k.wasMoveAction = false)
    (h0 : (updateDirectionSigns A k).verticalStateSign = 0) :
    (integrate A C t k).yOut = 0 ∧ (integrate A C t k).ySum = 0 := by
  have hsum : integrateSumY A C t k = 0 := by
    simp [integrateSumY, hs, hw, h0]
  rw [integrate_yOut, integrate_ySum, hsum, modffInt_zero]
  simp [h0, modffFrac, modffInt_zero]

theorem updateOneDirectionSign_pair (A : MouseStates) (s : Int)
    (neg pos : SerializedMouseAction) :
    updateOneDirectionSign A (updateOneDirectionSign A s (-1) neg pos) 1 pos neg =
      if s = -1 ∧ A neg = 0 ∧ A pos ≠ 0 then 1
      else if s = 1 ∧ A pos = 0 ∧ A neg ≠ 0 then -1
      else if (s = -1 ∨ s = 1) ∧ A neg = 0 ∧ A pos = 0 then 0
      else s := by
  unfold updateOneDirectionSign
  by_cases h1 : s = -1 <;> by_cases h2 : s = 1 <;> by_cases h3 : A neg = 0 <;>
    by_cases h4 : A pos = 0 <;> simp [h1, h2, h3, h4]

theorem updateDirectionSigns_horizontal (A : MouseStates) (k : mouse_kinetic_state_t) :
    (updateDirectionSigns A k).horizontalStateSign =
      if k.horizontalStateSign = -1 ∧ A k.leftState = 0 ∧ A k.rightState ≠ 0 then 1
      else if k.horizontalStateSign = 1 ∧ A k.rightState = 0 ∧ A k.leftState ≠ 0 then -1
      else if (k.horizontalStateSign = -1 ∨ k.horizontalStateSign = 1) ∧
          A k.leftState = 0 ∧ A k.rightState = 0 then 0
      else k.horizontalStateSign :=
  updateOneDirectionSign_pair A k.horizontalStateSign k.leftState k.rightState

theorem updateDirectionSigns_vertical (A : MouseStates) (k : mouse_kinetic_state_t) :
    (updateDirectionSigns A k).verticalStateSign =
      if k.verticalStateSign = -1 ∧ A k.upState = 0 ∧ A k.downState ≠ 0 then 1
      else if k.verticalStateSign = 1 ∧ A k.downState = 0 ∧ A k.upState ≠ 0 then -1
      else if (k.verticalStateSign = -1 ∨ k.verticalStateSign = 1) ∧
          A k.upState = 0 ∧ A k.downState = 0 then 0
      else k.verticalStateSign :=
  updateOneDirectionSign_pair A k.verticalStateSign k.upState k.downState

theorem process_motion_signs (A : MouseStates) (C : Bool) (t : Nat)
    (k : mouse_kinetic_state_t) (h : isMoveAction A k = true) :
    (processMouseKineticState A C t k).horizontalStateSign =
        (updateDirectionSigns A k).horizontalStateSign ∧
      (processMouseKineticState A C t k).verticalStateSign =
        (updateDirectionSigns A k).verticalStateSign := by
  rw [process_motion A C t k h]
  obtain ⟨c, T, hp⟩ := rampSpeed_preRamp_eq A t k
  constructor
  · show (integrate A C t (rampSpeed t (preRamp A k))).horizontalStateSign = _
    rw [integrate_horizontalStateSign, hp]; rfl
  · show (integrate A C t (rampSpeed t (preRamp A k))).verticalStateSign = _
    rw [integrate_verticalStateSign, hp]; rfl

theorem isMoveAction_of_active (A : MouseStates) (k : mouse_kinetic_state_t)
    (h : A k.upState ≠ 0 ∨ A k.downState ≠ 0 ∨ A k.leftState ≠ 0 ∨ A k.rightState ≠ 0) :
    isMoveAction A k = true := by
  unfold isMoveAction
  simp only [Bool.or_eq_true, decide_eq_true_eq]
  tauto

theorem process_axisSign (A : MouseStates) (C : Bool) (t : Nat)
    (k : mouse_kinetic_state_t) (d : SerializedMouseAction) (h : isMoveAction A k = true) :
    axisSign (processMouseKineticState A C t k) d = axisSign (updateDirectionSigns A k) d := by
  obtain ⟨ph, pv⟩ := process_motion_signs A C t k h
  unfold axisSign
  split
  · exact pv
  · exact ph

theorem tickDistance_uncompensated (C : Bool) (t : Nat) (k : mouse_kinetic_state_t)
    (h : k.horizontalStateSign = 0 ∨ k.verticalStateSign = 0 ∨ C = false) :
    tickDistance C t k = k.currentSpeed * (t : ℚ) / 1000 := by
  unfold tickDistance
  rw [if_neg]
  rintro ⟨h1, h2, h3⟩
  rcases h with h | h | h
  · exact h1 h
  · exact h2 h
  · rw [h] at h3; exact Bool.false_ne_true h3

/-- Outputs and remainders of a motion tick are those of the integration stage
applied to the state with the ramped speed. -/
theorem process_motion_outputs (A : MouseStates) (C : Bool) (t : Nat)
    (k : mouse_kinetic_state_t) (h : isMoveAction A k = true) :
    ∃ c T, (processMouseKineticState A C t k).currentSpeed = c ∧
      (processMouseKineticState A C t k).xOut =
        (integrate A C t { k with currentSpeed := c, targetSpeed := T }).xOut ∧
      (processMouseKineticState A C t k).yOut =
        (integrate A C t { k with currentSpeed := c, targetSpeed := T }).yOut ∧
      (processMouseKineticState A C t k).xSum =
        (integrate A C t { k with currentSpeed := c, targetSpeed := T }).xSum ∧
      (processMouseKineticState A C t k).ySum =
        (integrate A C t { k with currentSpeed := c, targetSpeed := T }).ySum ∧
      (processMouseKineticState A C t k).horizontalStateSign =
        (updateDirectionSigns A k).horizontalStateSign ∧
      (processMouseKineticState A C t k).verticalStateSign =
        (updateDirectionSigns A k).verticalStateSign := by
  obtain ⟨c, T, hp⟩ := rampSpeed_preRamp_eq A t k
  obtain ⟨hc, _⟩ := process_motion_speeds A C t k h
  obtain ⟨hh, hv⟩ := process_motion_signs A C t k h
  refine ⟨c, T, ?_, ?_, ?_, ?_, ?_, hh, hv⟩
  · rw [hc, hp]
  all_goals rw [process_motion A C t k h, ← hp]

/-! ## Evaluation at concrete inputs -/

/-- Speed after a motion tick whose ramp starts on the target. -/
theorem process_currentSpeed_of_snapped (A : MouseStates) (C : Bool) (t : Nat)
    (k : mouse_kinetic_state_t) (hm : isMoveAction A k = true)
    (h : (preRamp A k).currentSpeed = (preRamp A k).targetSpeed) :
    (processMouseKineticState A C t k).currentSpeed = (preRamp A k).targetSpeed := by
  rw [(process_motion_speeds A C t k hm).1, rampSpeed_of_eq _ _ h]

theorem preRamp_scrollRightLast :
    (preRamp scrollRightOnly scrollRightLast).currentSpeed = 20 ∧
      (preRamp scrollRightOnly scrollRightLast).targetSpeed = 20 := by
  constructor <;>
    simp [preRamp, resetSpeed, selectTargetSpeed, snapSpeed, mouseSpeed,
      doublePressedStateExists, isMoveAction, scrollRightOnly, scrollRightLast, MouseScrollState]

theorem preRamp_scrollDownLast :
    (preRamp scrollDownOnly scrollDownLast).currentSpeed = 20 ∧
      (preRamp scrollDownOnly scrollDownLast).targetSpeed = 20 := by
  constructor <;>
    simp [preRamp, resetSpeed, selectTargetSpeed, snapSpeed, mouseSpeed,
      doublePressedStateExists, isMoveAction, scrollDownOnly, scrollDownLast, MouseScrollState]

theorem preRamp_bothScrollKeys :
    (preRamp bothScrollKeys scrollRightLast).currentSpeed = 20 ∧
      (preRamp bothScrollKeys scrollRightLast).targetSpeed = 20 := by
  constructor <;>
    simp [preRamp, resetSpeed, selectTargetSpeed, snapSpeed, mouseSpeed,
      doublePressedStateExists, isMoveAction, bothScrollKeys, scrollRightLast, MouseScrollState]

theorem process_scrollRightLast_speed :
    (processMouseKineticState scrollRightOnly false 10 scrollRightLast).currentSpeed = 20 := by
  rw [process_currentSpeed_of_snapped _ _ _ _ (by decide)
    (preRamp_scrollRightLast.1.trans preRamp_scrollRightLast.2.symm)]
  exact preRamp_scrollRightLast.2

theorem process_scrollDownLast_speed :
    (processMouseKineticState scrollDownOnly false 10 scrollDownLast).currentSpeed = 20 := by
  rw [process_currentSpeed_of_snapped _ _ _ _ (by decide)
    (preRamp_scrollDownLast.1.trans preRamp_scrollDownLast.2.symm)]
  exact preRamp_scrollDownLast.2

theorem process_bothScrollKeys_speed :
    (processMouseKineticState bothScrollKeys false 10 scrollRightLast).currentSpeed = 20 := by
  rw [process_currentSpeed_of_snapped _ _ _ _ (by decide)
    (preRamp_bothScrollKeys.1.trans preRamp_bothScrollKeys.2.symm)]
  exact preRamp_bothScrollKeys.2

/-- The forced unit of the first scroll tick on the horizontal axis, stated on
the whole function: it is chosen by the left counter alone. -/
theorem process_first_scroll_x (A : MouseStates) (C : Bool) (t : Nat)
    (k : mouse_kinetic_state_t) (hs : k.isScroll = true) (hw : k.wasMoveAction = false)
    (hm : isMoveAction A k = true)
    (hne : (updateDirectionSigns A k).horizontalStateSign ≠ 0)
    (hd : |tickDistance C t (processMouseKineticState A C t k) *
      ((processMouseKineticState A C t k).horizontalStateSign : ℚ)| < 1) :
    (processMouseKineticState A C t k).xOut = (if A k.leftState ≠ 0 then -1 else 1) ∧
      (processMouseKineticState A C t k).xSum = 0 ∧
      (processMouseKineticState A C t k).horizontalStateSign =
        (updateDirectionSigns A k).horizontalStateSign := by
  obtain ⟨c, T, hp⟩ := rampSpeed_preRamp_eq A t k
  rw [process_motion A C t k hm, hp] at hd ⊢
  have hd2 : |tickDistance C t (integrate A C t { k with currentSpeed := c, targetSpeed := T }) *
      ((integrate A C t { k with currentSpeed := c, targetSpeed := T }).horizontalStateSign
        : ℚ)| < 1 := hd
  rw [tickDistance_integrate, integrate_horizontalStateSign] at hd2
  obtain ⟨fx, fs⟩ := integrate_first_scroll_x A C t
    { k with currentSpeed := c, targetSpeed := T } hs hw hne hd2
  exact ⟨fx, fs, integrate_horizontalStateSign A C t _⟩

theorem modffInt_intCast (n : Int) : modffInt (n : ℚ) = n := by
  unfold modffInt
  split_ifs
  · exact Int.floor_intCast n
  · exact Int.ceil_intCast n

theorem modffFrac_intCast (n : Int) : modffFrac (n : ℚ) = 0 := by
  unfold modffFrac
  rw [modffInt_intCast]
  ring

/-- A value in the signed 8-bit range is stored as it is. -/
theorem int8_wrap_of_mem {v : Int} (h1 : -128 ≤ v) (h2 : v ≤ 127) : int8_wrap v = v := by
  unfold int8_wrap
  omega

/-! ## The claims -/

/-- Fractional conservation in exact arithmetic: over every sequence of ticks on
a non-scroll state that starts with zero remainders and zero outputs, the sum of
the integers `xOut` read by the caller plus the final remainder `xSum` equals
the sum of the per-tick signed distances, and likewise on the vertical axis, so
the emitted integers differ from that sum by less than one.  The sums are
rational numbers and the outputs unbounded integers here; the 32-bit `float`
sums of the source round at every operation, so this is a property of the
idealised computation and not of the compiled program. -/
theorem fractional_conservation_exact (inputs : List TickInput) (k : mouse_kinetic_state_t)
    (hs : k.isScroll = false) (hx : k.xSum = 0) (hy : k.ySum = 0)
    (hox : k.xOut = 0) (hoy : k.yOut = 0) :
    ((emittedX inputs k : ℚ) + (finalState inputs k).xSum = travelledX inputs k) ∧
    ((emittedY inputs k : ℚ) + (finalState inputs k).ySum = travelledY inputs k) ∧
    |(emittedX inputs k : ℚ) - travelledX inputs k| < 1 ∧
    |(emittedY inputs k : ℚ) - travelledY inputs k| < 1 := by
  obtain ⟨cx, cy⟩ := conservation_aux inputs k hs hox hoy
  obtain ⟨bx, b_y⟩ := finalState_abs_sums inputs k (by rw [hx]; simp) (by rw [hy]; simp)
  rw [hx, zero_add] at cx
  rw [hy, zero_add] at cy
  refine ⟨cx, cy, ?_, ?_⟩
  · have : (emittedX inputs k : ℚ) - travelledX inputs k = -(finalState inputs k).xSum := by
      linarith
    rw [this, abs_neg]; exact bx
  · have : (emittedY inputs k : ℚ) - travelledY inputs k = -(finalState inputs k).ySum := by
      linarith
    rw [this, abs_neg]; exact b_y

/-- Worked instance of the conservation in exact arithmetic: three ticks of
20 ms with `MoveUp` held, from the start-up move state. -/
theorem fractional_conservation_exact_instance :
    (MouseMoveState.isScroll = false ∧ MouseMoveState.xSum = 0 ∧ MouseMoveState.ySum = 0 ∧
      MouseMoveState.xOut = 0 ∧ MouseMoveState.yOut = 0) ∧
    (((emittedX [tickUp20, tickUp20, tickUp20] MouseMoveState : ℚ) +
        (finalState [tickUp20, tickUp20, tickUp20] MouseMoveState).xSum =
        travelledX [tickUp20, tickUp20, tickUp20] MouseMoveState) ∧
      ((emittedY [tickUp20, tickUp20, tickUp20] MouseMoveState : ℚ) +
        (finalState [tickUp20, tickUp20, tickUp20] MouseMoveState).ySum =
        travelledY [tickUp20, tickUp20, tickUp20] MouseMoveState) ∧
      |(emittedX [tickUp20, tickUp20, tickUp20] MouseMoveState : ℚ) -
        travelledX [tickUp20, tickUp20, tickUp20] MouseMoveState| < 1 ∧
      |(emittedY [tickUp20, tickUp20, tickUp20] MouseMoveState : ℚ) -
        travelledY [tickUp20, tickUp20, tickUp20] MouseMoveState| < 1) :=
  ⟨⟨rfl, rfl, rfl, rfl, rfl⟩,
    fractional_conservation_exact [tickUp20, tickUp20, tickUp20] MouseMoveState rfl rfl rfl rfl rfl⟩

/-- C2. Remainder invariant: if both remainders `xSum` and `ySum` have magnitude
below one before a call of `processMouseKineticState`, they have magnitude below
one after it, for every kinetic state (move or scroll), every snapshot of active
states, every compensation flag and every elapsed time. -/
theorem C2_remainder_invariant (A : MouseStates) (C : Bool) (t : Nat)
    (k : mouse_kinetic_state_t) (hx : |k.xSum| < 1) (hy : |k.ySum| < 1) :
    |(processMouseKineticState A C t k).xSum| < 1 ∧
      |(processMouseKineticState A C t k).ySum| < 1 :=
  process_abs_sums A C t k hx hy

/-- Worked instance of C2: the start-up scroll state (remainders zero) with
`ScrollRight` held for a tick of 10 ms. -/
theorem C2_remainder_invariant_witness :
    (|MouseScrollState.xSum| < 1 ∧ |MouseScrollState.ySum| < 1) ∧
    (|(processMouseKineticState scrollRightOnly false 10 MouseScrollState).xSum| < 1 ∧
      |(processMouseKineticState scrollRightOnly false 10 MouseScrollState).ySum| < 1) :=
  ⟨⟨by simp [MouseScrollState], by simp [MouseScrollState]⟩,
    C2_remainder_invariant scrollRightOnly false 10 MouseScrollState
      (by simp [MouseScrollState]) (by simp [MouseScrollState])⟩

/-- C3. Instant tier response: for every prior kinetic state and every elapsed
time, if at least one of the four direction counters of the state is nonzero and
either (a) the accelerate modifier is active or some direction counter exceeds
one, or (b) motion was active in the previous tick and the speed tier given by
the counters (accelerated, else decelerated when the decelerate modifier is
active, else normal) differs from the previous tier, then after
`processMouseKineticState` the current speed equals the target speed exactly,
and in case (a) that speed is `intMultiplier * acceleratedSpeed`. -/
theorem C3_instant_tier_response (A : MouseStates) (C : Bool) (t : Nat)
    (k : mouse_kinetic_state_t)
    (hmove : A k.upState ≠ 0 ∨ A k.downState ≠ 0 ∨ A k.leftState ≠ 0 ∨ A k.rightState ≠ 0)
    (h : (A Accelerate ≠ 0 ∨ A k.upState > 1 ∨ A k.downState > 1 ∨ A k.leftState > 1 ∨
        A k.rightState > 1) ∨
      (k.wasMoveAction = true ∧
        k.prevMouseSpeed ≠
          (if A Accelerate ≠ 0 ∨ A k.upState > 1 ∨ A k.downState > 1 ∨ A k.leftState > 1 ∨
              A k.rightState > 1 then MouseSpeed_Accelerated
            else if A Decelerate ≠ 0 then MouseSpeed_Decelerated
            else MouseSpeed_Normal))) :
    (processMouseKineticState A C t k).currentSpeed =
        (processMouseKineticState A C t k).targetSpeed ∧
      ((A Accelerate ≠ 0 ∨ A k.upState > 1 ∨ A k.downState > 1 ∨ A k.leftState > 1 ∨
          A k.rightState > 1) →
        (processMouseKineticState A C t k).currentSpeed =
          (k.intMultiplier : ℚ) * (k.acceleratedSpeed : ℚ)) := by
  have hdouble : doublePressedStateExists A k = true ↔
      (A k.upState > 1 ∨ A k.downState > 1 ∨ A k.leftState > 1 ∨ A k.rightState > 1) := by
    unfold doublePressedStateExists
    simp only [Bool.or_eq_true, decide_eq_true_eq, or_assoc]
  have hmv : isMoveAction A k = true := by
    unfold isMoveAction
    simp only [Bool.or_eq_true, decide_eq_true_eq, or_assoc]
    exact hmove
  have hacc : (A Accelerate ≠ 0 ∨ A k.upState > 1 ∨ A k.downState > 1 ∨ A k.leftState > 1 ∨
      A k.rightState > 1) ↔ (A Accelerate ≠ 0 ∨ doublePressedStateExists A k = true) := by
    rw [hdouble]
  have htier : (if A Accelerate ≠ 0 ∨ A k.upState > 1 ∨ A k.downState > 1 ∨ A k.leftState > 1 ∨
      A k.rightState > 1 then MouseSpeed_Accelerated
      else if A Decelerate ≠ 0 then MouseSpeed_Decelerated
      else MouseSpeed_Normal) = mouseSpeed A k := by
    unfold mouseSpeed
    by_cases hc : A Accelerate ≠ 0 ∨ doublePressedStateExists A k = true
    · rw [if_pos hc, if_pos (hacc.mpr hc)]
    · rw [if_neg hc, if_neg (fun hx => hc (hacc.mp hx))]
  have hsnap : (preRamp A k).currentSpeed = (preRamp A k).targetSpeed := by
    apply preRamp_snap
    rcases h with h | ⟨h1, h2⟩
    · exact Or.inl ((mouseSpeed_accelerated_iff A k).mpr (hacc.mp h))
    · exact Or.inr ⟨h1, hmv, by rw [← htier]; exact h2⟩
  obtain ⟨hc, hT⟩ := process_motion_speeds A C t k hmv
  have heq : (processMouseKineticState A C t k).currentSpeed =
      (processMouseKineticState A C t k).targetSpeed := by
    rw [hc, hT, rampSpeed_of_eq t _ hsnap]
  refine ⟨heq, fun ha => ?_⟩
  rw [heq, process_targetSpeed, selectTargetSpeed_targetSpeed, if_pos (hacc.mp ha)]
  push_cast
  rfl

/-- Worked instances of C3: `MoveUp` with the accelerate modifier on the
start-up move state gives speed 25 * 80 after one tick of 20 ms; so does `MoveUp`
pressed twice (counter 2) without the modifier; and when the decelerate modifier
is pressed during a motion at normal tier the speed is the target speed at
once. -/
theorem C3_instant_tier_response_witness :
    ((processMouseKineticState moveUpAccelerated false 20 MouseMoveState).currentSpeed =
        (processMouseKineticState moveUpAccelerated false 20 MouseMoveState).targetSpeed ∧
      (processMouseKineticState moveUpAccelerated false 20 MouseMoveState).currentSpeed =
        ((25 : Nat) : ℚ) * ((80 : Nat) : ℚ)) ∧
    (moveUpTwice MoveUp = 2 ∧ moveUpTwice Accelerate = 0 ∧
      (processMouseKineticState moveUpTwice false 20 MouseMoveState).currentSpeed =
        (processMouseKineticState moveUpTwice false 20 MouseMoveState).targetSpeed ∧
      (processMouseKineticState moveUpTwice false 20 MouseMoveState).currentSpeed =
        ((25 : Nat) : ℚ) * ((80 : Nat) : ℚ)) ∧
    (movingUpNormal.wasMoveAction = true ∧
      movingUpNormal.prevMouseSpeed = MouseSpeed_Normal ∧
      moveUpDecelerated Decelerate = 1 ∧
      (processMouseKineticState moveUpDecelerated false 20 movingUpNormal).currentSpeed =
        (processMouseKineticState moveUpDecelerated false 20 movingUpNormal).targetSpeed) :=
  ⟨⟨(C3_instant_tier_response moveUpAccelerated false 20 MouseMoveState
        (Or.inl (by decide)) (Or.inl (Or.inl (by decide)))).1,
      (C3_instant_tier_response moveUpAccelerated false 20 MouseMoveState
        (Or.inl (by decide)) (Or.inl (Or.inl (by decide)))).2 (Or.inl (by decide))⟩,
    ⟨rfl, rfl,
      (C3_instant_tier_response moveUpTwice false 20 MouseMoveState
        (Or.inl (by decide)) (Or.inl (Or.inr (Or.inl (by decide))))).1,
      (C3_instant_tier_response moveUpTwice false 20 MouseMoveState
        (Or.inl (by decide)) (Or.inl (Or.inr (Or.inl (by decide))))).2
          (Or.inr (Or.inl (by decide)))⟩,
    ⟨rfl, rfl, rfl,
      (C3_instant_tier_response moveUpDecelerated false 20 movingUpNormal
        (Or.inl (by decide)) (Or.inr ⟨rfl, by decide⟩)).1⟩⟩

/-- C4. Target-speed tier priority: after `processMouseKineticState` the target
speed is `intMultiplier * acceleratedSpeed` if the accelerate modifier is active
or one of the four direction counters exceeds one; otherwise
`intMultiplier * deceleratedSpeed` if the decelerate modifier is active;
otherwise `intMultiplier * baseSpeed` if one of the four directions is active;
otherwise it is the target speed from before the call. -/
theorem C4_target_speed_tier_priority (A : MouseStates) (C : Bool) (t : Nat)
    (k : mouse_kinetic_state_t) :
    (processMouseKineticState A C t k).targetSpeed =
      if A Accelerate ≠ 0 ∨ A k.upState > 1 ∨ A k.downState > 1 ∨ A k.leftState > 1 ∨
          A k.rightState > 1 then
        (k.intMultiplier : ℚ) * (k.acceleratedSpeed : ℚ)
      else if A Decelerate ≠ 0 then (k.intMultiplier : ℚ) * (k.deceleratedSpeed : ℚ)
      else if A k.upState ≠ 0 ∨ A k.downState ≠ 0 ∨ A k.leftState ≠ 0 ∨ A k.rightState ≠ 0 then
        (k.intMultiplier : ℚ) * (k.baseSpeed : ℚ)
      else k.targetSpeed := by
  rw [process_targetSpeed, selectTargetSpeed_targetSpeed]
  unfold doublePressedStateExists isMoveAction
  simp only [Bool.or_eq_true, decide_eq_true_eq, or_assoc, Nat.cast_mul]
/-- C5. Ramp without overshoot: in a tick with motion active, with `c` the
current speed after the reset and snap stages, `T` the target speed and
`step = intMultiplier * acceleration * elapsed / 1000`, the new current speed is
`min (c + step) T` when `c < T` and `max (c - step) T` otherwise; it lies between
`c` and `T`, does not cross `T`, and equals `T` whenever `|c - T| ≤ step`. -/
theorem C5_ramp_without_overshoot (A : MouseStates) (C : Bool) (t : Nat)
    (k : mouse_kinetic_state_t) (hmove : isMoveAction A k = true) :
    let c := (preRamp A k).currentSpeed
    let T := (preRamp A k).targetSpeed
    let step := (k.intMultiplier : ℚ) * (k.acceleration : ℚ) * (t : ℚ) / 1000
    let new := (processMouseKineticState A C t k).currentSpeed
    T = (processMouseKineticState A C t k).targetSpeed ∧
    (new = if c < T then min (c + step) T else max (c - step) T) ∧
    (min c T ≤ new ∧ new ≤ max c T) ∧
    ((c ≤ T → new ≤ T) ∧ (T ≤ c → T ≤ new)) ∧
    (|c - T| ≤ step → new = T) := by
  intro c T step new
  obtain ⟨hc, hT⟩ := process_motion_speeds A C t k hmove
  have hstep : 0 ≤ step := by positivity
  have hnew : new = if c < T then min (c + step) T else max (c - step) T := by
    show (processMouseKineticState A C t k).currentSpeed = _
    rw [hc, rampSpeed_currentSpeed, speedStep_preRamp]
  refine ⟨hT.symm, hnew, ?_, ?_, ?_⟩
  · rw [hnew]
    split_ifs with h
    · rw [min_eq_left (le_of_lt h), max_eq_right (le_of_lt h)]
      exact ⟨le_min (by linarith) (le_of_lt h), min_le_right _ _⟩
    · push_neg at h
      rw [min_eq_right h, max_eq_left h]
      exact ⟨le_max_right _ _, max_le (by linarith) h⟩
  · rw [hnew]
    constructor
    · intro hle
      split_ifs with h
      · exact min_le_right _ _
      · push_neg at h
        have : c = T := le_antisymm hle h
        rw [this]
        exact max_le (by linarith) le_rfl
    · intro hle
      split_ifs with h
      · exact absurd h (not_lt.mpr hle)
      · exact le_max_right _ _
  · intro habs
    rw [hnew]
    rw [abs_le] at habs
    split_ifs with h
    · exact min_eq_right (by linarith [habs.1])
    · exact max_eq_right (by linarith [habs.2])
/-- Worked instance of C5: `MoveUp` held on the start-up move state, one tick
of 20 ms. -/
theorem C5_ramp_without_overshoot_witness :
    isMoveAction moveUpOnly MouseMoveState = true ∧
    ((preRamp moveUpOnly MouseMoveState).targetSpeed =
        (processMouseKineticState moveUpOnly false 20 MouseMoveState).targetSpeed ∧
      (processMouseKineticState moveUpOnly false 20 MouseMoveState).currentSpeed ≤
        max (preRamp moveUpOnly MouseMoveState).currentSpeed
          (preRamp moveUpOnly MouseMoveState).targetSpeed) :=
  ⟨by decide,
    (C5_ramp_without_overshoot moveUpOnly false 20 MouseMoveState (by decide)).1,
    (C5_ramp_without_overshoot moveUpOnly false 20 MouseMoveState (by decide)).2.2.1.2⟩

/-- C6. Rest state: the kinetic part of a tick always leaves the outputs of both
kinetic states zeroed; and when none of the four directions of a kinetic state
is active in a tick (its outputs being zero at the start of the tick, as every
earlier tick and the start-up state leave them), that state has current speed 0
after the tick, the values it stores in the report (`x`, `y` for the move
state, `wheelX`, `wheelY` for the scroll state) are 0, and a second tick on the
same snapshot, with any elapsed time, leaves the kinetic state unchanged. -/
theorem C6_rest_state (A : MouseStates) (C : Bool) (t : Nat) (s : KineticTickState) :
    ((processKineticStates A C t s).MouseMoveState.xOut = 0 ∧
      (processKineticStates A C t s).MouseMoveState.yOut = 0 ∧
      (processKineticStates A C t s).MouseScrollState.xOut = 0 ∧
      (processKineticStates A C t s).MouseScrollState.yOut = 0) ∧
    (isMoveAction A s.MouseMoveState = false →
      s.MouseMoveState.xOut = 0 → s.MouseMoveState.yOut = 0 →
      (processKineticStates A C t s).MouseMoveState.currentSpeed = 0 ∧
      (processKineticStates A C t s).ActiveUsbMouseReport.x = 0 ∧
      (processKineticStates A C t s).ActiveUsbMouseReport.y = 0 ∧
      ∀ (C2 : Bool) (t2 : Nat),
        (processKineticStates A C2 t2 (processKineticStates A C t s)).MouseMoveState =
          (processKineticStates A C t s).MouseMoveState) ∧
    (isMoveAction A s.MouseScrollState = false →
      s.MouseScrollState.xOut = 0 → s.MouseScrollState.yOut = 0 →
      (processKineticStates A C t s).MouseScrollState.currentSpeed = 0 ∧
      (processKineticStates A C t s).ActiveUsbMouseReport.wheelX = 0 ∧
      (processKineticStates A C t s).ActiveUsbMouseReport.wheelY = 0 ∧
      ∀ (C2 : Bool) (t2 : Nat),
        (processKineticStates A C2 t2 (processKineticStates A C t s)).MouseScrollState =
          (processKineticStates A C t s).MouseScrollState) := by
  refine ⟨⟨rfl, rfl, rfl, rfl⟩, ?_, ?_⟩
  · intro h hx hy
    refine ⟨?_, ?_, ?_, ?_⟩
    · show (processMouseKineticState A C t s.MouseMoveState).currentSpeed = 0
      rw [process_rest_fields A C t _ h]
    · show (processMouseKineticState A C t s.MouseMoveState).xOut = 0
      rw [process_rest_fields A C t _ h]; exact hx
    · show (processMouseKineticState A C t s.MouseMoveState).yOut = 0
      rw [process_rest_fields A C t _ h]; exact hy
    · intro C2 t2
      exact process_rest_idem A C C2 t t2 _ h
  · intro h hx hy
    refine ⟨?_, ?_, ?_, ?_⟩
    · show (processMouseKineticState A C t s.MouseScrollState).currentSpeed = 0
      rw [process_rest_fields A C t _ h]
    · show (processMouseKineticState A C t s.MouseScrollState).xOut = 0
      rw [process_rest_fields A C t _ h]; exact hx
    · show (processMouseKineticState A C t s.MouseScrollState).yOut = 0
      rw [process_rest_fields A C t _ h]; exact hy
    · intro C2 t2
      exact process_rest_idem A C C2 t t2 _ h
/-- Worked instance of C6: a tick with nothing held on the start-up state. -/
theorem C6_rest_state_witness :
    (isMoveAction nothingHeld initialTickState.MouseMoveState = false ∧
      initialTickState.MouseMoveState.xOut = 0 ∧ initialTickState.MouseMoveState.yOut = 0) ∧
    ((processKineticStates nothingHeld false 20 initialTickState).MouseMoveState.currentSpeed
        = 0 ∧
      (processKineticStates nothingHeld false 20 initialTickState).ActiveUsbMouseReport.x = 0 ∧
      (processKineticStates nothingHeld false 20 initialTickState).ActiveUsbMouseReport.y = 0 ∧
      ∀ (C2 : Bool) (t2 : Nat),
        (processKineticStates nothingHeld C2 t2
          (processKineticStates nothingHeld false 20 initialTickState)).MouseMoveState =
          (processKineticStates nothingHeld false 20 initialTickState).MouseMoveState) :=
  ⟨⟨by decide, rfl, rfl⟩,
    (C6_rest_state nothingHeld false 20 initialTickState).2.1 (by decide) rfl rfl⟩

/-- C7. Scroll first tick: on a scroll state with no motion in the previous tick
(whatever the stale remainders), a tick in which exactly one scroll direction is
active, the sign of its axis being the value set by its activation (`-1` for
the state's left and up codes, `+1` for its right and down codes), the other
sign being one of `-1, 0, 1`, and the integrated distance
`currentSpeed * elapsed / 1000` having magnitude below one, emits exactly that
sign on the direction's axis, emits 0 on the other axis, and leaves the
remainder of the direction's axis equal to 0. -/
theorem C7_scroll_first_tick (A : MouseStates) (C : Bool) (t : Nat)
    (k : mouse_kinetic_state_t) (hs : k.isScroll = true) (hw : k.wasMoveAction = false)
    (hd : |(processMouseKineticState A C t k).currentSpeed * (t : ℚ) / 1000| < 1) :
    (A k.upState = 0 → A k.downState = 0 → ValidSign k.verticalStateSign →
      ((A k.leftState ≠ 0 ∧ A k.rightState = 0 ∧ k.horizontalStateSign = -1) ∨
        (A k.rightState ≠ 0 ∧ A k.leftState = 0 ∧ k.horizontalStateSign = 1)) →
      (processMouseKineticState A C t k).xOut = k.horizontalStateSign ∧
      (processMouseKineticState A C t k).yOut = 0 ∧
      (processMouseKineticState A C t k).xSum = 0) ∧
    (A k.leftState = 0 → A k.rightState = 0 → ValidSign k.horizontalStateSign →
      ((A k.upState ≠ 0 ∧ A k.downState = 0 ∧ k.verticalStateSign = -1) ∨
        (A k.downState ≠ 0 ∧ A k.upState = 0 ∧ k.verticalStateSign = 1)) →
      (processMouseKineticState A C t k).yOut = k.verticalStateSign ∧
      (processMouseKineticState A C t k).xOut = 0 ∧
      (processMouseKineticState A C t k).ySum = 0) := by
  constructor
  · intro hu hdn hval hdir
    have hm : isMoveAction A k = true := by
      apply isMoveAction_of_active
      rcases hdir with ⟨h, _, _⟩ | ⟨h, _, _⟩
      · exact Or.inr (Or.inr (Or.inl h))
      · exact Or.inr (Or.inr (Or.inr h))
    obtain ⟨c, T, hc, hx, hy, hxs, _, _, _⟩ := process_motion_outputs A C t k hm
    rw [hc] at hd
    rw [hx, hy, hxs]
    have uh : (updateDirectionSigns A { k with currentSpeed := c, targetSpeed := T }
        ).horizontalStateSign = k.horizontalStateSign := by
      rw [updateDirectionSigns_horizontal]
      rcases hdir with ⟨h1, h2, h3⟩ | ⟨h1, h2, h3⟩ <;> simp [h1, h2, h3]
    have uv : (updateDirectionSigns A { k with currentSpeed := c, targetSpeed := T }
        ).verticalStateSign = 0 := by
      rw [updateDirectionSigns_vertical]
      unfold ValidSign at hval
      rcases hval with h | h | h <;> simp [h, hu, hdn]
    have hne : k.horizontalStateSign ≠ 0 := by
      rcases hdir with ⟨_, _, h3⟩ | ⟨_, _, h3⟩ <;> rw [h3] <;> decide
    have htd : tickDistance C t (updateDirectionSigns A
        { k with currentSpeed := c, targetSpeed := T }) = c * (t : ℚ) / 1000 :=
      tickDistance_uncompensated C t _ (Or.inr (Or.inl uv))
    have habs : |tickDistance C t (updateDirectionSigns A
        { k with currentSpeed := c, targetSpeed := T }) *
        (((updateDirectionSigns A { k with currentSpeed := c, targetSpeed := T }
          ).horizontalStateSign : Int) : ℚ)| < 1 := by
      rw [htd, uh, abs_mul]
      rcases hdir with ⟨_, _, h3⟩ | ⟨_, _, h3⟩ <;> rw [h3] <;> simpa using hd
    obtain ⟨fx, fs⟩ := integrate_first_scroll_x A C t
      { k with currentSpeed := c, targetSpeed := T } hs hw (by rw [uh]; exact hne) habs
    obtain ⟨fy, _⟩ := integrate_first_scroll_y_idle A C t
      { k with currentSpeed := c, targetSpeed := T } hs hw uv
    refine ⟨?_, fy, fs⟩
    rw [fx]
    rcases hdir with ⟨h1, h2, h3⟩ | ⟨h1, h2, h3⟩
    · rw [h3]; exact if_pos h1
    · rw [h3]; exact if_neg (not_not.mpr h2)
  · intro hl hr hval hdir
    have hm : isMoveAction A k = true := by
      apply isMoveAction_of_active
      rcases hdir with ⟨h, _, _⟩ | ⟨h, _, _⟩
      · exact Or.inl h
      · exact Or.inr (Or.inl h)
    obtain ⟨c, T, hc, hx, hy, _, hys, _, _⟩ := process_motion_outputs A C t k hm
    rw [hc] at hd
    rw [hx, hy, hys]
    have uv : (updateDirectionSigns A { k with currentSpeed := c, targetSpeed := T }
        ).verticalStateSign = k.verticalStateSign := by
      rw [updateDirectionSigns_vertical]
      rcases hdir with ⟨h1, h2, h3⟩ | ⟨h1, h2, h3⟩ <;> simp [h1, h2, h3]
    have uh : (updateDirectionSigns A { k with currentSpeed := c, targetSpeed := T }
        ).horizontalStateSign = 0 := by
      rw [updateDirectionSigns_horizontal]
      unfold ValidSign at hval
      rcases hval with h | h | h <;> simp [h, hl, hr]
    have hne : k.verticalStateSign ≠ 0 := by
      rcases hdir with ⟨_, _, h3⟩ | ⟨_, _, h3⟩ <;> rw [h3] <;> decide
    have htd : tickDistance C t (updateDirectionSigns A
        { k with currentSpeed := c, targetSpeed := T }) = c * (t : ℚ) / 1000 :=
      tickDistance_uncompensated C t _ (Or.inl uh)
    have habs : |tickDistance C t (updateDirectionSigns A
        { k with currentSpeed := c, targetSpeed := T }) *
        (((updateDirectionSigns A { k with currentSpeed := c, targetSpeed := T }
          ).verticalStateSign : Int) : ℚ)| < 1 := by
      rw [htd, uv, abs_mul]
      rcases hdir with ⟨_, _, h3⟩ | ⟨_, _, h3⟩ <;> rw [h3] <;> simpa using hd
    obtain ⟨fy, fs⟩ := integrate_first_scroll_y A C t
      { k with currentSpeed := c, targetSpeed := T } hs hw (by rw [uv]; exact hne) habs
    obtain ⟨fx, _⟩ := integrate_first_scroll_x_idle A C t
      { k with currentSpeed := c, targetSpeed := T } hs hw uh
    refine ⟨?_, fx, fs⟩
    rw [fy]
    rcases hdir with ⟨h1, h2, h3⟩ | ⟨h1, h2, h3⟩
    · rw [h3]; exact if_pos h1
    · rw [h3]; exact if_neg (not_not.mpr h2)

/-- Worked instance of C7: `ScrollRight` alone (sign `+1`) emits `+1` on the
horizontal axis, and `ScrollDown` alone (the scroll state's up code, sign `-1`)
emits `-1` on the vertical axis, in a first tick of 10 ms. -/
theorem C7_scroll_first_tick_witness :
    (scrollRightLast.isScroll = true ∧ scrollRightLast.wasMoveAction = false ∧
      |(processMouseKineticState scrollRightOnly false 10 scrollRightLast).currentSpeed *
        ((10 : Nat) : ℚ) / 1000| < 1) ∧
    ((processMouseKineticState scrollRightOnly false 10 scrollRightLast).xOut = 1 ∧
      (processMouseKineticState scrollRightOnly false 10 scrollRightLast).yOut = 0 ∧
      (processMouseKineticState scrollRightOnly false 10 scrollRightLast).xSum = 0) ∧
    ((processMouseKineticState scrollDownOnly false 10 scrollDownLast).yOut = -1 ∧
      (processMouseKineticState scrollDownOnly false 10 scrollDownLast).xOut = 0 ∧
      (processMouseKineticState scrollDownOnly false 10 scrollDownLast).ySum = 0) := by
  have hd1 : |(processMouseKineticState scrollRightOnly false 10 scrollRightLast).currentSpeed *
      ((10 : Nat) : ℚ) / 1000| < 1 := by
    rw [process_scrollRightLast_speed, abs_lt]; norm_num
  have hd2 : |(processMouseKineticState scrollDownOnly false 10 scrollDownLast).currentSpeed *
      ((10 : Nat) : ℚ) / 1000| < 1 := by
    rw [process_scrollDownLast_speed, abs_lt]; norm_num
  exact ⟨⟨rfl, rfl, hd1⟩,
    (C7_scroll_first_tick scrollRightOnly false 10 scrollRightLast rfl rfl hd1).1
      rfl rfl (Or.inr (Or.inl rfl)) (Or.inr ⟨by decide, rfl, rfl⟩),
    (C7_scroll_first_tick scrollDownOnly false 10 scrollDownLast rfl rfl hd2).2
      rfl rfl (Or.inr (Or.inl rfl)) (Or.inl ⟨by decide, rfl, rfl⟩)⟩

/-- C8 (the code departs from the claim). The claim asks that a forced first-tick
scroll output equal the direction sign used for the integration.  With both
`ScrollLeft` and `ScrollRight` held and `ScrollRight` pressed last (reached from
the start-up state by two calls of `ToggleMouseState`), the first tick of 10 ms
integrates with horizontal sign `+1` but the forced output `xOut` is `-1`. -/
theorem C8_forced_output_opposes_sign :
    (ToggleMouseState ScrollRight true
        (ToggleMouseState ScrollLeft true initialGlobals)).MouseScrollState = scrollRightLast ∧
    (∀ a, (ToggleMouseState ScrollRight true
        (ToggleMouseState ScrollLeft true initialGlobals)).ActiveMouseStates a =
          bothScrollKeys a) ∧
    (processMouseKineticState bothScrollKeys false 10 scrollRightLast).horizontalStateSign = 1 ∧
    (processMouseKineticState bothScrollKeys false 10 scrollRightLast).xOut = -1 := by
  have uh : (updateDirectionSigns bothScrollKeys scrollRightLast).horizontalStateSign = 1 := by
    rw [updateDirectionSigns_horizontal]; decide
  have hm : isMoveAction bothScrollKeys scrollRightLast = true := by decide
  have hsign := (process_motion_signs bothScrollKeys false 10 scrollRightLast hm).1
  have hf := process_first_scroll_x bothScrollKeys false 10 scrollRightLast rfl rfl hm
    (by rw [uh]; decide)
    (by
      rw [tickDistance_uncompensated _ _ _ (Or.inr (Or.inr rfl)), hsign, uh,
        process_bothScrollKeys_speed, abs_lt]
      norm_num)
  refine ⟨rfl, ?_, hsign.trans uh, ?_⟩
  · intro a; cases a <;> rfl
  · rw [hf.1]; rfl

/-- C9. Sign precedence: when the direction tables are those of the static
initialisers and `later` is the direction opposing `earlier` (same kinetic kind,
same axis), activating `earlier` and then `later` through `ToggleMouseState`
leaves the axis sign equal to the value of `later`; and for every snapshot in
which `later` is inactive and `earlier` is still active, the re-evaluation by
`updateDirectionSigns`, also as run inside the next call of
`processMouseKineticState`, sets the sign to the value of `earlier`, with no new
activation call. -/
theorem C9_sign_precedence (g : Globals) (earlier later : SerializedMouseAction)
    (htab : DirectionTablesIntact g) (hopp : opposingDirection earlier = some later) :
    let g2 := ToggleMouseState later true (ToggleMouseState earlier true g)
    axisSign (kineticStateOf g2 later) later = directionValue (kineticStateOf g2 later) later ∧
    ∀ (A : MouseStates) (C : Bool) (t : Nat), A later = 0 → A earlier ≠ 0 →
      axisSign (updateDirectionSigns A (kineticStateOf g2 later)) later =
        directionValue (kineticStateOf g2 later) earlier ∧
      axisSign (processMouseKineticState A C t (kineticStateOf g2 later)) later =
        directionValue (kineticStateOf g2 later) earlier := by
  obtain ⟨t1, t2, t3, t4, t5, t6, t7, t8⟩ := htab
  cases earlier <;> simp only [opposingDirection, Option.some.injEq] at hopp <;>
    first | exact absurd hopp (by simp) | skip
  all_goals
    intro g2
    refine ⟨?_, ?_⟩
    · simp [g2, ← hopp, ToggleMouseState, MouseController_ActivateDirectionSigns, axisSign,
        kineticStateOf, directionAxis, directionValue, t1, t2, t3, t4, t5, t6, t7, t8]
    · intro A C t hl he
      have hm : isMoveAction A (kineticStateOf g2 later) = true := by
        apply isMoveAction_of_active
        simp [g2, ← hopp, ToggleMouseState, MouseController_ActivateDirectionSigns, kineticStateOf,
          directionAxis, t1, t2, t3, t4, t5, t6, t7, t8, he]
      rw [process_axisSign A C t _ later hm, and_self]
      rw [← hopp] at hl
      simp [g2, ← hopp, axisSign, updateDirectionSigns_horizontal,
        updateDirectionSigns_vertical, ToggleMouseState,
        MouseController_ActivateDirectionSigns, kineticStateOf,
        directionAxis, directionValue, t1, t2, t3, t4, t5, t6, t7, t8, hl, he]

/-- Worked instance of C9: `MoveLeft` then `MoveRight` from the start-up state
gives horizontal sign `+1`; with `MoveRight` released and `MoveLeft` held the
next tick gives `-1`. -/
theorem C9_sign_precedence_witness :
    (DirectionTablesIntact initialGlobals ∧ opposingDirection MoveLeft = some MoveRight) ∧
    (ToggleMouseState MoveRight true
      (ToggleMouseState MoveLeft true initialGlobals)).MouseMoveState.horizontalStateSign = 1 ∧
    (processMouseKineticState (fun a => if a = MoveLeft then 1 else 0) false 20
      (ToggleMouseState MoveRight true
        (ToggleMouseState MoveLeft true initialGlobals)).MouseMoveState).horizontalStateSign
      = -1 := by
  have htab : DirectionTablesIntact initialGlobals := ⟨rfl, rfl, rfl, rfl, rfl, rfl, rfl, rfl⟩
  have h := C9_sign_precedence initialGlobals MoveLeft MoveRight htab rfl
  exact ⟨⟨htab, rfl⟩, h.1,
    (h.2 (fun a => if a = MoveLeft then 1 else 0) false 20 (by decide) (by decide)).2⟩

/-- C10. Re-evaluation rule of `updateDirectionSigns`: for every kinetic state
whose signs are among `-1, 0, 1` and every snapshot, the horizontal sign
afterwards is `+1` if it was `-1` with left inactive and right active; `-1` if it
was `+1` with right inactive and left active; `0` if it was nonzero with both
left and right inactive; and unchanged in every other case, in particular
whenever the direction whose value it has is still active and whenever it is 0.
The same holds for the vertical sign with up as `-1` and down as `+1`. -/
theorem C10_reevaluation_rule (A : MouseStates) (k : mouse_kinetic_state_t)
    (hh : ValidSign k.horizontalStateSign) (hv : ValidSign k.verticalStateSign) :
    ((updateDirectionSigns A k).horizontalStateSign =
        if k.horizontalStateSign = -1 ∧ A k.leftState = 0 ∧ A k.rightState ≠ 0 then 1
        else if k.horizontalStateSign = 1 ∧ A k.rightState = 0 ∧ A k.leftState ≠ 0 then -1
        else if k.horizontalStateSign ≠ 0 ∧ A k.leftState = 0 ∧ A k.rightState = 0 then 0
        else k.horizontalStateSign) ∧
    ((updateDirectionSigns A k).verticalStateSign =
        if k.verticalStateSign = -1 ∧ A k.upState = 0 ∧ A k.downState ≠ 0 then 1
        else if k.verticalStateSign = 1 ∧ A k.downState = 0 ∧ A k.upState ≠ 0 then -1
        else if k.verticalStateSign ≠ 0 ∧ A k.upState = 0 ∧ A k.downState = 0 then 0
        else k.verticalStateSign) ∧
    (k.horizontalStateSign = -1 → A k.leftState ≠ 0 →
      (updateDirectionSigns A k).horizontalStateSign = -1) ∧
    (k.horizontalStateSign = 1 → A k.rightState ≠ 0 →
      (updateDirectionSigns A k).horizontalStateSign = 1) ∧
    (k.horizontalStateSign = 0 → (updateDirectionSigns A k).horizontalStateSign = 0) ∧
    (k.verticalStateSign = -1 → A k.upState ≠ 0 →
      (updateDirectionSigns A k).verticalStateSign = -1) ∧
    (k.verticalStateSign = 1 → A k.downState ≠ 0 →
      (updateDirectionSigns A k).verticalStateSign = 1) ∧
    (k.verticalStateSign = 0 → (updateDirectionSigns A k).verticalStateSign = 0) := by
  rw [updateDirectionSigns_horizontal, updateDirectionSigns_vertical]
  have eh : (k.horizontalStateSign = -1 ∨ k.horizontalStateSign = 1) ↔
      k.horizontalStateSign ≠ 0 := by
    unfold ValidSign at hh; omega
  have ev : (k.verticalStateSign = -1 ∨ k.verticalStateSign = 1) ↔
      k.verticalStateSign ≠ 0 := by
    unfold ValidSign at hv; omega
  refine ⟨?_, ?_, ?_, ?_, ?_, ?_, ?_, ?_⟩
  · simp only [eh]
  · simp only [ev]
  · intro h1 h2; simp [h1, h2]
  · intro h1 h2; simp [h1, h2]
  · intro h1; simp [h1]
  · intro h1 h2; simp [h1, h2]
  · intro h1 h2; simp [h1, h2]
  · intro h1; simp [h1]

/-- Worked instance of C10: a stale horizontal sign `-1` with only `MoveRight`
held flips to `+1`; the vertical sign 0 stays 0. -/
theorem C10_reevaluation_rule_witness :
    (ValidSign moveLeftStale.horizontalStateSign ∧ ValidSign moveLeftStale.verticalStateSign) ∧
    (updateDirectionSigns moveRightOnly moveLeftStale).horizontalStateSign = 1 ∧
    (updateDirectionSigns moveRightOnly moveLeftStale).verticalStateSign = 0 := by
  have hh : ValidSign moveLeftStale.horizontalStateSign := Or.inl rfl
  have hv : ValidSign moveLeftStale.verticalStateSign := Or.inr (Or.inl rfl)
  have h := C10_reevaluation_rule moveRightOnly moveLeftStale hh hv
  refine ⟨⟨hh, hv⟩, ?_, ?_⟩
  · rw [h.1]; decide
  · rw [h.2.1]; decide

/-! ## Lemmas for speed bounds, compensation and the end-to-end scenario -/

theorem preRamp_targetSpeed (A : MouseStates) (k : mouse_kinetic_state_t) :
    (preRamp A k).targetSpeed = (selectTargetSpeed A k).targetSpeed := by
  unfold preRamp
  rw [snapSpeed_targetSpeed]
  obtain ⟨c, hc⟩ := resetSpeed_eq A k
  rw [hc, selectTargetSpeed_targetSpeed, selectTargetSpeed_targetSpeed]
  rfl

theorem snapSpeed_currentSpeed_cases (A : MouseStates) (k : mouse_kinetic_state_t) :
    (snapSpeed A k).currentSpeed = k.targetSpeed ∨
      (snapSpeed A k).currentSpeed = k.currentSpeed := by
  unfold snapSpeed
  split_ifs
  · exact Or.inl rfl
  · exact Or.inr rfl

theorem resetSpeed_currentSpeed_cases (A : MouseStates) (k : mouse_kinetic_state_t) :
    (resetSpeed A k).currentSpeed = (k.intMultiplier : ℚ) * (k.initialSpeed : ℚ) ∨
      (resetSpeed A k).currentSpeed = k.currentSpeed := by
  unfold resetSpeed
  split_ifs
  · left; push_cast; rfl
  · exact Or.inr rfl

/-- The speed in front of the ramp is the target, the initial speed, or the
speed from before the call. -/
theorem preRamp_currentSpeed_cases (A : MouseStates) (k : mouse_kinetic_state_t) :
    (preRamp A k).currentSpeed = (preRamp A k).targetSpeed ∨
      (preRamp A k).currentSpeed = (k.intMultiplier : ℚ) * (k.initialSpeed : ℚ) ∨
      (preRamp A k).currentSpeed = k.currentSpeed := by
  have ht : (preRamp A k).targetSpeed =
      (selectTargetSpeed A (resetSpeed A k)).targetSpeed := by
    unfold preRamp; rw [snapSpeed_targetSpeed]
  rcases snapSpeed_currentSpeed_cases A (selectTargetSpeed A (resetSpeed A k)) with h | h
  · left; rw [ht]; exact h
  · right
    obtain ⟨T, hT⟩ := selectTargetSpeed_eq A (resetSpeed A k)
    have hc : (preRamp A k).currentSpeed = (resetSpeed A k).currentSpeed := by
      unfold preRamp; rw [h, hT]
    rw [hc]
    exact resetSpeed_currentSpeed_cases A k

theorem tier_le_speedCeiling (k : mouse_kinetic_state_t) :
    (k.intMultiplier : ℚ) * (k.initialSpeed : ℚ) ≤ speedCeiling k ∧
    (k.intMultiplier : ℚ) * (k.deceleratedSpeed : ℚ) ≤ speedCeiling k ∧
    (k.intMultiplier : ℚ) * (k.baseSpeed : ℚ) ≤ speedCeiling k ∧
    (k.intMultiplier : ℚ) * (k.acceleratedSpeed : ℚ) ≤ speedCeiling k := by
  unfold speedCeiling
  have hm : (0 : ℚ) ≤ (k.intMultiplier : ℚ) := Nat.cast_nonneg _
  refine ⟨?_, ?_, ?_, ?_⟩ <;>
    · apply mul_le_mul_of_nonneg_left _ hm
      exact_mod_cast (by omega)

theorem selectTargetSpeed_bounds (A : MouseStates) (k : mouse_kinetic_state_t)
    (hT : 0 ≤ k.targetSpeed) :
    0 ≤ (selectTargetSpeed A k).targetSpeed ∧
      (isMoveAction A k = true → (selectTargetSpeed A k).targetSpeed ≤ speedCeiling k) := by
  obtain ⟨_, h2, h3, h4⟩ := tier_le_speedCeiling k
  rw [selectTargetSpeed_targetSpeed]
  split_ifs with a b c
  · exact ⟨Nat.cast_nonneg _, fun _ => by push_cast; exact h4⟩
  · exact ⟨Nat.cast_nonneg _, fun _ => by push_cast; exact h2⟩
  · exact ⟨Nat.cast_nonneg _, fun _ => by push_cast; exact h3⟩
  · exact ⟨hT, fun h => absurd h c⟩

theorem speedCeiling_nonneg (k : mouse_kinetic_state_t) : 0 ≤ speedCeiling k := by
  unfold speedCeiling; positivity

/-- The integration stage writes the two signs, the two sums and the two
outputs, and nothing else. -/
theorem integrate_frame (A : MouseStates) (C : Bool) (t : Nat) (k : mouse_kinetic_state_t) :
    integrate A C t k =
      { k with
        horizontalStateSign := (integrate A C t k).horizontalStateSign
        verticalStateSign := (integrate A C t k).verticalStateSign
        xSum := (integrate A C t k).xSum
        ySum := (integrate A C t k).ySum
        xOut := (integrate A C t k).xOut
        yOut := (integrate A C t k).yOut } := by
  rcases k with ⟨_ | _, _ | _, _⟩ <;> rfl

theorem process_speedCeiling (A : MouseStates) (C : Bool) (t : Nat)
    (k : mouse_kinetic_state_t) :
    speedCeiling (processMouseKineticState A C t k) = speedCeiling k := by
  cases h : isMoveAction A k
  · rw [process_rest_fields A C t k h]; rfl
  · rw [process_motion A C t k h]
    obtain ⟨c, T, hp⟩ := rampSpeed_preRamp_eq A t k
    rw [hp, integrate_frame]; rfl

/-- Bounds of the speed in front of the ramp. -/
theorem preRamp_currentSpeed_bounds (A : MouseStates) (k : mouse_kinetic_state_t)
    (hm : isMoveAction A k = true)
    (h0 : 0 ≤ k.currentSpeed) (hM : k.currentSpeed ≤ speedCeiling k)
    (hT : 0 ≤ k.targetSpeed) :
    0 ≤ (preRamp A k).currentSpeed ∧ (preRamp A k).currentSpeed ≤ speedCeiling k := by
  obtain ⟨hs0, hsM⟩ := selectTargetSpeed_bounds A k hT
  obtain ⟨h1, _, _, _⟩ := tier_le_speedCeiling k
  have hi0 : (0 : ℚ) ≤ (k.intMultiplier : ℚ) * (k.initialSpeed : ℚ) := by positivity
  rcases preRamp_currentSpeed_cases A k with e | e | e
  · rw [e, preRamp_targetSpeed]; exact ⟨hs0, hsM hm⟩
  · rw [e]; exact ⟨hi0, h1⟩
  · rw [e]; exact ⟨h0, hM⟩

/-- Bounds of the speed after a motion tick. -/
theorem process_motion_speed_bounds (A : MouseStates) (C : Bool) (t : Nat)
    (k : mouse_kinetic_state_t) (hm : isMoveAction A k = true)
    (h0 : 0 ≤ k.currentSpeed) (hM : k.currentSpeed ≤ speedCeiling k)
    (hT : 0 ≤ k.targetSpeed) :
    0 ≤ (processMouseKineticState A C t k).currentSpeed ∧
      (processMouseKineticState A C t k).currentSpeed ≤ speedCeiling k := by
  obtain ⟨hs0, hsM⟩ := selectTargetSpeed_bounds A k hT
  obtain ⟨hc0, hcM⟩ := preRamp_currentSpeed_bounds A k hm h0 hM hT
  have hstep := speedStep_nonneg t (preRamp A k)
  have hTM := hsM hm
  rw [(process_motion_speeds A C t k hm).1, rampSpeed_currentSpeed, preRamp_targetSpeed]
  split_ifs with hlt
  · constructor
    · apply le_min
      · linarith
      · exact hs0
    · exact le_trans (min_le_right _ _) hTM
  · constructor
    · exact le_trans hs0 (le_max_right _ _)
    · apply max_le
      · linarith
      · exact hTM

theorem isMoveAction_nothingHeld (k : mouse_kinetic_state_t) :
    isMoveAction nothingHeld k = false := by
  simp [isMoveAction, nothingHeld]

/-- Speed after a motion tick, from the speed and target in front of the ramp. -/
theorem process_motion_currentSpeed (A : MouseStates) (C : Bool) (t : Nat)
    (k : mouse_kinetic_state_t) (hm : isMoveAction A k = true) :
    (processMouseKineticState A C t k).currentSpeed =
      if (preRamp A k).currentSpeed < (preRamp A k).targetSpeed then
        min ((preRamp A k).currentSpeed +
          (k.intMultiplier : ℚ) * (k.acceleration : ℚ) * (t : ℚ) / 1000)
          (preRamp A k).targetSpeed
      else
        max ((preRamp A k).currentSpeed -
          (k.intMultiplier : ℚ) * (k.acceleration : ℚ) * (t : ℚ) / 1000)
          (preRamp A k).targetSpeed := by
  rw [(process_motion_speeds A C t k hm).1, rampSpeed_currentSpeed, speedStep_preRamp]

/-- The sums handed to `modff` in a motion tick, in terms of the state after
the call. -/
theorem process_motion_sums (A : MouseStates) (C : Bool) (t : Nat)
    (k : mouse_kinetic_state_t) (hm : isMoveAction A k = true) :
    integrateSumX A C t (rampSpeed t (preRamp A k)) =
        (if (k.isScroll && !k.wasMoveAction) = true then 0 else k.xSum) +
          tickDistance C t (processMouseKineticState A C t k) *
            ((processMouseKineticState A C t k).horizontalStateSign : ℚ) ∧
      integrateSumY A C t (rampSpeed t (preRamp A k)) =
        (if (k.isScroll && !k.wasMoveAction) = true then 0 else k.ySum) +
          tickDistance C t (processMouseKineticState A C t k) *
            ((processMouseKineticState A C t k).verticalStateSign : ℚ) := by
  obtain ⟨c, T, hp⟩ := rampSpeed_preRamp_eq A t k
  have e1 : tickDistance C t (processMouseKineticState A C t k) =
      tickDistance C t (updateDirectionSigns A (rampSpeed t (preRamp A k))) := by
    rw [process_motion A C t k hm]
    exact tickDistance_integrate A C t _
  have e2 : (processMouseKineticState A C t k).horizontalStateSign =
      (updateDirectionSigns A (rampSpeed t (preRamp A k))).horizontalStateSign := by
    rw [process_motion A C t k hm]
    exact integrate_horizontalStateSign A C t _
  have e3 : (processMouseKineticState A C t k).verticalStateSign =
      (updateDirectionSigns A (rampSpeed t (preRamp A k))).verticalStateSign := by
    rw [process_motion A C t k hm]
    exact integrate_verticalStateSign A C t _
  rw [e1, e2, e3]
  unfold integrateSumX integrateSumY
  rw [hp]
  exact ⟨rfl, rfl⟩


/-- State after a motion tick as a record over the state before it. -/
theorem process_motion_record (A : MouseStates) (C : Bool) (t : Nat)
    (k : mouse_kinetic_state_t) (hm : isMoveAction A k = true) :
    processMouseKineticState A C t k =
      { k with
        wasMoveAction := true
        verticalStateSign := (processMouseKineticState A C t k).verticalStateSign
        horizontalStateSign := (processMouseKineticState A C t k).horizontalStateSign
        currentSpeed := (processMouseKineticState A C t k).currentSpeed
        targetSpeed := (processMouseKineticState A C t k).targetSpeed
        xSum := (processMouseKineticState A C t k).xSum
        ySum := (processMouseKineticState A C t k).ySum
        xOut := (processMouseKineticState A C t k).xOut
        yOut := (processMouseKineticState A C t k).yOut
        prevMouseSpeed := mouseSpeed A k } := by
  obtain ⟨c, T, hp⟩ := rampSpeed_preRamp_eq A t k
  have h := process_motion A C t k hm
  rw [hp, integrate_frame] at h
  rw [h]

/-- Outputs and remainders of a motion tick of a non-scroll state. -/
theorem process_move_outputs (A : MouseStates) (C : Bool) (t : Nat)
    (k : mouse_kinetic_state_t) (hm : isMoveAction A k = true) (hs : k.isScroll = false) :
    (processMouseKineticState A C t k).xOut =
        modffInt (k.xSum + tickDistance C t (processMouseKineticState A C t k) *
          ((processMouseKineticState A C t k).horizontalStateSign : ℚ)) ∧
      (processMouseKineticState A C t k).xSum =
        modffFrac (k.xSum + tickDistance C t (processMouseKineticState A C t k) *
          ((processMouseKineticState A C t k).horizontalStateSign : ℚ)) ∧
      (processMouseKineticState A C t k).yOut =
        modffInt (k.ySum + tickDistance C t (processMouseKineticState A C t k) *
          ((processMouseKineticState A C t k).verticalStateSign : ℚ)) ∧
      (processMouseKineticState A C t k).ySum =
        modffFrac (k.ySum + tickDistance C t (processMouseKineticState A C t k) *
          ((processMouseKineticState A C t k).verticalStateSign : ℚ)) := by
  obtain ⟨sx, sy⟩ := process_motion_sums A C t k hm
  simp only [hs, Bool.false_and, Bool.false_eq_true, if_false] at sx sy
  rw [← sx, ← sy]
  obtain ⟨c, T, hp⟩ := rampSpeed_preRamp_eq A t k
  have hs2 : (rampSpeed t (preRamp A k)).isScroll = false := by rw [hp]; exact hs
  have h := process_motion A C t k hm
  have ex : (processMouseKineticState A C t k).xOut =
      (integrate A C t (rampSpeed t (preRamp A k))).xOut := by rw [h]
  have exs : (processMouseKineticState A C t k).xSum =
      (integrate A C t (rampSpeed t (preRamp A k))).xSum := by rw [h]
  have ey : (processMouseKineticState A C t k).yOut =
      (integrate A C t (rampSpeed t (preRamp A k))).yOut := by rw [h]
  have eys : (processMouseKineticState A C t k).ySum =
      (integrate A C t (rampSpeed t (preRamp A k))).ySum := by rw [h]
  rw [ex, exs, ey, eys, integrate_xOut, integrate_xSum, integrate_yOut, integrate_ySum]
  simp [hs2]


/-- Evaluation of a motion tick of a non-scroll state without diagonal
compensation, from the values of its stages. -/
theorem process_move_eval (A : MouseStates) (t : Nat) (k : mouse_kinetic_state_t)
    (hm : isMoveAction A k = true) (hs : k.isScroll = false)
    (c T cn xs ys : ℚ) (h v xi yi : Int)
    (hc : (preRamp A k).currentSpeed = c) (hT : (preRamp A k).targetSpeed = T)
    (hcn : (if c < T then
        min (c + (k.intMultiplier : ℚ) * (k.acceleration : ℚ) * (t : ℚ) / 1000) T
      else max (c - (k.intMultiplier : ℚ) * (k.acceleration : ℚ) * (t : ℚ) / 1000) T) = cn)
    (hh : (updateDirectionSigns A k).horizontalStateSign = h)
    (hv : (updateDirectionSigns A k).verticalStateSign = v)
    (hx : modffInt (k.xSum + cn * (t : ℚ) / 1000 * (h : ℚ)) = xi)
    (hxs : modffFrac (k.xSum + cn * (t : ℚ) / 1000 * (h : ℚ)) = xs)
    (hy : modffInt (k.ySum + cn * (t : ℚ) / 1000 * (v : ℚ)) = yi)
    (hys : modffFrac (k.ySum + cn * (t : ℚ) / 1000 * (v : ℚ)) = ys) :
    processMouseKineticState A false t k =
      { k with
        wasMoveAction := true
        verticalStateSign := v
        horizontalStateSign := h
        currentSpeed := cn
        targetSpeed := T
        xSum := xs
        ySum := ys
        xOut := xi
        yOut := yi
        prevMouseSpeed := mouseSpeed A k } := by
  have e_c : (processMouseKineticState A false t k).currentSpeed = cn := by
    rw [process_motion_currentSpeed A false t k hm, hc, hT, hcn]
  have e_T : (processMouseKineticState A false t k).targetSpeed = T := by
    rw [(process_motion_speeds A false t k hm).2, hT]
  have e_h : (processMouseKineticState A false t k).horizontalStateSign = h := by
    rw [(process_motion_signs A false t k hm).1, hh]
  have e_v : (processMouseKineticState A false t k).verticalStateSign = v := by
    rw [(process_motion_signs A false t k hm).2, hv]
  have e_d : tickDistance false t (processMouseKineticState A false t k) =
      cn * (t : ℚ) / 1000 := by
    rw [tickDistance_uncompensated false t _ (Or.inr (Or.inr rfl)), e_c]
  obtain ⟨o1, o2, o3, o4⟩ := process_move_outputs A false t k hm hs
  rw [e_d, e_h, hx] at o1
  rw [e_d, e_h, hxs] at o2
  rw [e_d, e_v, hy] at o3
  rw [e_d, e_v, hys] at o4
  rw [process_motion_record A false t k hm, e_c, e_T, e_h, e_v, o1, o2, o3, o4]

theorem modffFrac_of_modffInt {x : ℚ} {n : Int} (h : modffInt x = n) :
    modffFrac x = x - (n : ℚ) := by
  unfold modffFrac; rw [h]

theorem scenarioTick1_eq :
    scenarioTick1 =
      { moveUpStart with
        wasMoveAction := true
        currentSpeed := 285 / 2
        targetSpeed := 1000
        ySum := -17 / 20
        yOut := -2 } := by
  have hi : modffInt ((0 : ℚ) + 285 / 2 * ((20 : Nat) : ℚ) / 1000 * ((-1 : Int) : ℚ)) = -2 :=
    modffInt_eq_of_neg (-2) (by norm_num) (by norm_num) (by norm_num)
  have hz : modffInt ((0 : ℚ) + 285 / 2 * ((20 : Nat) : ℚ) / 1000 * ((0 : Int) : ℚ)) = 0 := by
    rw [show ((0 : ℚ) + 285 / 2 * ((20 : Nat) : ℚ) / 1000 * ((0 : Int) : ℚ)) = 0 by norm_num]
    exact modffInt_zero
  have h := process_move_eval moveUpOnly 20 moveUpStart (by decide) rfl
    125 1000 (285 / 2) 0 (-17 / 20) 0 (-1) 0 (-2)
    (by simp [preRamp, resetSpeed, selectTargetSpeed, snapSpeed, mouseSpeed,
      doublePressedStateExists, isMoveAction, moveUpOnly, moveUpStart, MouseMoveState])
    (by simp [preRamp, resetSpeed, selectTargetSpeed, snapSpeed, mouseSpeed,
      doublePressedStateExists, isMoveAction, moveUpOnly, moveUpStart, MouseMoveState])
    (by norm_num [moveUpStart, MouseMoveState])
    (by rw [updateDirectionSigns_horizontal]; decide)
    (by rw [updateDirectionSigns_vertical]; decide)
    hz ((modffFrac_of_modffInt hz).trans (by norm_num))
    hi ((modffFrac_of_modffInt hi).trans (by norm_num))
  unfold scenarioTick1
  rw [h]
  rfl


theorem scenarioTick2_eq :
    scenarioTick2 =
      { moveUpStart with
        wasMoveAction := true
        currentSpeed := 160
        targetSpeed := 1000
        ySum := -1 / 20
        yOut := -4 } := by
  have hi : modffInt ((-17 / 20 : ℚ) + 160 * ((20 : Nat) : ℚ) / 1000 * ((-1 : Int) : ℚ)) = -4 :=
    modffInt_eq_of_neg (-4) (by norm_num) (by norm_num) (by norm_num)
  have hz : modffInt ((0 : ℚ) + 160 * ((20 : Nat) : ℚ) / 1000 * ((0 : Int) : ℚ)) = 0 := by
    rw [show ((0 : ℚ) + 160 * ((20 : Nat) : ℚ) / 1000 * ((0 : Int) : ℚ)) = 0 by norm_num]
    exact modffInt_zero
  unfold scenarioTick2
  rw [scenarioTick1_eq]
  have h := process_move_eval moveUpOnly 20
    (clearOutputs { moveUpStart with
        wasMoveAction := true
        currentSpeed := 285 / 2
        targetSpeed := 1000
        ySum := -17 / 20
        yOut := -2 }) (by decide) rfl
    (285 / 2) 1000 160 0 (-1 / 20) 0 (-1) 0 (-4)
    (by simp [preRamp, resetSpeed, selectTargetSpeed, snapSpeed, mouseSpeed, clearOutputs,
      doublePressedStateExists, isMoveAction, moveUpOnly, moveUpStart, MouseMoveState])
    (by simp [preRamp, resetSpeed, selectTargetSpeed, snapSpeed, mouseSpeed, clearOutputs,
      doublePressedStateExists, isMoveAction, moveUpOnly, moveUpStart, MouseMoveState])
    (by norm_num [moveUpStart, MouseMoveState, clearOutputs])
    (by rw [updateDirectionSigns_horizontal]; decide)
    (by rw [updateDirectionSigns_vertical]; decide)
    hz ((modffFrac_of_modffInt hz).trans (by norm_num))
    hi ((modffFrac_of_modffInt hi).trans (by norm_num))
  rw [h]
  rfl

theorem scenarioTick3_eq :
    scenarioTick3 =
      { moveUpStart with
        wasMoveAction := true
        currentSpeed := 355 / 2
        targetSpeed := 1000
        ySum := -3 / 5
        yOut := -3 } := by
  have hi : modffInt ((-1 / 20 : ℚ) + 355 / 2 * ((20 : Nat) : ℚ) / 1000 * ((-1 : Int) : ℚ))
      = -3 :=
    modffInt_eq_of_neg (-3) (by norm_num) (by norm_num) (by norm_num)
  have hz : modffInt ((0 : ℚ) + 355 / 2 * ((20 : Nat) : ℚ) / 1000 * ((0 : Int) : ℚ)) = 0 := by
    rw [show ((0 : ℚ) + 355 / 2 * ((20 : Nat) : ℚ) / 1000 * ((0 : Int) : ℚ)) = 0 by norm_num]
    exact modffInt_zero
  unfold scenarioTick3
  rw [scenarioTick2_eq]
  have h := process_move_eval moveUpOnly 20
    (clearOutputs { moveUpStart with
        wasMoveAction := true
        currentSpeed := 160
        targetSpeed := 1000
        ySum := -1 / 20
        yOut := -4 }) (by decide) rfl
    160 1000 (355 / 2) 0 (-3 / 5) 0 (-1) 0 (-3)
    (by simp [preRamp, resetSpeed, selectTargetSpeed, snapSpeed, mouseSpeed, clearOutputs,
      doublePressedStateExists, isMoveAction, moveUpOnly, moveUpStart, MouseMoveState])
    (by simp [preRamp, resetSpeed, selectTargetSpeed, snapSpeed, mouseSpeed, clearOutputs,
      doublePressedStateExists, isMoveAction, moveUpOnly, moveUpStart, MouseMoveState])
    (by norm_num [moveUpStart, MouseMoveState, clearOutputs])
    (by rw [updateDirectionSigns_horizontal]; decide)
    (by rw [updateDirectionSigns_vertical]; decide)
    hz ((modffFrac_of_modffInt hz).trans (by norm_num))
    hi ((modffFrac_of_modffInt hi).trans (by norm_num))
  rw [h]
  rfl

/-! ## Lemmas for the adapters, the key cluster and the buttons -/

theorem keyClusterArrows_eq (s : MouseControllerState) :
    keyClusterArrows s =
      match keyClusterChoice s.wX s.wY s.wLastX with
      | some (scancode, axis) => keyClusterEmit scancode axis s
      | none => s := by
  unfold keyClusterArrows keyClusterChoice
  simp only [wC, keyClusterEmit, LX, LY]
  by_cases h1 : (s.wX ≥ 1 ∧ s.wLastX = 1) ∨ s.wX ≥ 1 * 2
  · have h1' : (s.wX ≥ 1 ∧ s.wLastX = 1) ∨ s.wX ≥ 2 := by simpa using h1
    simp [h1, h1']
  · have h1' : ¬ ((s.wX ≥ 1 ∧ s.wLastX = 1) ∨ s.wX ≥ 2) := by simpa using h1
    simp only [h1, h1', if_false]
    by_cases h2 : (s.wX ≤ -1 ∧ s.wLastX = 1) ∨ s.wX ≤ -1 * 2
    · have h2' : (s.wX ≤ -1 ∧ s.wLastX = 1) ∨ s.wX ≤ -2 := by simpa using h2
      simp [h2, h2']
    · have h2' : ¬ ((s.wX ≤ -1 ∧ s.wLastX = 1) ∨ s.wX ≤ -2) := by simpa using h2
      simp only [h2, h2', if_false]
      by_cases h3 : (s.wY ≥ 1 ∧ s.wLastX = 2) ∨ s.wY ≥ 1 * 2
      · have h3' : (s.wY ≥ 1 ∧ s.wLastX = 2) ∨ s.wY ≥ 2 := by simpa using h3
        simp [h3, h3']
      · have h3' : ¬ ((s.wY ≥ 1 ∧ s.wLastX = 2) ∨ s.wY ≥ 2) := by simpa using h3
        simp only [h3, h3', if_false]
        by_cases h4 : (s.wY ≤ -1 ∧ s.wLastX = 2) ∨ s.wY ≤ -1 * 2
        · have h4' : (s.wY ≤ -1 ∧ s.wLastX = 2) ∨ s.wY ≤ -2 := by simpa using h4
          simp [h4, h4']
        · have h4' : ¬ ((s.wY ≤ -1 ∧ s.wLastX = 2) ∨ s.wY ≤ -2) := by simpa using h4
          simp [h4, h4']

theorem recalculateSpeed_frame (env : TickEnvironment) (inx iny : Int)
    (s : MouseControllerState) :
    recalculateSpeed env inx iny s =
      { s with
        avgSpeedPerS := (recalculateSpeed env inx iny s).avgSpeedPerS
        speedLastUpdate := (recalculateSpeed env inx iny s).speedLastUpdate } := by
  unfold recalculateSpeed
  split_ifs <;> rfl

theorem expDriverEffect_frame (env : TickEnvironment) (s : MouseControllerState) :
    expDriverEffect env s =
      { s with
        lastLine := (expDriverEffect env s).lastLine
        ledText := (expDriverEffect env s).ledText } := by
  unfold expDriverEffect
  split_ifs <;> rfl

theorem touchpadMotion_fields (env : TickEnvironment) (s : MouseControllerState) :
    (touchpadMotion env s).kinetic = s.kinetic ∧
    (touchpadMotion env s).TouchpadEvents = { s.TouchpadEvents with x := 0, y := 0 } ∧
    (touchpadMotion env s).UhkModuleStates = s.UhkModuleStates := by
  unfold touchpadMotion
  simp only
  rw [expDriverEffect_frame, recalculateSpeed_frame]
  exact ⟨rfl, rfl, rfl⟩

theorem touchpadWheelX_fields (env : TickEnvironment) (s : MouseControllerState) :
    (touchpadWheelX env s).kinetic.ActiveUsbMouseReport.buttons =
        s.kinetic.ActiveUsbMouseReport.buttons ∧
    (touchpadWheelX env s).TouchpadEvents =
      { s.TouchpadEvents with wheelX := (touchpadWheelX env s).TouchpadEvents.wheelX } ∧
    (touchpadWheelX env s).kinetic.ActiveUsbMouseReport.wheelY =
        s.kinetic.ActiveUsbMouseReport.wheelY := by
  unfold touchpadWheelX
  simp only
  split_ifs <;> exact ⟨rfl, rfl, rfl⟩

theorem touchpadWheelY_fields (env : TickEnvironment) (s : MouseControllerState) :
    (touchpadWheelY env s).kinetic.ActiveUsbMouseReport.buttons =
        s.kinetic.ActiveUsbMouseReport.buttons ∧
    (touchpadWheelY env s).TouchpadEvents =
      { s.TouchpadEvents with wheelY := (touchpadWheelY env s).TouchpadEvents.wheelY } ∧
    (touchpadWheelY env s).kinetic.ActiveUsbMouseReport.wheelX =
        s.kinetic.ActiveUsbMouseReport.wheelX := by
  unfold touchpadWheelY
  simp only
  split_ifs <;> exact ⟨rfl, rfl, rfl⟩

theorem maskIf_false (m : Nat) : maskIf false m = 0 := rfl

theorem maskIf_true (m : Nat) : maskIf true m = m := rfl

/-- Effect of the tap part on the touchpad record and on the buttons. -/
theorem touchpadTaps_fields (env : TickEnvironment) (s : MouseControllerState) :
    (touchpadTaps env s).TouchpadEvents =
      { s.TouchpadEvents with singleTap := false, twoFingerTap := false } ∧
    (touchpadTaps env s).kinetic.ActiveUsbMouseReport =
      { s.kinetic.ActiveUsbMouseReport with
        buttons := s.kinetic.ActiveUsbMouseReport.buttons |||
          tapBits env.buttons s.TouchpadEvents } := by
  unfold touchpadTaps tapBits
  rcases hs : s.TouchpadEvents with ⟨x, y, wx, wy, st, tf, th⟩
  cases st <;> cases tf <;> cases th <;> simp [hs, maskIf]
  all_goals
    apply Nat.eq_of_testBit_eq
    intro i
    simp only [Nat.testBit_or]
    cases Nat.testBit env.buttons.MouseButton_Left i <;>
      cases Nat.testBit env.buttons.MouseButton_Right i <;>
      cases Nat.testBit s.kinetic.ActiveUsbMouseReport.buttons i <;> rfl


theorem tmod_abs_lt (w : Int) {D : Int} (hD : 0 < D) : |Int.tmod w D| < D := by
  rw [abs_lt]
  rcases le_total 0 w with h | h
  · have h1 := Int.tmod_nonneg D h
    have h2 := Int.tmod_lt_of_pos w hD
    constructor <;> omega
  · have hn : 0 ≤ -w := by omega
    have h1 := Int.tmod_nonneg D hn
    have h2 := Int.tmod_lt_of_pos (-w) hD
    have h3 : Int.tmod (-w) D = -Int.tmod w D := by
      rw [Int.tmod_def, Int.tmod_def, Int.neg_tdiv]; ring
    constructor <;> omega

theorem tdiv_eq_zero_of_abs_lt {w D : Int} (h : |w| < D) : Int.tdiv w D = 0 := by
  rw [abs_lt] at h
  rcases le_total 0 w with h0 | h0
  · exact Int.tdiv_eq_zero_of_lt h0 h.2
  · have hn : 0 ≤ -w := by omega
    have h1 := Int.tdiv_eq_zero_of_lt hn (by omega : -w < D)
    rw [Int.neg_tdiv] at h1
    omega

/-- Effect of the horizontal wheel part when the quotient fits eight bits. -/
theorem touchpadWheelX_spec (env : TickEnvironment) (s : MouseControllerState)
    (hq : -256 < Int.tdiv s.TouchpadEvents.wheelX (env.touchpadScrollDivisor : Int) ∧
      Int.tdiv s.TouchpadEvents.wheelX (env.touchpadScrollDivisor : Int) < 256) :
    (touchpadWheelX env s).TouchpadEvents.wheelX =
        Int.tmod s.TouchpadEvents.wheelX (env.touchpadScrollDivisor : Int) ∧
    (touchpadWheelX env s).kinetic.ActiveUsbMouseReport.wheelX =
      if Int.tdiv s.TouchpadEvents.wheelX (env.touchpadScrollDivisor : Int) = 0 then
        s.kinetic.ActiveUsbMouseReport.wheelX
      else int8_wrap (s.kinetic.ActiveUsbMouseReport.wheelX +
        Int.tdiv s.TouchpadEvents.wheelX (env.touchpadScrollDivisor : Int)) := by
  have hdm := Int.tdiv_add_tmod s.TouchpadEvents.wheelX (env.touchpadScrollDivisor : Int)
  unfold touchpadWheelX wheelInteger uint8_wrap
  simp only
  generalize Int.tdiv s.TouchpadEvents.wheelX (env.touchpadScrollDivisor : Int) = q at *
  by_cases h0 : q = 0
  · subst h0
    simp only [Int.zero_emod, ne_eq, not_true_eq_false, if_false, if_true]
    constructor
    · omega
    · trivial
  · have hne : q % 256 ≠ 0 := by omega
    simp only [ne_eq, hne, not_false_eq_true, if_true, h0, if_false]
    constructor
    · trivial
    · unfold int8_wrap; omega

theorem touchpadWheelY_spec (env : TickEnvironment) (s : MouseControllerState)
    (hq : -256 < Int.tdiv s.TouchpadEvents.wheelY (env.touchpadScrollDivisor : Int) ∧
      Int.tdiv s.TouchpadEvents.wheelY (env.touchpadScrollDivisor : Int) < 256) :
    (touchpadWheelY env s).TouchpadEvents.wheelY =
        Int.tmod s.TouchpadEvents.wheelY (env.touchpadScrollDivisor : Int) ∧
    (touchpadWheelY env s).kinetic.ActiveUsbMouseReport.wheelY =
      if Int.tdiv s.TouchpadEvents.wheelY (env.touchpadScrollDivisor : Int) = 0 then
        s.kinetic.ActiveUsbMouseReport.wheelY
      else int8_wrap (s.kinetic.ActiveUsbMouseReport.wheelY -
        Int.tdiv s.TouchpadEvents.wheelY (env.touchpadScrollDivisor : Int)) := by
  have hdm := Int.tdiv_add_tmod s.TouchpadEvents.wheelY (env.touchpadScrollDivisor : Int)
  unfold touchpadWheelY wheelInteger uint8_wrap
  simp only
  generalize Int.tdiv s.TouchpadEvents.wheelY (env.touchpadScrollDivisor : Int) = q at *
  by_cases h0 : q = 0
  · subst h0
    simp only [Int.zero_emod, ne_eq, not_true_eq_false, if_false, if_true]
    constructor
    · omega
    · trivial
  · have hne : q % 256 ≠ 0 := by omega
    simp only [ne_eq, hne, not_false_eq_true, if_true, h0, if_false]
    constructor
    · trivial
    · unfold int8_wrap; omega


/-- The touchpad record and the mouse report after `processTouchpadActions`, in
terms of its parts. -/
theorem processTouchpadActions_fields (env : TickEnvironment) (s : MouseControllerState) :
    (processTouchpadActions env s).TouchpadEvents =
      { s.TouchpadEvents with
        x := 0
        y := 0
        wheelX := (touchpadWheelX env (touchpadMotion env s)).TouchpadEvents.wheelX
        wheelY := (touchpadWheelY env
          (touchpadWheelX env (touchpadMotion env s))).TouchpadEvents.wheelY
        singleTap := false
        twoFingerTap := false } ∧
    (processTouchpadActions env s).kinetic.ActiveUsbMouseReport.buttons =
      s.kinetic.ActiveUsbMouseReport.buttons ||| tapBits env.buttons s.TouchpadEvents ∧
    (processTouchpadActions env s).kinetic.ActiveUsbMouseReport.wheelX =
      (touchpadWheelX env (touchpadMotion env s)).kinetic.ActiveUsbMouseReport.wheelX ∧
    (processTouchpadActions env s).kinetic.ActiveUsbMouseReport.wheelY =
      (touchpadWheelY env (touchpadWheelX env
        (touchpadMotion env s))).kinetic.ActiveUsbMouseReport.wheelY := by
  obtain ⟨m1, m2, _⟩ := touchpadMotion_fields env s
  obtain ⟨x1, x2, _⟩ := touchpadWheelX_fields env (touchpadMotion env s)
  obtain ⟨y1, y2, y3⟩ := touchpadWheelY_fields env (touchpadWheelX env (touchpadMotion env s))
  obtain ⟨t1, t2⟩ := touchpadTaps_fields env
    (touchpadWheelY env (touchpadWheelX env (touchpadMotion env s)))
  unfold processTouchpadActions
  rw [t1, t2]
  refine ⟨?_, ?_, ?_, rfl⟩
  · rw [y2, x2, m2]
  · show (touchpadWheelY env (touchpadWheelX env
        (touchpadMotion env s))).kinetic.ActiveUsbMouseReport.buttons ||| _ = _
    rw [y1, x1, m1, y2, x2, m2]
    rfl
  · exact y3

theorem or_and_right_self (a b : Nat) : (a ||| b) &&& b = b := by
  apply Nat.eq_of_testBit_eq
  intro i
  simp only [Nat.testBit_and, Nat.testBit_or]
  cases Nat.testBit a i <;> cases Nat.testBit b i <;> rfl

theorem and_or_left_self (a b : Nat) : a &&& (a ||| b) = a := by
  apply Nat.eq_of_testBit_eq
  intro i
  simp only [Nat.testBit_and, Nat.testBit_or]
  cases Nat.testBit a i <;> cases Nat.testBit b i <;> rfl

theorem or_and_of_and (x y m : Nat) (h : x &&& m = m) : (x ||| y) &&& m = m := by
  apply Nat.eq_of_testBit_eq
  intro i
  have hi := congrArg (fun n => Nat.testBit n i) h
  simp only [Nat.testBit_and] at hi
  simp only [Nat.testBit_and, Nat.testBit_or]
  revert hi
  cases Nat.testBit x i <;> cases Nat.testBit y i <;> cases Nat.testBit m i <;> simp

theorem orButton_eq (A : MouseStates) (code : SerializedMouseAction) (mask buttons : Nat) :
    orButton A code mask buttons = buttons ||| maskIf (decide (A code ≠ 0)) mask := by
  unfold orButton maskIf
  by_cases h : A code = 0
  · simp [h]
  · simp [h]

theorem applyClickButtons_eq (env : TickEnvironment) (buttons : Nat) :
    applyClickButtons env buttons = buttons ||| clickBits env := by
  unfold applyClickButtons clickBits
  simp only [orButton_eq, Nat.or_assoc]

theorem keyClusterEmit_kinetic (scancode axis : Nat) (s : MouseControllerState) :
    (keyClusterEmit scancode axis s).kinetic = s.kinetic := rfl

theorem keyClusterArrows_kinetic (s : MouseControllerState) :
    (keyClusterArrows s).kinetic = s.kinetic := by
  rw [keyClusterArrows_eq]
  cases keyClusterChoice s.wX s.wY s.wLastX with
  | none => rfl
  | some p => rfl

theorem processModulePointer_kinetic (env : TickEnvironment) (m : uhk_module_state_t)
    (s : MouseControllerState) :
    (processModulePointer env m s).kinetic = s.kinetic ∧
      (processModulePointer env m s).TouchpadEvents = s.TouchpadEvents := by
  unfold processModulePointer
  cases m.moduleId
  · simp only [processKeyCluster]
    constructor
    · rw [keyClusterArrows_kinetic]
      split_ifs <;> rfl
    · rw [keyClusterArrows_eq]
      split <;> split_ifs <;> rfl
  · exact ⟨rfl, rfl⟩
  · simp only [processTrackball]
    rw [expDriverEffect_frame, recalculateSpeed_frame]
    exact ⟨rfl, rfl⟩
  · exact ⟨rfl, rfl⟩
  · exact ⟨rfl, rfl⟩

theorem processModules_kinetic (env : TickEnvironment) (ms : List uhk_module_state_t) :
    ∀ (s : MouseControllerState) (b : Bool),
      (processModules env ms s b).2.1.kinetic = s.kinetic ∧
      (processModules env ms s b).2.1.TouchpadEvents = s.TouchpadEvents := by
  induction ms with
  | nil => intro s b; exact ⟨rfl, rfl⟩
  | cons m rest ih =>
    intro s b
    unfold processModules
    split_ifs with h
    · obtain ⟨i1, i2⟩ := ih (processModulePointer env m s) true
      obtain ⟨p1, p2⟩ := processModulePointer_kinetic env m s
      exact ⟨i1.trans p1, i2.trans p2⟩
    · exact ih s b

theorem aggregatePointerSums_buttons (scroll changed : Bool) (s : MouseControllerState) :
    (aggregatePointerSums scroll changed s).kinetic.ActiveUsbMouseReport.buttons =
      s.kinetic.ActiveUsbMouseReport.buttons := by
  unfold aggregatePointerSums
  cases changed <;> cases scroll <;> rfl

/-- Buttons of the report after the whole tick function. -/
theorem processMouseActions_buttons (env : TickEnvironment) (s : MouseControllerState) :
    (MouseController_ProcessMouseActions env s).kinetic.ActiveUsbMouseReport.buttons =
      s.kinetic.ActiveUsbMouseReport.buttons |||
        maskIf env.touchpadConnected (tapBits env.buttons s.TouchpadEvents) |||
        clickBits env := by
  unfold MouseController_ProcessMouseActions
  simp only
  rw [applyClickButtons_eq, aggregatePointerSums_buttons]
  congr 1
  cases hc : env.touchpadConnected
  · simp only [Bool.false_eq_true, if_false]
    rw [(processModules_kinetic env _ _ _).1]
    simp [maskIf, processKineticStates]
  · simp only [if_true]
    rw [(processModules_kinetic env _ _ _).1, (processTouchpadActions_fields env _).2.1]
    simp [maskIf, processKineticStates]


/-! ## The claims, continued -/

/-- C11. `MouseController_ActivateDirectionSigns` sets exactly one sign, whatever
its previous value: with the direction tables of the static initialisers, the
code stored in a kinetic state's `upState` sets that state's vertical sign to
`-1`, the one in `downState` to `+1`, the one in `leftState` sets the horizontal
sign to `-1` and the one in `rightState` to `+1` (the values `updateDirectionSigns`
expects), for the move and for the scroll state; every other sign and field of
the module variables is unchanged, and a code that is not one of the eight
directions changes nothing. -/
theorem C11_activate_direction_signs (g : Globals) (htab : DirectionTablesIntact g) :
    (MouseController_ActivateDirectionSigns g.MouseMoveState.upState g =
        { g with MouseMoveState := { g.MouseMoveState with verticalStateSign := -1 } } ∧
      MouseController_ActivateDirectionSigns g.MouseMoveState.downState g =
        { g with MouseMoveState := { g.MouseMoveState with verticalStateSign := 1 } } ∧
      MouseController_ActivateDirectionSigns g.MouseMoveState.leftState g =
        { g with MouseMoveState := { g.MouseMoveState with horizontalStateSign := -1 } } ∧
      MouseController_ActivateDirectionSigns g.MouseMoveState.rightState g =
        { g with MouseMoveState := { g.MouseMoveState with horizontalStateSign := 1 } }) ∧
    (MouseController_ActivateDirectionSigns g.MouseScrollState.upState g =
        { g with MouseScrollState := { g.MouseScrollState with verticalStateSign := -1 } } ∧
      MouseController_ActivateDirectionSigns g.MouseScrollState.downState g =
        { g with MouseScrollState := { g.MouseScrollState with verticalStateSign := 1 } } ∧
      MouseController_ActivateDirectionSigns g.MouseScrollState.leftState g =
        { g with MouseScrollState := { g.MouseScrollState with horizontalStateSign := -1 } } ∧
      MouseController_ActivateDirectionSigns g.MouseScrollState.rightState g =
        { g with MouseScrollState := { g.MouseScrollState with horizontalStateSign := 1 } }) ∧
    (MouseController_ActivateDirectionSigns MoveUp g =
        MouseController_ActivateDirectionSigns g.MouseMoveState.upState g ∧
      MouseController_ActivateDirectionSigns ScrollDown g =
        MouseController_ActivateDirectionSigns g.MouseScrollState.upState g ∧
      MouseController_ActivateDirectionSigns ScrollUp g =
        MouseController_ActivateDirectionSigns g.MouseScrollState.downState g) ∧
    (∀ d : SerializedMouseAction, directionAxis d = none →
      MouseController_ActivateDirectionSigns d g = g) := by
  obtain ⟨t1, t2, t3, t4, t5, t6, t7, t8⟩ := htab
  rw [t1, t2, t3, t4, t5, t6, t7, t8]
  refine ⟨⟨rfl, rfl, rfl, rfl⟩, ⟨rfl, rfl, rfl, rfl⟩, ⟨rfl, rfl, rfl⟩, ?_⟩
  intro d hd
  cases d <;> first | rfl | exact absurd hd (by simp [directionAxis])

/-- Worked instance of C11 on the start-up variables. -/
theorem C11_activate_direction_signs_witness :
    DirectionTablesIntact initialGlobals ∧
    (MouseController_ActivateDirectionSigns ScrollDown initialGlobals).MouseScrollState.verticalStateSign
      = -1 ∧
    MouseController_ActivateDirectionSigns Accelerate initialGlobals = initialGlobals := by
  have htab : DirectionTablesIntact initialGlobals := ⟨rfl, rfl, rfl, rfl, rfl, rfl, rfl, rfl⟩
  have h := C11_activate_direction_signs initialGlobals htab
  refine ⟨htab, ?_, h.2.2.2 Accelerate rfl⟩
  have h2 := h.2.1.1
  exact congrArg (fun x => x.MouseScrollState.verticalStateSign) h2

/-- C12. End-to-end scenario on the move state with its default constants,
from rest with zero remainders, only `MoveUp` active (vertical sign `-1` set by
its activation through `ToggleMouseState`), no modifiers, three ticks of 20 ms:
the speed is reset to 125 and is 142.5, 160 and 177.5 after the three ticks; the
emitted `yOut` are exactly `-2, -4, -3` and `xOut` is 0 in each tick; the
per-tick distances are 2.85, 3.2 and 3.55, and the cumulative `|yOut| = 9` is
the floor of their sum 9.6. -/
theorem C12_end_to_end_scenario :
    (ToggleMouseState MoveUp true initialGlobals).MouseMoveState = moveUpStart ∧
    (resetSpeed moveUpOnly moveUpStart).currentSpeed = 125 ∧
    (scenarioTick1.currentSpeed = 285 / 2 ∧ scenarioTick2.currentSpeed = 160 ∧
      scenarioTick3.currentSpeed = 355 / 2) ∧
    (scenarioTick1.yOut = -2 ∧ scenarioTick2.yOut = -4 ∧ scenarioTick3.yOut = -3) ∧
    (scenarioTick1.xOut = 0 ∧ scenarioTick2.xOut = 0 ∧ scenarioTick3.xOut = 0) ∧
    (scenarioTick1.currentSpeed * ((20 : Nat) : ℚ) / 1000 = 57 / 20 ∧
      scenarioTick2.currentSpeed * ((20 : Nat) : ℚ) / 1000 = 16 / 5 ∧
      scenarioTick3.currentSpeed * ((20 : Nat) : ℚ) / 1000 = 71 / 20) ∧
    |scenarioTick1.yOut + scenarioTick2.yOut + scenarioTick3.yOut| = 9 ∧
    ⌊scenarioTick1.currentSpeed * ((20 : Nat) : ℚ) / 1000 +
      scenarioTick2.currentSpeed * ((20 : Nat) : ℚ) / 1000 +
      scenarioTick3.currentSpeed * ((20 : Nat) : ℚ) / 1000⌋ = 9 := by
  rw [scenarioTick1_eq, scenarioTick2_eq, scenarioTick3_eq]
  refine ⟨rfl, ?_, ⟨rfl, rfl, rfl⟩, ⟨rfl, rfl, rfl⟩, ⟨rfl, rfl, rfl⟩, ⟨?_, ?_, ?_⟩, ?_, ?_⟩
  · simp [resetSpeed, moveUpOnly, moveUpStart, MouseMoveState]
  · norm_num
  · norm_num
  · norm_num
  · decide
  · rw [Int.floor_eq_iff]; norm_num

/-- C14. Speed bounds: if `0 ≤ currentSpeed ≤ intMultiplier * max(initialSpeed,
deceleratedSpeed, baseSpeed, acceleratedSpeed)` and `0 ≤ targetSpeed` hold before
a call of `processMouseKineticState`, they hold after it, for every snapshot of
active states, every compensation flag and every elapsed time (the constants
and the elapsed time are unsigned, hence non-negative). -/
theorem C14_speed_bounds (A : MouseStates) (C : Bool) (t : Nat) (k : mouse_kinetic_state_t)
    (h0 : 0 ≤ k.currentSpeed) (hM : k.currentSpeed ≤ speedCeiling k)
    (hT : 0 ≤ k.targetSpeed) :
    0 ≤ (processMouseKineticState A C t k).currentSpeed ∧
    (processMouseKineticState A C t k).currentSpeed ≤
      speedCeiling (processMouseKineticState A C t k) ∧
    0 ≤ (processMouseKineticState A C t k).targetSpeed := by
  obtain ⟨hs0, _⟩ := selectTargetSpeed_bounds A k hT
  rw [process_speedCeiling, process_targetSpeed]
  cases h : isMoveAction A k
  · rw [process_rest_fields A C t k h]
    exact ⟨le_refl (0 : ℚ), speedCeiling_nonneg k, hs0⟩
  · obtain ⟨b0, bM⟩ := process_motion_speed_bounds A C t k h h0 hM hT
    exact ⟨b0, bM, hs0⟩

/-- Worked instance of C14: the zero-initialised move state with `MoveUp` held
for a tick of 20 ms. -/
theorem C14_speed_bounds_witness :
    (0 ≤ MouseMoveState.currentSpeed ∧ MouseMoveState.currentSpeed ≤ speedCeiling MouseMoveState ∧
      0 ≤ MouseMoveState.targetSpeed) ∧
    (0 ≤ (processMouseKineticState moveUpOnly false 20 MouseMoveState).currentSpeed ∧
      (processMouseKineticState moveUpOnly false 20 MouseMoveState).currentSpeed ≤
        speedCeiling (processMouseKineticState moveUpOnly false 20 MouseMoveState) ∧
      0 ≤ (processMouseKineticState moveUpOnly false 20 MouseMoveState).targetSpeed) :=
  ⟨⟨le_refl (0 : ℚ), speedCeiling_nonneg MouseMoveState, le_refl (0 : ℚ)⟩,
    C14_speed_bounds moveUpOnly false 20 MouseMoveState (le_refl (0 : ℚ))
      (speedCeiling_nonneg MouseMoveState) (le_refl (0 : ℚ))⟩

/-- C15 (fails as stated). After a tick without motion the sign tracker can
disagree with the key state: the move state is processed once with `MoveRight`
held (horizontal sign `+1` set by its activation) and once more with nothing
held; after the second call the horizontal sign is still `+1` although
`MoveRight` is inactive. -/
theorem C15_stale_sign_after_rest_tick :
    ¬ SignsSynchronised nothingHeld
      (processMouseKineticState nothingHeld false 20
        (processMouseKineticState moveRightOnly false 20 moveRightPressed)) := by
  have h1 : (processMouseKineticState moveRightOnly false 20
      moveRightPressed).horizontalStateSign = 1 := by
    rw [(process_motion_signs moveRightOnly false 20 moveRightPressed (by decide)).1,
      updateDirectionSigns_horizontal]
    decide
  have h : (processMouseKineticState nothingHeld false 20
      (processMouseKineticState moveRightOnly false 20
        moveRightPressed)).horizontalStateSign = 1 := by
    rw [process_rest_fields nothingHeld false 20 _ (isMoveAction_nothingHeld _)]
    exact h1
  intro hs
  have h2 := hs.1 (by rw [h]; decide)
  rw [h] at h2
  rcases h2 with ⟨h3, _⟩ | ⟨_, h4⟩
  · exact absurd h3 (by decide)
  · exact h4 rfl

/-- C15 (amended). At the end of every call of `processMouseKineticState` in
which motion is active (one of the four directions of the state is active) and
whose signs are among `-1, 0, 1`, a nonzero horizontal or vertical sign implies
that the direction associated with that sign value is active in the snapshot;
in a call without motion both signs are left as they were. -/
theorem C15_signs_synchronised_in_motion (A : MouseStates) (C : Bool) (t : Nat)
    (k : mouse_kinetic_state_t)
    (hh : ValidSign k.horizontalStateSign) (hv : ValidSign k.verticalStateSign) :
    (isMoveAction A k = true → SignsSynchronised A (processMouseKineticState A C t k)) ∧
    (isMoveAction A k = false →
      (processMouseKineticState A C t k).horizontalStateSign = k.horizontalStateSign ∧
      (processMouseKineticState A C t k).verticalStateSign = k.verticalStateSign) := by
  constructor
  · intro hm
    obtain ⟨ph, pv⟩ := process_motion_signs A C t k hm
    have hl : (processMouseKineticState A C t k).leftState = k.leftState ∧
        (processMouseKineticState A C t k).rightState = k.rightState ∧
        (processMouseKineticState A C t k).upState = k.upState ∧
        (processMouseKineticState A C t k).downState = k.downState := by
      rw [process_motion A C t k hm]
      obtain ⟨c, T, hp⟩ := rampSpeed_preRamp_eq A t k
      rw [hp, integrate_frame]
      exact ⟨rfl, rfl, rfl, rfl⟩
    unfold SignsSynchronised
    rw [ph, pv, hl.1, hl.2.1, hl.2.2.1, hl.2.2.2, updateDirectionSigns_horizontal,
      updateDirectionSigns_vertical]
    unfold ValidSign at hh hv
    constructor
    · rcases hh with h | h | h <;> by_cases a : A k.leftState = 0 <;>
        by_cases b : A k.rightState = 0 <;> simp [h, a, b]
    · rcases hv with h | h | h <;> by_cases a : A k.upState = 0 <;>
        by_cases b : A k.downState = 0 <;> simp [h, a, b]
  · intro hm
    rw [process_rest_fields A C t k hm]
    exact ⟨rfl, rfl⟩

/-- Worked instance of the amended C15: `MoveRight` held with a stale sign `-1`. -/
theorem C15_signs_synchronised_in_motion_witness :
    (ValidSign moveLeftStale.horizontalStateSign ∧ ValidSign moveLeftStale.verticalStateSign ∧
      isMoveAction moveRightOnly moveLeftStale = true) ∧
    SignsSynchronised moveRightOnly
      (processMouseKineticState moveRightOnly false 20 moveLeftStale) :=
  ⟨⟨Or.inl rfl, Or.inr (Or.inl rfl), by decide⟩,
    (C15_signs_synchronised_in_motion moveRightOnly false 20 moveLeftStale (Or.inl rfl)
      (Or.inr (Or.inl rfl))).1 (by decide)⟩

/-- C16. Button aggregation: after `MouseController_ProcessMouseActions` the
report's buttons are the previous buttons OR the tap bits (when the touchpad is
connected) OR the bits of the click codes whose counter in `ActiveMouseStates`
is nonzero; hence no bit that was set before the call is cleared, and for each
of the eight click codes with a nonzero counter its bit is set, whatever the
layer and whether or not a pointer source contributed. -/
theorem C16_button_aggregation (env : TickEnvironment) (s : MouseControllerState) :
    (MouseController_ProcessMouseActions env s).kinetic.ActiveUsbMouseReport.buttons =
      s.kinetic.ActiveUsbMouseReport.buttons |||
        maskIf env.touchpadConnected (tapBits env.buttons s.TouchpadEvents) |||
        clickBits env ∧
    s.kinetic.ActiveUsbMouseReport.buttons &&&
        (MouseController_ProcessMouseActions env s).kinetic.ActiveUsbMouseReport.buttons =
      s.kinetic.ActiveUsbMouseReport.buttons ∧
    (MouseController_ProcessMouseActions env s).kinetic.ActiveUsbMouseReport.buttons &&&
        maskIf (decide (env.ActiveMouseStates LeftClick ≠ 0)) env.buttons.MouseButton_Left =
      maskIf (decide (env.ActiveMouseStates LeftClick ≠ 0)) env.buttons.MouseButton_Left ∧
    (MouseController_ProcessMouseActions env s).kinetic.ActiveUsbMouseReport.buttons &&&
        maskIf (decide (env.ActiveMouseStates MiddleClick ≠ 0)) env.buttons.MouseButton_Middle =
      maskIf (decide (env.ActiveMouseStates MiddleClick ≠ 0)) env.buttons.MouseButton_Middle ∧
    (MouseController_ProcessMouseActions env s).kinetic.ActiveUsbMouseReport.buttons &&&
        maskIf (decide (env.ActiveMouseStates RightClick ≠ 0)) env.buttons.MouseButton_Right =
      maskIf (decide (env.ActiveMouseStates RightClick ≠ 0)) env.buttons.MouseButton_Right ∧
    (MouseController_ProcessMouseActions env s).kinetic.ActiveUsbMouseReport.buttons &&&
        maskIf (decide (env.ActiveMouseStates Button_4 ≠ 0)) env.buttons.MouseButton_4 =
      maskIf (decide (env.ActiveMouseStates Button_4 ≠ 0)) env.buttons.MouseButton_4 ∧
    (MouseController_ProcessMouseActions env s).kinetic.ActiveUsbMouseReport.buttons &&&
        maskIf (decide (env.ActiveMouseStates Button_5 ≠ 0)) env.buttons.MouseButton_5 =
      maskIf (decide (env.ActiveMouseStates Button_5 ≠ 0)) env.buttons.MouseButton_5 ∧
    (MouseController_ProcessMouseActions env s).kinetic.ActiveUsbMouseReport.buttons &&&
        maskIf (decide (env.ActiveMouseStates Button_6 ≠ 0)) env.buttons.MouseButton_6 =
      maskIf (decide (env.ActiveMouseStates Button_6 ≠ 0)) env.buttons.MouseButton_6 ∧
    (MouseController_ProcessMouseActions env s).kinetic.ActiveUsbMouseReport.buttons &&&
        maskIf (decide (env.ActiveMouseStates Button_7 ≠ 0)) env.buttons.MouseButton_7 =
      maskIf (decide (env.ActiveMouseStates Button_7 ≠ 0)) env.buttons.MouseButton_7 ∧
    (MouseController_ProcessMouseActions env s).kinetic.ActiveUsbMouseReport.buttons &&&
        maskIf (decide (env.ActiveMouseStates Button_8 ≠ 0)) env.buttons.MouseButton_8 =
      maskIf (decide (env.ActiveMouseStates Button_8 ≠ 0)) env.buttons.MouseButton_8 := by
  rw [processMouseActions_buttons]
  refine ⟨rfl, ?_, ?_, ?_, ?_, ?_, ?_, ?_, ?_, ?_⟩
  · rw [Nat.or_assoc]; exact and_or_left_self _ _
  all_goals
    unfold clickBits
    simp only [← Nat.or_assoc]
    first
      | exact or_and_right_self _ _
      | exact or_and_of_and _ _ _ (or_and_right_self _ _)
      | exact or_and_of_and _ _ _ (or_and_of_and _ _ _ (or_and_right_self _ _))
      | exact or_and_of_and _ _ _ (or_and_of_and _ _ _ (or_and_of_and _ _ _
          (or_and_right_self _ _)))
      | exact or_and_of_and _ _ _ (or_and_of_and _ _ _ (or_and_of_and _ _ _
          (or_and_of_and _ _ _ (or_and_right_self _ _))))
      | exact or_and_of_and _ _ _ (or_and_of_and _ _ _ (or_and_of_and _ _ _
          (or_and_of_and _ _ _ (or_and_of_and _ _ _ (or_and_right_self _ _)))))
      | exact or_and_of_and _ _ _ (or_and_of_and _ _ _ (or_and_of_and _ _ _
          (or_and_of_and _ _ _ (or_and_of_and _ _ _ (or_and_of_and _ _ _
            (or_and_right_self _ _))))))
      | exact or_and_of_and _ _ _ (or_and_of_and _ _ _ (or_and_of_and _ _ _
          (or_and_of_and _ _ _ (or_and_of_and _ _ _ (or_and_of_and _ _ _
            (or_and_of_and _ _ _ (or_and_right_self _ _)))))))

/-- C17, counterexample: in move mode, with the report's `x` at 0 and the
accumulator at 200, the integral part is 200 and the report's `x` ends at `-56`,
not at `0 + 200`: the field is a signed 8-bit value. -/
theorem C17_report_field_wraps :
    wideCarryState.kinetic.ActiveUsbMouseReport.x = 0 ∧
    modffInt (wideCarryState.sumX / aggregatorDivisor false) = 200 ∧
    (aggregatePointerSums false true wideCarryState).kinetic.ActiveUsbMouseReport.x = -56 ∧
    (aggregatePointerSums false true wideCarryState).kinetic.ActiveUsbMouseReport.x ≠
      wideCarryState.kinetic.ActiveUsbMouseReport.x +
        modffInt (wideCarryState.sumX / aggregatorDivisor false) := by
  have e : modffInt (wideCarryState.sumX / aggregatorDivisor false) = 200 := by
    have h : wideCarryState.sumX / aggregatorDivisor false = ((200 : Int) : ℚ) := by
      norm_num [wideCarryState, aggregatorDivisor]
    rw [h, modffInt_intCast]
  have e2 : modffInt wideCarryState.sumX = 200 := by
    have h : wideCarryState.sumX = ((200 : Int) : ℚ) := by norm_num [wideCarryState]
    rw [h, modffInt_intCast]
  have r : (aggregatePointerSums false true wideCarryState).kinetic.ActiveUsbMouseReport.x =
      int8_wrap (wideCarryState.kinetic.ActiveUsbMouseReport.x +
        modffInt wideCarryState.sumX) := rfl
  have x0 : wideCarryState.kinetic.ActiveUsbMouseReport.x = 0 := rfl
  refine ⟨x0, e, ?_, ?_⟩
  · rw [r, e2, x0]; decide
  · rw [r, e, e2, x0]; decide

/-- C17, amended. Report-aggregator carry: when a pointer source contributed in
the tick (`moveDeltaChanged`), with `S` the accumulator on an axis and `D = 8`
in scroll mode and `D = 1` otherwise, the integer `I = trunc (S / D)` is added
to `x`, `y` in move mode (wheel fields untouched), and added to `wheelX` and
subtracted from `wheelY` in scroll mode (`x`, `y` untouched), the result being
stored as a signed 8-bit value: it is the exact sum when that lies in
`-128..127` and the sum reduced modulo 256 otherwise; the stored carry is
`S - D * I` and its magnitude is below `D`. -/
theorem C17_aggregator_carry (scroll : Bool) (s : MouseControllerState) :
    (aggregatePointerSums scroll true s).sumX =
        s.sumX - aggregatorDivisor scroll * (modffInt (s.sumX / aggregatorDivisor scroll) : ℚ) ∧
    (aggregatePointerSums scroll true s).sumY =
        s.sumY - aggregatorDivisor scroll * (modffInt (s.sumY / aggregatorDivisor scroll) : ℚ) ∧
    |(aggregatePointerSums scroll true s).sumX| < aggregatorDivisor scroll ∧
    |(aggregatePointerSums scroll true s).sumY| < aggregatorDivisor scroll ∧
    (aggregatePointerSums scroll true s).kinetic.ActiveUsbMouseReport =
      (if scroll = true then
        { s.kinetic.ActiveUsbMouseReport with
          wheelX := int8_wrap (s.kinetic.ActiveUsbMouseReport.wheelX +
            modffInt (s.sumX / aggregatorDivisor scroll))
          wheelY := int8_wrap (s.kinetic.ActiveUsbMouseReport.wheelY -
            modffInt (s.sumY / aggregatorDivisor scroll)) }
      else
        { s.kinetic.ActiveUsbMouseReport with
          x := int8_wrap (s.kinetic.ActiveUsbMouseReport.x +
            modffInt (s.sumX / aggregatorDivisor scroll))
          y := int8_wrap (s.kinetic.ActiveUsbMouseReport.y +
            modffInt (s.sumY / aggregatorDivisor scroll)) }) ∧
    (scroll = false →
      (-128 ≤ s.kinetic.ActiveUsbMouseReport.x + modffInt (s.sumX / aggregatorDivisor scroll) →
        s.kinetic.ActiveUsbMouseReport.x + modffInt (s.sumX / aggregatorDivisor scroll) ≤ 127 →
        (aggregatePointerSums scroll true s).kinetic.ActiveUsbMouseReport.x =
          s.kinetic.ActiveUsbMouseReport.x + modffInt (s.sumX / aggregatorDivisor scroll)) ∧
      (-128 ≤ s.kinetic.ActiveUsbMouseReport.y + modffInt (s.sumY / aggregatorDivisor scroll) →
        s.kinetic.ActiveUsbMouseReport.y + modffInt (s.sumY / aggregatorDivisor scroll) ≤ 127 →
        (aggregatePointerSums scroll true s).kinetic.ActiveUsbMouseReport.y =
          s.kinetic.ActiveUsbMouseReport.y + modffInt (s.sumY / aggregatorDivisor scroll))) ∧
    (scroll = true →
      (-128 ≤ s.kinetic.ActiveUsbMouseReport.wheelX +
          modffInt (s.sumX / aggregatorDivisor scroll) →
        s.kinetic.ActiveUsbMouseReport.wheelX +
          modffInt (s.sumX / aggregatorDivisor scroll) ≤ 127 →
        (aggregatePointerSums scroll true s).kinetic.ActiveUsbMouseReport.wheelX =
          s.kinetic.ActiveUsbMouseReport.wheelX +
            modffInt (s.sumX / aggregatorDivisor scroll)) ∧
      (-128 ≤ s.kinetic.ActiveUsbMouseReport.wheelY -
          modffInt (s.sumY / aggregatorDivisor scroll) →
        s.kinetic.ActiveUsbMouseReport.wheelY -
          modffInt (s.sumY / aggregatorDivisor scroll) ≤ 127 →
        (aggregatePointerSums scroll true s).kinetic.ActiveUsbMouseReport.wheelY =
          s.kinetic.ActiveUsbMouseReport.wheelY -
            modffInt (s.sumY / aggregatorDivisor scroll))) ∧
    aggregatorDivisor (scrollMode LayerId_Mouse) = 8 ∧
    aggregatorDivisor (scrollMode LayerId_Fn) = 8 ∧
    aggregatorDivisor (scrollMode LayerId_Base) = 1 ∧
    aggregatorDivisor (scrollMode LayerId_Mod) = 1 := by
  cases scroll
  · have e : aggregatorDivisor false = 1 := rfl
    rw [e]
    have hx : (aggregatePointerSums false true s).sumX = modffFrac s.sumX := rfl
    have hy : (aggregatePointerSums false true s).sumY = modffFrac s.sumY := rfl
    have rx : (aggregatePointerSums false true s).kinetic.ActiveUsbMouseReport.x =
        int8_wrap (s.kinetic.ActiveUsbMouseReport.x + modffInt s.sumX) := rfl
    have ry : (aggregatePointerSums false true s).kinetic.ActiveUsbMouseReport.y =
        int8_wrap (s.kinetic.ActiveUsbMouseReport.y + modffInt s.sumY) := rfl
    refine ⟨?_, ?_, ?_, ?_, ?_, ?_, ?_, rfl, rfl, rfl, rfl⟩
    · rw [hx, div_one, one_mul]; rfl
    · rw [hy, div_one, one_mul]; rfl
    · rw [hx]; exact abs_modffFrac_lt_one _
    · rw [hy]; exact abs_modffFrac_lt_one _
    · simp only [div_one]
      rfl
    · intro _
      simp only [div_one]
      exact ⟨fun h1 h2 => by rw [rx]; exact int8_wrap_of_mem h1 h2,
        fun h1 h2 => by rw [ry]; exact int8_wrap_of_mem h1 h2⟩
    · intro h
      exact absurd h (by decide)
  · have e : aggregatorDivisor true = 8 := rfl
    rw [e]
    have hx : (aggregatePointerSums true true s).sumX = modffFrac (s.sumX / 8) * 8 := rfl
    have hy : (aggregatePointerSums true true s).sumY = modffFrac (s.sumY / 8) * 8 := rfl
    have rx : (aggregatePointerSums true true s).kinetic.ActiveUsbMouseReport.wheelX =
        int8_wrap (s.kinetic.ActiveUsbMouseReport.wheelX + modffInt (s.sumX / 8)) := rfl
    have ry : (aggregatePointerSums true true s).kinetic.ActiveUsbMouseReport.wheelY =
        int8_wrap (s.kinetic.ActiveUsbMouseReport.wheelY - modffInt (s.sumY / 8)) := rfl
    have bx := abs_modffFrac_lt_one (s.sumX / 8)
    have b_y := abs_modffFrac_lt_one (s.sumY / 8)
    refine ⟨?_, ?_, ?_, ?_, rfl, ?_, ?_, rfl, rfl, rfl, rfl⟩
    · rw [hx]; unfold modffFrac; ring
    · rw [hy]; unfold modffFrac; ring
    · rw [hx, abs_mul]; norm_num; linarith
    · rw [hy, abs_mul]; norm_num; linarith
    · intro h
      exact absurd h (by decide)
    · intro _
      exact ⟨fun h1 h2 => by rw [rx]; exact int8_wrap_of_mem h1 h2,
        fun h1 h2 => by rw [ry]; exact int8_wrap_of_mem h1 h2⟩

/-- C18, counterexample: with the divisor 8, a report whose `wheelX` holds 127
and an accumulator of 16 (quotient 2), `processTouchpadActions` leaves
`wheelX = -127`, not `127 + 2`: the field is a signed 8-bit value.  With an
accumulator of 2048 (quotient 256) the quotient stored in the `uint8_t` is 0,
so the report is not changed and the accumulator keeps 2048, which is not below
the divisor. -/
theorem C18_wheel_field_wraps :
    0 < sampleEnvironment.touchpadScrollDivisor ∧
    (fullWheelState.TouchpadEvents.wheelX = 16 ∧
      Int.tdiv fullWheelState.TouchpadEvents.wheelX
        (sampleEnvironment.touchpadScrollDivisor : Int) = 2 ∧
      fullWheelState.kinetic.ActiveUsbMouseReport.wheelX = 127 ∧
      (processTouchpadActions sampleEnvironment
        fullWheelState).kinetic.ActiveUsbMouseReport.wheelX = -127 ∧
      (processTouchpadActions sampleEnvironment
        fullWheelState).kinetic.ActiveUsbMouseReport.wheelX ≠
          fullWheelState.kinetic.ActiveUsbMouseReport.wheelX +
            Int.tdiv fullWheelState.TouchpadEvents.wheelX
              (sampleEnvironment.touchpadScrollDivisor : Int)) ∧
    (Int.tdiv wideWheelState.TouchpadEvents.wheelX
        (sampleEnvironment.touchpadScrollDivisor : Int) = 256 ∧
      (processTouchpadActions sampleEnvironment wideWheelState).TouchpadEvents.wheelX = 2048 ∧
      (processTouchpadActions sampleEnvironment
        wideWheelState).kinetic.ActiveUsbMouseReport.wheelX =
          wideWheelState.kinetic.ActiveUsbMouseReport.wheelX ∧
      ¬ |(processTouchpadActions sampleEnvironment wideWheelState).TouchpadEvents.wheelX| <
        (sampleEnvironment.touchpadScrollDivisor : Int)) := by
  obtain ⟨_, _, hwx, _⟩ := processTouchpadActions_fields sampleEnvironment fullWheelState
  obtain ⟨m1, m2, _⟩ := touchpadMotion_fields sampleEnvironment fullWheelState
  have hs := (touchpadWheelX_spec sampleEnvironment
    (touchpadMotion sampleEnvironment fullWheelState) (by rw [m2]; decide)).2
  rw [m1, m2] at hs
  have hv : (processTouchpadActions sampleEnvironment
      fullWheelState).kinetic.ActiveUsbMouseReport.wheelX = -127 := by
    rw [hwx, hs]; decide
  obtain ⟨hT, _, hwx2, _⟩ := processTouchpadActions_fields sampleEnvironment wideWheelState
  obtain ⟨n1, n2, _⟩ := touchpadMotion_fields sampleEnvironment wideWheelState
  have hskip : touchpadWheelX sampleEnvironment (touchpadMotion sampleEnvironment wideWheelState)
      = touchpadMotion sampleEnvironment wideWheelState := by
    unfold touchpadWheelX
    simp only [n2]
    rfl
  have ha : (processTouchpadActions sampleEnvironment wideWheelState).TouchpadEvents.wheelX
      = 2048 := by
    rw [hT, hskip, n2]; rfl
  refine ⟨by decide, ⟨rfl, by decide, rfl, hv, ?_⟩, ⟨by decide, ha, ?_, ?_⟩⟩
  · rw [hv]; decide
  · rw [hwx2, hskip, n1]
  · rw [ha]; decide

/-- C18, amended. Touchpad wheel quantisation: with a divisor
`D = touchpadScrollDivisor > 0` and wheel accumulators `w` (of either sign) whose
quotients `q = trunc (w / D)` have magnitude below 256, `processTouchpadActions`
leaves the accumulator `r` with `D * q + r = w` and `|r| < D`, changes
`report.wheelX` by `q` and `report.wheelY` by `-q` as signed 8-bit values
(exactly when the sum is in `-128..127`, and modulo 256 in general); when
`|w| < D` the report field and the accumulator are unchanged. -/
theorem C18_touchpad_wheel_quantisation (env : TickEnvironment) (s : MouseControllerState)
    (hD : 0 < env.touchpadScrollDivisor)
    (hqx : -256 < Int.tdiv s.TouchpadEvents.wheelX (env.touchpadScrollDivisor : Int) ∧
      Int.tdiv s.TouchpadEvents.wheelX (env.touchpadScrollDivisor : Int) < 256)
    (hqy : -256 < Int.tdiv s.TouchpadEvents.wheelY (env.touchpadScrollDivisor : Int) ∧
      Int.tdiv s.TouchpadEvents.wheelY (env.touchpadScrollDivisor : Int) < 256) :
    ((env.touchpadScrollDivisor : Int) *
          Int.tdiv s.TouchpadEvents.wheelX (env.touchpadScrollDivisor : Int) +
        (processTouchpadActions env s).TouchpadEvents.wheelX = s.TouchpadEvents.wheelX ∧
      |(processTouchpadActions env s).TouchpadEvents.wheelX| < (env.touchpadScrollDivisor : Int) ∧
      ((processTouchpadActions env s).kinetic.ActiveUsbMouseReport.wheelX -
        (s.kinetic.ActiveUsbMouseReport.wheelX +
          Int.tdiv s.TouchpadEvents.wheelX (env.touchpadScrollDivisor : Int))) % 256 = 0 ∧
      (-128 ≤ s.kinetic.ActiveUsbMouseReport.wheelX +
          Int.tdiv s.TouchpadEvents.wheelX (env.touchpadScrollDivisor : Int) →
        s.kinetic.ActiveUsbMouseReport.wheelX +
          Int.tdiv s.TouchpadEvents.wheelX (env.touchpadScrollDivisor : Int) ≤ 127 →
        (processTouchpadActions env s).kinetic.ActiveUsbMouseReport.wheelX =
          s.kinetic.ActiveUsbMouseReport.wheelX +
            Int.tdiv s.TouchpadEvents.wheelX (env.touchpadScrollDivisor : Int)) ∧
      (|s.TouchpadEvents.wheelX| < (env.touchpadScrollDivisor : Int) →
        (processTouchpadActions env s).kinetic.ActiveUsbMouseReport.wheelX =
          s.kinetic.ActiveUsbMouseReport.wheelX ∧
        (processTouchpadActions env s).TouchpadEvents.wheelX = s.TouchpadEvents.wheelX)) ∧
    ((env.touchpadScrollDivisor : Int) *
          Int.tdiv s.TouchpadEvents.wheelY (env.touchpadScrollDivisor : Int) +
        (processTouchpadActions env s).TouchpadEvents.wheelY = s.TouchpadEvents.wheelY ∧
      |(processTouchpadActions env s).TouchpadEvents.wheelY| < (env.touchpadScrollDivisor : Int) ∧
      ((processTouchpadActions env s).kinetic.ActiveUsbMouseReport.wheelY -
        (s.kinetic.ActiveUsbMouseReport.wheelY -
          Int.tdiv s.TouchpadEvents.wheelY (env.touchpadScrollDivisor : Int))) % 256 = 0 ∧
      (-128 ≤ s.kinetic.ActiveUsbMouseReport.wheelY -
          Int.tdiv s.TouchpadEvents.wheelY (env.touchpadScrollDivisor : Int) →
        s.kinetic.ActiveUsbMouseReport.wheelY -
          Int.tdiv s.TouchpadEvents.wheelY (env.touchpadScrollDivisor : Int) ≤ 127 →
        (processTouchpadActions env s).kinetic.ActiveUsbMouseReport.wheelY =
          s.kinetic.ActiveUsbMouseReport.wheelY -
            Int.tdiv s.TouchpadEvents.wheelY (env.touchpadScrollDivisor : Int)) ∧
      (|s.TouchpadEvents.wheelY| < (env.touchpadScrollDivisor : Int) →
        (processTouchpadActions env s).kinetic.ActiveUsbMouseReport.wheelY =
          s.kinetic.ActiveUsbMouseReport.wheelY ∧
        (processTouchpadActions env s).TouchpadEvents.wheelY = s.TouchpadEvents.wheelY)) := by
  have hDi : (0 : Int) < (env.touchpadScrollDivisor : Int) := by exact_mod_cast hD
  obtain ⟨hT, _, hwx, hwy⟩ := processTouchpadActions_fields env s
  obtain ⟨m1, m2, _⟩ := touchpadMotion_fields env s
  obtain ⟨_, x2, x3⟩ := touchpadWheelX_fields env (touchpadMotion env s)
  have ewx : (touchpadMotion env s).TouchpadEvents.wheelX = s.TouchpadEvents.wheelX := by
    rw [m2]
  have ewy : (touchpadWheelX env (touchpadMotion env s)).TouchpadEvents.wheelY =
      s.TouchpadEvents.wheelY := by
    rw [x2, m2]
  have ery : (touchpadWheelX env (touchpadMotion env s)).kinetic.ActiveUsbMouseReport.wheelY =
      s.kinetic.ActiveUsbMouseReport.wheelY := by
    rw [x3, m1]
  obtain ⟨ax, rx⟩ := touchpadWheelX_spec env (touchpadMotion env s) (by rw [ewx]; exact hqx)
  obtain ⟨ay, ry⟩ := touchpadWheelY_spec env (touchpadWheelX env (touchpadMotion env s))
    (by rw [ewy]; exact hqy)
  rw [ewx] at ax
  rw [ewx, m1] at rx
  rw [ewy] at ay
  rw [ewy, ery] at ry
  have eax : (processTouchpadActions env s).TouchpadEvents.wheelX =
      Int.tmod s.TouchpadEvents.wheelX (env.touchpadScrollDivisor : Int) := by
    rw [hT]; exact ax
  have eay : (processTouchpadActions env s).TouchpadEvents.wheelY =
      Int.tmod s.TouchpadEvents.wheelY (env.touchpadScrollDivisor : Int) := by
    rw [hT]; exact ay
  rw [eax, eay, hwx, hwy, rx, ry]
  have dx := Int.tdiv_add_tmod s.TouchpadEvents.wheelX (env.touchpadScrollDivisor : Int)
  have dy := Int.tdiv_add_tmod s.TouchpadEvents.wheelY (env.touchpadScrollDivisor : Int)
  have bx := tmod_abs_lt s.TouchpadEvents.wheelX hDi
  have b_y := tmod_abs_lt s.TouchpadEvents.wheelY hDi
  refine ⟨⟨dx, bx, ?_, ?_, ?_⟩, ⟨dy, b_y, ?_, ?_, ?_⟩⟩
  · split_ifs with h0
    · rw [h0]; simp
    · unfold int8_wrap; omega
  · intro h1 h2
    split_ifs with h0
    · rw [h0]; simp
    · unfold int8_wrap; omega
  · intro hlt
    have hz := tdiv_eq_zero_of_abs_lt hlt
    rw [hz] at dx
    rw [if_pos hz]
    exact ⟨rfl, by omega⟩
  · split_ifs with h0
    · rw [h0]; simp
    · unfold int8_wrap; omega
  · intro h1 h2
    split_ifs with h0
    · rw [h0]; simp
    · unfold int8_wrap; omega
  · intro hlt
    have hz := tdiv_eq_zero_of_abs_lt hlt
    rw [hz] at dy
    rw [if_pos hz]
    exact ⟨rfl, by omega⟩


/-- Worked instance of the amended C18: accumulators `-17` and `20` with divisor 8 leave
remainders `-1` and `4`; the report's `wheelX` goes from 0 to `-2` and `wheelY`
from 0 to `-2`. -/
theorem C18_touchpad_wheel_quantisation_witness :
    (0 < sampleEnvironment.touchpadScrollDivisor ∧
      (-256 < Int.tdiv sampleState.TouchpadEvents.wheelX
          (sampleEnvironment.touchpadScrollDivisor : Int) ∧
        Int.tdiv sampleState.TouchpadEvents.wheelX
          (sampleEnvironment.touchpadScrollDivisor : Int) < 256) ∧
      (-256 < Int.tdiv sampleState.TouchpadEvents.wheelY
          (sampleEnvironment.touchpadScrollDivisor : Int) ∧
        Int.tdiv sampleState.TouchpadEvents.wheelY
          (sampleEnvironment.touchpadScrollDivisor : Int) < 256)) ∧
    (processTouchpadActions sampleEnvironment sampleState).TouchpadEvents.wheelX = -1 ∧
    (processTouchpadActions sampleEnvironment sampleState).kinetic.ActiveUsbMouseReport.wheelX
      = -2 ∧
    (processTouchpadActions sampleEnvironment sampleState).TouchpadEvents.wheelY = 4 ∧
    (processTouchpadActions sampleEnvironment sampleState).kinetic.ActiveUsbMouseReport.wheelY
      = -2 := by
  have h := C18_touchpad_wheel_quantisation sampleEnvironment sampleState (by decide)
    ⟨by decide, by decide⟩ ⟨by decide, by decide⟩
  refine ⟨⟨by decide, ⟨by decide, by decide⟩, ⟨by decide, by decide⟩⟩, ?_, ?_, ?_, ?_⟩
  · have h1 := h.1.1
    have e : (sampleEnvironment.touchpadScrollDivisor : Int) *
        Int.tdiv sampleState.TouchpadEvents.wheelX
          (sampleEnvironment.touchpadScrollDivisor : Int) = -16 := by decide
    rw [e] at h1
    have e2 : sampleState.TouchpadEvents.wheelX = -17 := rfl
    omega
  · have h1 := h.1.2.2.2.1 (by decide) (by decide)
    rw [h1]; decide
  · have h1 := h.2.1
    have e : (sampleEnvironment.touchpadScrollDivisor : Int) *
        Int.tdiv sampleState.TouchpadEvents.wheelY
          (sampleEnvironment.touchpadScrollDivisor : Int) = 16 := by decide
    rw [e] at h1
    have e2 : sampleState.TouchpadEvents.wheelY = 20 := rfl
    omega
  · have h1 := h.2.2.2.2.1 (by decide) (by decide)
    rw [h1]; decide

/-- C19. Touchpad consumption: after `processTouchpadActions` the motion fields
`x`, `y` of the touchpad record are 0, `singleTap` and `twoFingerTap` are false
and `tapAndHold` keeps its value; the report's buttons are the previous buttons
with the left bit added exactly when `singleTap` or `tapAndHold` was set and the
right bit added exactly when `twoFingerTap` was set, no other bit being
changed. -/
theorem C19_touchpad_consumption (env : TickEnvironment) (s : MouseControllerState) :
    (processTouchpadActions env s).TouchpadEvents.x = 0 ∧
    (processTouchpadActions env s).TouchpadEvents.y = 0 ∧
    (processTouchpadActions env s).TouchpadEvents.singleTap = false ∧
    (processTouchpadActions env s).TouchpadEvents.twoFingerTap = false ∧
    (processTouchpadActions env s).TouchpadEvents.tapAndHold = s.TouchpadEvents.tapAndHold ∧
    (processTouchpadActions env s).kinetic.ActiveUsbMouseReport.buttons =
      s.kinetic.ActiveUsbMouseReport.buttons |||
        ((if s.TouchpadEvents.singleTap = true ∨ s.TouchpadEvents.tapAndHold = true then
            env.buttons.MouseButton_Left else 0) |||
          (if s.TouchpadEvents.twoFingerTap = true then env.buttons.MouseButton_Right
            else 0)) := by
  obtain ⟨hT, hb, _, _⟩ := processTouchpadActions_fields env s
  rw [hT, hb]
  refine ⟨rfl, rfl, rfl, rfl, rfl, ?_⟩
  unfold tapBits maskIf
  cases s.TouchpadEvents.singleTap <;> cases s.TouchpadEvents.tapAndHold <;>
    cases s.TouchpadEvents.twoFingerTap <;> rfl

/-- C20. Key-cluster hysteresis: on the counters `(wX, wY)` after the
accumulation of the delta and the last-triggered axis `L`, the threshold tests
fire exactly the first applicable of: right arrow if `(wX ≥ 1 ∧ L = X) ∨ wX ≥ 2`;
left arrow if `(wX ≤ -1 ∧ L = X) ∨ wX ≤ -2`; down arrow if
`(wY ≥ 1 ∧ L = Y) ∨ wY ≥ 2`; up arrow if `(wY ≤ -1 ∧ L = Y) ∨ wY ≤ -2`; otherwise
nothing.  When an arrow fires exactly one scancode is appended, both counters
are 0 afterwards and `L` is the axis that fired; when none fires nothing
changes. -/
theorem C20_key_cluster_hysteresis (s : MouseControllerState) :
    (keyClusterArrows s =
      match keyClusterChoice s.wX s.wY s.wLastX with
      | some (scancode, axis) => keyClusterEmit scancode axis s
      | none => s) ∧
    (match keyClusterChoice s.wX s.wY s.wLastX with
      | some (scancode, axis) =>
        (keyClusterArrows s).scancodes s.basicScancodeIndex = scancode ∧
        (keyClusterArrows s).basicScancodeIndex = s.basicScancodeIndex + 1 ∧
        (∀ i, i ≠ s.basicScancodeIndex → (keyClusterArrows s).scancodes i = s.scancodes i) ∧
        (keyClusterArrows s).wX = 0 ∧ (keyClusterArrows s).wY = 0 ∧
        (keyClusterArrows s).wLastX = axis
      | none => keyClusterArrows s = s) := by
  rw [keyClusterArrows_eq]
  cases h : keyClusterChoice s.wX s.wY s.wLastX with
  | none => exact ⟨rfl, rfl⟩
  | some p =>
    obtain ⟨scancode, axis⟩ := p
    refine ⟨rfl, ?_, rfl, ?_, rfl, rfl, rfl⟩
    · simp [keyClusterEmit]
    · intro i hi
      simp [keyClusterEmit, Function.update, hi]

/-! ## Lemmas for the inactivity reset, the trackpoint, the speed shaping and the toggles -/

theorem processKeyCluster_reset (env : TickEnvironment) (pointerDelta : pointer_delta_t)
    (s : MouseControllerState) (h : pointerDelta.x ≠ 0 ∨ pointerDelta.y ≠ 0)
    (ht : uint32_sub env.CurrentTime s.lastUpdate > 500) :
    processKeyCluster env pointerDelta s =
      keyClusterArrows { s with
        wX := int8_wrap (0 + pointerDelta.x)
        wY := int8_wrap (0 + pointerDelta.y)
        wLastX := NONE
        lastUpdate := env.CurrentTime } := by
  unfold processKeyCluster
  simp only [if_pos h, if_pos ht]

theorem processKeyCluster_retain (env : TickEnvironment) (pointerDelta : pointer_delta_t)
    (s : MouseControllerState) (h : pointerDelta.x ≠ 0 ∨ pointerDelta.y ≠ 0)
    (ht : ¬ uint32_sub env.CurrentTime s.lastUpdate > 500) :
    processKeyCluster env pointerDelta s =
      keyClusterArrows { s with
        wX := int8_wrap (s.wX + pointerDelta.x)
        wY := int8_wrap (s.wY + pointerDelta.y)
        lastUpdate := env.CurrentTime } := by
  unfold processKeyCluster
  simp only [if_pos h, if_neg ht]

theorem afterRightArrow_eq :
    afterRightArrow =
      { sampleState with
        scancodes := Function.update sampleState.scancodes 0 HID_KEYBOARD_SC_RIGHT_ARROW
        basicScancodeIndex := 1
        wLastX := LX
        lastUpdate := 1000 } := by
  rfl

theorem processModules_idle (env : TickEnvironment) (ms : List uhk_module_state_t) :
    ∀ (s : MouseControllerState) (b : Bool), (∀ x ∈ ms, x.pointerCount = 0) →
      processModules env ms s b = (ms, s, b) := by
  induction ms with
  | nil => intro s b _; rfl
  | cons a rest ih =>
    intro s b h
    have ha : a.pointerCount = 0 := h a (List.mem_cons_self a rest)
    have hr : ∀ x ∈ rest, x.pointerCount = 0 := fun x hx => h x (List.mem_cons_of_mem a hx)
    rw [processModules, if_neg (by simp [ha]), ih s b hr]

theorem processModules_single (env : TickEnvironment) (pre post : List uhk_module_state_t)
    (m : uhk_module_state_t) (hm : m.pointerCount ≠ 0)
    (hpost : ∀ x ∈ post, x.pointerCount = 0) :
    ∀ (s : MouseControllerState) (b : Bool), (∀ x ∈ pre, x.pointerCount = 0) →
      processModules env (pre ++ m :: post) s b =
        (pre ++ { m with pointerDelta := { x := 0, y := 0 } } :: post,
          processModulePointer env m s, true) := by
  induction pre with
  | nil =>
    intro s b _
    simp only [List.nil_append, processModules, if_pos hm,
      processModules_idle env post _ true hpost]
  | cons a rest ih =>
    intro s b h
    have ha : a.pointerCount = 0 := h a (List.mem_cons_self a rest)
    have hr : ∀ x ∈ rest, x.pointerCount = 0 := fun x hx => h x (List.mem_cons_of_mem a hx)
    rw [List.cons_append, processModules, if_neg (by simp [ha]), ih s b hr]
    rfl

theorem expDriver_linear (env : TickEnvironment) (s : MouseControllerState)
    (h : env.CurrentTime &&& 16384 = 0) :
    expDriver env s = env.params.minSpeedCoef +
      s.avgSpeedPerS / env.params.midSpeed *
        (env.params.midSpeedCoef - env.params.minSpeedCoef) := by
  unfold expDriver
  simp only [if_pos h]

theorem expDriver_power (env : TickEnvironment) (s : MouseControllerState)
    (h : ¬ env.CurrentTime &&& 16384 = 0) :
    expDriver env s = 2 * env.params.minSpeedCoef *
      env.pow (s.avgSpeedPerS / env.params.midSpeed)
        (env.params.midSpeedCoef - env.params.minSpeedCoef) := by
  unfold expDriver
  simp only [if_neg h]

theorem setExpDriverParams_fields (log : ℚ → ℚ) (a b c : ℚ) (p : ExpDriverParams) :
    (MouseController_SetExpDriverParams log a b c p).minSpeedCoef = a ∧
    (MouseController_SetExpDriverParams log a b c p).midSpeed = b ∧
    (MouseController_SetExpDriverParams log a b c p).midSpeedCoef = c ∧
    (MouseController_SetExpDriverParams log a b c p).maxSpeedCoef = p.maxSpeedCoef :=
  ⟨rfl, rfl, rfl, rfl⟩

theorem activateDirectionSigns_counters (state : SerializedMouseAction) (g : Globals) :
    (MouseController_ActivateDirectionSigns state g).ToggledMouseStates = g.ToggledMouseStates ∧
    (MouseController_ActivateDirectionSigns state g).ActiveMouseStates = g.ActiveMouseStates := by
  cases state <;> exact ⟨rfl, rfl⟩

theorem toggleMouseState_activate (action : SerializedMouseAction) (g : Globals) :
    (ToggleMouseState action true g).ToggledMouseStates =
        Function.update g.ToggledMouseStates action ((g.ToggledMouseStates action + 1) % 256) ∧
    (ToggleMouseState action true g).ActiveMouseStates =
        Function.update g.ActiveMouseStates action ((g.ActiveMouseStates action + 1) % 256) := by
  unfold ToggleMouseState
  simp only [if_true]
  exact ⟨(activateDirectionSigns_counters action _).1, (activateDirectionSigns_counters action _).2⟩

theorem toggleMouseState_deactivate (action : SerializedMouseAction) (g : Globals) :
    ToggleMouseState action false g =
      { g with
        ToggledMouseStates := Function.update g.ToggledMouseStates action
          (g.ToggledMouseStates action - (if g.ToggledMouseStates action > 0 then 1 else 0)) } := by
  unfold ToggleMouseState
  simp

theorem modffFrac_nonneg {x : ℚ} (h : 0 ≤ x) : 0 ≤ modffFrac x := by
  unfold modffFrac modffInt
  rw [if_pos h]
  linarith [Int.floor_le x]

theorem modffFrac_nonpos {x : ℚ} (h : x ≤ 0) : modffFrac x ≤ 0 := by
  rcases eq_or_lt_of_le h with h0 | hneg
  · rw [h0]
    unfold modffFrac
    rw [modffInt_zero]
    norm_num
  · unfold modffFrac modffInt
    rw [if_neg (not_le.mpr hneg)]
    linarith [Int.le_ceil x]

theorem touchpadMotion_idle (env : TickEnvironment) (s : MouseControllerState)
    (hx : s.TouchpadEvents.x = 0) (hy : s.TouchpadEvents.y = 0) :
    (touchpadMotion env s).sumX = s.sumX ∧ (touchpadMotion env s).sumY = s.sumY ∧
    (touchpadMotion env s).avgSpeedPerS = s.avgSpeedPerS := by
  have hr : recalculateSpeed env s.TouchpadEvents.x s.TouchpadEvents.y s = s := by
    unfold recalculateSpeed
    rw [if_neg (by rw [hx, hy]; simp)]
  unfold touchpadMotion
  simp only [hr]
  rw [expDriverEffect_frame]
  simp only [hx, hy, Int.cast_zero, mul_zero, add_zero]
  exact ⟨trivial, trivial, trivial⟩

theorem touchpadWheelX_pointer (env : TickEnvironment) (s : MouseControllerState) :
    (touchpadWheelX env s).sumX = s.sumX ∧ (touchpadWheelX env s).sumY = s.sumY ∧
    (touchpadWheelX env s).avgSpeedPerS = s.avgSpeedPerS ∧
    (touchpadWheelX env s).UhkModuleStates = s.UhkModuleStates ∧
    (touchpadWheelX env s).kinetic.ActiveUsbMouseReport.x = s.kinetic.ActiveUsbMouseReport.x ∧
    (touchpadWheelX env s).kinetic.ActiveUsbMouseReport.y = s.kinetic.ActiveUsbMouseReport.y := by
  unfold touchpadWheelX
  simp only
  split_ifs <;> exact ⟨rfl, rfl, rfl, rfl, rfl, rfl⟩

theorem touchpadWheelY_pointer (env : TickEnvironment) (s : MouseControllerState) :
    (touchpadWheelY env s).sumX = s.sumX ∧ (touchpadWheelY env s).sumY = s.sumY ∧
    (touchpadWheelY env s).avgSpeedPerS = s.avgSpeedPerS ∧
    (touchpadWheelY env s).UhkModuleStates = s.UhkModuleStates ∧
    (touchpadWheelY env s).kinetic.ActiveUsbMouseReport.x = s.kinetic.ActiveUsbMouseReport.x ∧
    (touchpadWheelY env s).kinetic.ActiveUsbMouseReport.y = s.kinetic.ActiveUsbMouseReport.y := by
  unfold touchpadWheelY
  simp only
  split_ifs <;> exact ⟨rfl, rfl, rfl, rfl, rfl, rfl⟩

theorem touchpadTaps_pointer (env : TickEnvironment) (s : MouseControllerState) :
    (touchpadTaps env s).sumX = s.sumX ∧ (touchpadTaps env s).sumY = s.sumY ∧
    (touchpadTaps env s).avgSpeedPerS = s.avgSpeedPerS ∧
    (touchpadTaps env s).UhkModuleStates = s.UhkModuleStates ∧
    (touchpadTaps env s).kinetic.ActiveUsbMouseReport.x = s.kinetic.ActiveUsbMouseReport.x ∧
    (touchpadTaps env s).kinetic.ActiveUsbMouseReport.y = s.kinetic.ActiveUsbMouseReport.y := by
  unfold touchpadTaps
  simp only
  split_ifs <;> exact ⟨rfl, rfl, rfl, rfl, rfl, rfl⟩

/-- An idle touchpad (no motion sample) leaves the accumulator, the speed
estimate, the module states and the pointer fields of the report as they are. -/
theorem processTouchpadActions_idle (env : TickEnvironment) (s : MouseControllerState)
    (hx : s.TouchpadEvents.x = 0) (hy : s.TouchpadEvents.y = 0) :
    (processTouchpadActions env s).sumX = s.sumX ∧
    (processTouchpadActions env s).sumY = s.sumY ∧
    (processTouchpadActions env s).avgSpeedPerS = s.avgSpeedPerS ∧
    (processTouchpadActions env s).UhkModuleStates = s.UhkModuleStates ∧
    (processTouchpadActions env s).kinetic.ActiveUsbMouseReport.x
      = s.kinetic.ActiveUsbMouseReport.x ∧
    (processTouchpadActions env s).kinetic.ActiveUsbMouseReport.y
      = s.kinetic.ActiveUsbMouseReport.y := by
  obtain ⟨m1, m2, m3⟩ := touchpadMotion_idle env s hx hy
  obtain ⟨mk, -, mu⟩ := touchpadMotion_fields env s
  obtain ⟨a1, a2, a3, a4, a5, a6⟩ := touchpadWheelX_pointer env (touchpadMotion env s)
  obtain ⟨b1, b2, b3, b4, b5, b6⟩ :=
    touchpadWheelY_pointer env (touchpadWheelX env (touchpadMotion env s))
  obtain ⟨c1, c2, c3, c4, c5, c6⟩ :=
    touchpadTaps_pointer env (touchpadWheelY env (touchpadWheelX env (touchpadMotion env s)))
  unfold processTouchpadActions
  rw [c1, c2, c3, c4, c5, c6, b1, b2, b3, b4, b5, b6, a1, a2, a3, a4, a5, a6, m1, m2, m3, mu, mk]
  exact ⟨rfl, rfl, rfl, rfl, rfl, rfl⟩

/-! ## The claims, continued: adapters, speed shaping, toggles, carry -/

/-- C21. Key-cluster inactivity reset: when a nonzero key-cluster delta is
processed and more than 500 ms (difference of the 32-bit time stamps) have passed
since the previous nonzero delta, the counters and the last-triggered axis are
cleared before the delta is accumulated, so the outcome equals that of
processing the same delta from the initial cluster variables (counters 0, last
axis `NONE`, whatever the stored time stamp), namely the threshold tests on the
delta alone; when at most 500 ms have passed the counters and the last axis are
retained and the threshold tests run on the old counters plus the delta. -/
theorem C21_key_cluster_inactivity_reset (env : TickEnvironment)
    (pointerDelta : pointer_delta_t) (s : MouseControllerState)
    (h : pointerDelta.x ≠ 0 ∨ pointerDelta.y ≠ 0) :
    (uint32_sub env.CurrentTime s.lastUpdate > 500 →
      (∀ lastUpdate0 : Nat,
        processKeyCluster env pointerDelta s =
          processKeyCluster env pointerDelta
            { s with wX := 0, wY := 0, wLastX := NONE, lastUpdate := lastUpdate0 }) ∧
      processKeyCluster env pointerDelta s =
        keyClusterArrows { s with
          wX := int8_wrap (0 + pointerDelta.x)
          wY := int8_wrap (0 + pointerDelta.y)
          wLastX := NONE
          lastUpdate := env.CurrentTime }) ∧
    (uint32_sub env.CurrentTime s.lastUpdate ≤ 500 →
      processKeyCluster env pointerDelta s =
        keyClusterArrows { s with
          wX := int8_wrap (s.wX + pointerDelta.x)
          wY := int8_wrap (s.wY + pointerDelta.y)
          lastUpdate := env.CurrentTime }) := by
  refine ⟨fun ht => ⟨fun lastUpdate0 => ?_, processKeyCluster_reset env pointerDelta s h ht⟩,
    fun ht => processKeyCluster_retain env pointerDelta s h (not_lt.mpr ht)⟩
  rw [processKeyCluster_reset env pointerDelta s h ht]
  by_cases h0 : uint32_sub env.CurrentTime lastUpdate0 > 500
  · rw [processKeyCluster_reset env pointerDelta _ h h0]
  · rw [processKeyCluster_retain env pointerDelta _ h h0]

/-- Worked instance of C21: after a right arrow emitted at time 1000, the delta
`(1, 0)` at time 1501 emits nothing (fill index still 1, counter 1, axis `NONE`),
whereas at time 1500 it emits a second right arrow. -/
theorem C21_key_cluster_inactivity_reset_witness :
    (afterRightArrow.basicScancodeIndex = 1 ∧ afterRightArrow.wLastX = LX ∧
      afterRightArrow.scancodes 0 = HID_KEYBOARD_SC_RIGHT_ARROW) ∧
    (uint32_sub (environmentAt 1501).CurrentTime afterRightArrow.lastUpdate > 500 ∧
      (processKeyCluster (environmentAt 1501) { x := 1, y := 0 } afterRightArrow).basicScancodeIndex
        = 1 ∧
      (processKeyCluster (environmentAt 1501) { x := 1, y := 0 } afterRightArrow).wX = 1 ∧
      (processKeyCluster (environmentAt 1501) { x := 1, y := 0 } afterRightArrow).wLastX
        = NONE) ∧
    (uint32_sub (environmentAt 1500).CurrentTime afterRightArrow.lastUpdate ≤ 500 ∧
      (processKeyCluster (environmentAt 1500) { x := 1, y := 0 } afterRightArrow).basicScancodeIndex
        = 2 ∧
      (processKeyCluster (environmentAt 1500) { x := 1, y := 0 } afterRightArrow).scancodes 1
        = HID_KEYBOARD_SC_RIGHT_ARROW) := by
  have h : ({ x := 1, y := 0 } : pointer_delta_t).x ≠ 0 ∨
      ({ x := 1, y := 0 } : pointer_delta_t).y ≠ 0 := Or.inl (by decide)
  have r1 := ((C21_key_cluster_inactivity_reset (environmentAt 1501) { x := 1, y := 0 }
    afterRightArrow h).1 (by decide)).2
  have r2 := (C21_key_cluster_inactivity_reset (environmentAt 1500) { x := 1, y := 0 }
    afterRightArrow h).2 (by decide)
  refine ⟨⟨rfl, rfl, rfl⟩, ⟨by decide, ?_, ?_, ?_⟩, ⟨by decide, ?_, ?_⟩⟩
  · rw [r1]; rfl
  · rw [r1]; rfl
  · rw [r1]; rfl
  · rw [r2]; rfl
  · rw [r2]; rfl

/-- The tick without a touchpad in which a single trackpoint module reports:
the module loop hands the state after the kinetic part to the trackpoint case. -/
theorem trackpointTick_eq (env : TickEnvironment) (s : MouseControllerState)
    (pre post : List uhk_module_state_t) (m : uhk_module_state_t)
    (htouch : env.touchpadConnected = false)
    (hms : s.UhkModuleStates = pre ++ m :: post)
    (hpre : ∀ x ∈ pre, x.pointerCount = 0) (hpost : ∀ x ∈ post, x.pointerCount = 0)
    (hid : m.moduleId = ModuleId_TrackpointRight) (hcount : m.pointerCount ≠ 0) :
    (∀ (s0 : MouseControllerState) (b : Bool),
      processModules env (pre ++ m :: post) s0 b =
        (pre ++ { m with pointerDelta := { x := 0, y := 0 } } :: post,
          processTrackpoint m.pointerDelta s0, true)) ∧
    MouseController_ProcessMouseActions env s =
      (let s4 := aggregatePointerSums (scrollMode env.ActiveLayer) true
        { processTrackpoint m.pointerDelta { s with
            kinetic := processKineticStates env.ActiveMouseStates env.CompensateDiagonalSpeed
              env.mouseElapsedTime s.kinetic } with
          UhkModuleStates := pre ++ { m with pointerDelta := { x := 0, y := 0 } } :: post }
      { s4 with
        kinetic := { s4.kinetic with
          ActiveUsbMouseReport := { s4.kinetic.ActiveUsbMouseReport with
            buttons := applyClickButtons env s4.kinetic.ActiveUsbMouseReport.buttons } } }) := by
  have hrun : ∀ s0 : MouseControllerState, ∀ b : Bool,
      processModules env (pre ++ m :: post) s0 b =
        (pre ++ { m with pointerDelta := { x := 0, y := 0 } } :: post,
          processTrackpoint m.pointerDelta s0, true) := by
    intro s0 b
    have hp : processModulePointer env m s0 = processTrackpoint m.pointerDelta s0 := by
      unfold processModulePointer; rw [hid]
    rw [processModules_single env pre post m hcount hpost s0 b hpre, hp]
  refine ⟨hrun, ?_⟩
  unfold MouseController_ProcessMouseActions
  dsimp only
  rw [htouch, if_neg (by decide)]
  dsimp only
  rw [hms, hrun]

/-- In that tick, with zero prior carry on the horizontal axis and a non-scroll
layer, the report's `x` is the move output plus the raw delta, stored as a
signed 8-bit value. -/
theorem trackpointTick_x (env : TickEnvironment) (s : MouseControllerState)
    (pre post : List uhk_module_state_t) (m : uhk_module_state_t)
    (htouch : env.touchpadConnected = false)
    (hms : s.UhkModuleStates = pre ++ m :: post)
    (hpre : ∀ x ∈ pre, x.pointerCount = 0) (hpost : ∀ x ∈ post, x.pointerCount = 0)
    (hid : m.moduleId = ModuleId_TrackpointRight) (hcount : m.pointerCount ≠ 0)
    (hx : s.sumX = 0) (hmode : scrollMode env.ActiveLayer = false) :
    (MouseController_ProcessMouseActions env s).kinetic.ActiveUsbMouseReport.x =
      int8_wrap ((processMouseKineticState env.ActiveMouseStates env.CompensateDiagonalSpeed
        env.mouseElapsedTime s.kinetic.MouseMoveState).xOut + m.pointerDelta.x) := by
  rw [(trackpointTick_eq env s pre post m htouch hms hpre hpost hid hcount).2]
  simp only [aggregatePointerSums, hmode, if_true, Bool.false_eq_true, if_false,
    processTrackpoint, hx, zero_add, modffInt_intCast]
  rfl

/-- C22, amended. Trackpoint routing: in a tick without a touchpad in which the
only module with a nonzero `pointerCount` is a trackpoint with raw delta
`(dx, dy)`, the module loop adds exactly `(+dx, -dy)` to the shared accumulator
and the speed estimate is left alone (no speed shaping); with zero prior carry
and a non-scroll layer the report ends with `x = moveXOut + dx` and
`y = moveYOut - dy` stored as signed 8-bit values (the exact sums when they lie
in `-128..127`, reduced modulo 256 otherwise) and with zero carry; and the
module's `pointerDelta` is `(0, 0)` after the tick, the other modules being
unchanged. -/
theorem C22_trackpoint_routing (env : TickEnvironment) (s : MouseControllerState)
    (pre post : List uhk_module_state_t) (m : uhk_module_state_t)
    (htouch : env.touchpadConnected = false)
    (hms : s.UhkModuleStates = pre ++ m :: post)
    (hpre : ∀ x ∈ pre, x.pointerCount = 0) (hpost : ∀ x ∈ post, x.pointerCount = 0)
    (hid : m.moduleId = ModuleId_TrackpointRight) (hcount : m.pointerCount ≠ 0) :
    (∀ (s0 : MouseControllerState) (b : Bool),
      (processModules env (pre ++ m :: post) s0 b).2.1.sumX
        = s0.sumX + (m.pointerDelta.x : ℚ) ∧
      (processModules env (pre ++ m :: post) s0 b).2.1.sumY
        = s0.sumY - (m.pointerDelta.y : ℚ) ∧
      (processModules env (pre ++ m :: post) s0 b).2.1.avgSpeedPerS = s0.avgSpeedPerS ∧
      (processModules env (pre ++ m :: post) s0 b).2.2 = true) ∧
    (s.sumX = 0 → s.sumY = 0 → scrollMode env.ActiveLayer = false →
      (MouseController_ProcessMouseActions env s).kinetic.ActiveUsbMouseReport.x =
        int8_wrap ((processMouseKineticState env.ActiveMouseStates env.CompensateDiagonalSpeed
          env.mouseElapsedTime s.kinetic.MouseMoveState).xOut + m.pointerDelta.x) ∧
      (MouseController_ProcessMouseActions env s).kinetic.ActiveUsbMouseReport.y =
        int8_wrap ((processMouseKineticState env.ActiveMouseStates env.CompensateDiagonalSpeed
          env.mouseElapsedTime s.kinetic.MouseMoveState).yOut - m.pointerDelta.y) ∧
      (-128 ≤ (processMouseKineticState env.ActiveMouseStates env.CompensateDiagonalSpeed
          env.mouseElapsedTime s.kinetic.MouseMoveState).xOut + m.pointerDelta.x →
        (processMouseKineticState env.ActiveMouseStates env.CompensateDiagonalSpeed
          env.mouseElapsedTime s.kinetic.MouseMoveState).xOut + m.pointerDelta.x ≤ 127 →
        (MouseController_ProcessMouseActions env s).kinetic.ActiveUsbMouseReport.x =
          (processMouseKineticState env.ActiveMouseStates env.CompensateDiagonalSpeed
            env.mouseElapsedTime s.kinetic.MouseMoveState).xOut + m.pointerDelta.x) ∧
      (-128 ≤ (processMouseKineticState env.ActiveMouseStates env.CompensateDiagonalSpeed
          env.mouseElapsedTime s.kinetic.MouseMoveState).yOut - m.pointerDelta.y →
        (processMouseKineticState env.ActiveMouseStates env.CompensateDiagonalSpeed
          env.mouseElapsedTime s.kinetic.MouseMoveState).yOut - m.pointerDelta.y ≤ 127 →
        (MouseController_ProcessMouseActions env s).kinetic.ActiveUsbMouseReport.y =
          (processMouseKineticState env.ActiveMouseStates env.CompensateDiagonalSpeed
            env.mouseElapsedTime s.kinetic.MouseMoveState).yOut - m.pointerDelta.y) ∧
      (MouseController_ProcessMouseActions env s).sumX = 0 ∧
      (MouseController_ProcessMouseActions env s).sumY = 0) ∧
    (MouseController_ProcessMouseActions env s).avgSpeedPerS = s.avgSpeedPerS ∧
    (MouseController_ProcessMouseActions env s).UhkModuleStates =
      pre ++ { m with pointerDelta := { x := 0, y := 0 } } :: post := by
  obtain ⟨hrun, hfinal⟩ := trackpointTick_eq env s pre post m htouch hms hpre hpost hid hcount
  have e1 : modffInt (-(m.pointerDelta.y : ℚ)) = -m.pointerDelta.y := by
    have := modffInt_intCast (-m.pointerDelta.y)
    rwa [Int.cast_neg] at this
  have e2 : modffFrac (-(m.pointerDelta.y : ℚ)) = 0 := by
    have := modffFrac_intCast (-m.pointerDelta.y)
    rwa [Int.cast_neg] at this
  refine ⟨?_, ?_, ?_, ?_⟩
  · intro s0 b
    rw [hrun]
    exact ⟨rfl, rfl, rfl, rfl⟩
  · intro hx hy hmode
    have rx := trackpointTick_x env s pre post m htouch hms hpre hpost hid hcount hx hmode
    have ry : (MouseController_ProcessMouseActions env s).kinetic.ActiveUsbMouseReport.y =
        int8_wrap ((processMouseKineticState env.ActiveMouseStates env.CompensateDiagonalSpeed
          env.mouseElapsedTime s.kinetic.MouseMoveState).yOut - m.pointerDelta.y) := by
      rw [hfinal]
      simp only [aggregatePointerSums, hmode, if_true, Bool.false_eq_true, if_false,
        processTrackpoint, hy, zero_sub, e1]
      rfl
    refine ⟨rx, ry, fun h1 h2 => ?_, fun h1 h2 => ?_, ?_, ?_⟩
    · rw [rx]; exact int8_wrap_of_mem h1 h2
    · rw [ry]; exact int8_wrap_of_mem h1 h2
    · rw [hfinal]
      simp only [aggregatePointerSums, hmode, if_true, Bool.false_eq_true, if_false,
        processTrackpoint, hx, zero_add]
      exact modffFrac_intCast _
    · rw [hfinal]
      simp only [aggregatePointerSums, hmode, if_true, Bool.false_eq_true, if_false,
        processTrackpoint, hy, zero_sub]
      exact e2
  · rw [hfinal]
    cases hmode : scrollMode env.ActiveLayer <;> simp [aggregatePointerSums, processTrackpoint]
  · rw [hfinal]
    cases hmode : scrollMode env.ActiveLayer <;> simp [aggregatePointerSums]

/-- With nothing held, the move state at rest emits nothing in a tick of the
environment without a touchpad. -/
theorem trackpointEnvironment_rest_outputs (s : MouseControllerState) (h : s.kinetic.MouseMoveState = MouseMoveState) :
    (processMouseKineticState trackpointEnvironment.ActiveMouseStates
      trackpointEnvironment.CompensateDiagonalSpeed trackpointEnvironment.mouseElapsedTime
      s.kinetic.MouseMoveState).xOut = 0 ∧
    (processMouseKineticState trackpointEnvironment.ActiveMouseStates
      trackpointEnvironment.CompensateDiagonalSpeed trackpointEnvironment.mouseElapsedTime
      s.kinetic.MouseMoveState).yOut = 0 := by
  have hk := process_rest_fields nothingHeld false 20 MouseMoveState
    (isMoveAction_nothingHeld MouseMoveState)
  rw [h, show processMouseKineticState trackpointEnvironment.ActiveMouseStates
      trackpointEnvironment.CompensateDiagonalSpeed trackpointEnvironment.mouseElapsedTime
      MouseMoveState = processMouseKineticState nothingHeld false 20 MouseMoveState from rfl, hk]
  exact ⟨rfl, rfl⟩

/-- Worked instance of C22: nothing held, no touchpad, an idle key cluster and a
trackpoint reporting `(3, -2)`: the report ends with `x = 3`, `y = 2`, zero
carry, and the trackpoint's delta is cleared. -/
theorem C22_trackpoint_routing_witness :
    (trackpointEnvironment.touchpadConnected = false ∧
      trackpointState.UhkModuleStates = [idleClusterModule] ++ trackpointModule :: [] ∧
      idleClusterModule.pointerCount = 0 ∧
      trackpointModule.moduleId = ModuleId_TrackpointRight ∧
      trackpointModule.pointerCount ≠ 0) ∧
    (MouseController_ProcessMouseActions trackpointEnvironment trackpointState).kinetic.ActiveUsbMouseReport.x
        = 0 + 3 ∧
      (MouseController_ProcessMouseActions trackpointEnvironment trackpointState).kinetic.ActiveUsbMouseReport.y
        = 0 - (-2) ∧
      (MouseController_ProcessMouseActions trackpointEnvironment trackpointState).sumX = 0 ∧
      (MouseController_ProcessMouseActions trackpointEnvironment trackpointState).sumY = 0 ∧
      (MouseController_ProcessMouseActions trackpointEnvironment trackpointState).UhkModuleStates
        = [idleClusterModule, { trackpointModule with pointerDelta := { x := 0, y := 0 } }] := by
  have h := C22_trackpoint_routing trackpointEnvironment trackpointState [idleClusterModule] []
    trackpointModule rfl rfl (by simp [idleClusterModule]) (by simp) rfl (by decide)
  obtain ⟨hx0, hy0⟩ := trackpointEnvironment_rest_outputs trackpointState rfl
  obtain ⟨_, _, h1, h2, h3, h4⟩ := h.2.1 rfl rfl rfl
  rw [hx0] at h1
  rw [hy0] at h2
  exact ⟨⟨rfl, rfl, rfl, rfl, by decide⟩,
    h1 (by decide) (by decide), h2 (by decide) (by decide), h3, h4, h.2.2.2⟩

/-- C22, counterexample: without a touchpad, with nothing held, zero carry and
the base layer, a trackpoint that reports the raw delta `(200, 0)` leaves the
report's `x` at `-56`, not at `moveXOut + dx = 0 + 200`: the field is a signed
8-bit value. -/
theorem C22_wide_delta_wraps :
    trackpointEnvironment.touchpadConnected = false ∧
    wideTrackpointState.UhkModuleStates = [wideTrackpointModule] ∧
    wideTrackpointModule.moduleId = ModuleId_TrackpointRight ∧
    wideTrackpointModule.pointerCount ≠ 0 ∧
    wideTrackpointModule.pointerDelta.x = 200 ∧
    wideTrackpointState.sumX = 0 ∧ wideTrackpointState.sumY = 0 ∧
    scrollMode trackpointEnvironment.ActiveLayer = false ∧
    (processMouseKineticState trackpointEnvironment.ActiveMouseStates
      trackpointEnvironment.CompensateDiagonalSpeed trackpointEnvironment.mouseElapsedTime
      wideTrackpointState.kinetic.MouseMoveState).xOut = 0 ∧
    (MouseController_ProcessMouseActions trackpointEnvironment
      wideTrackpointState).kinetic.ActiveUsbMouseReport.x = -56 ∧
    (MouseController_ProcessMouseActions trackpointEnvironment
      wideTrackpointState).kinetic.ActiveUsbMouseReport.x ≠
        (processMouseKineticState trackpointEnvironment.ActiveMouseStates
          trackpointEnvironment.CompensateDiagonalSpeed trackpointEnvironment.mouseElapsedTime
          wideTrackpointState.kinetic.MouseMoveState).xOut +
            wideTrackpointModule.pointerDelta.x := by
  obtain ⟨hx0, _⟩ := trackpointEnvironment_rest_outputs wideTrackpointState rfl
  have hv := trackpointTick_x trackpointEnvironment wideTrackpointState [] []
    wideTrackpointModule rfl rfl (by simp) (by simp) rfl (by decide) rfl rfl
  rw [hx0] at hv
  have hv2 : (MouseController_ProcessMouseActions trackpointEnvironment
      wideTrackpointState).kinetic.ActiveUsbMouseReport.x = -56 := by
    rw [hv]; decide
  refine ⟨rfl, rfl, rfl, by decide, rfl, rfl, rfl, rfl, hx0, hv2, ?_⟩
  rw [hv2, hx0]
  decide

/-- The stand-in `integerSqrtPow` is non-negative on non-negative bases, as
`pow` is. -/
theorem integerSqrtPow_nonneg (x y : ℚ) (h : 0 ≤ x) : 0 ≤ integerSqrtPow x y := by
  unfold integerSqrtPow
  split_ifs
  · exact Nat.cast_nonneg _
  · exact h

/-- C24, counterexample: with the start-up tuning values, in linear mode and at
the non-negative speed estimate 48000 px/s, `expDriver` returns 8.5, which
exceeds `maxSpeedCoef = 8`; in square-root mode (bit 14 of the time set) and at
the estimate 300000 px/s the normalised speed is 100, the exponent is `1/2`,
`pow` returns 10 and `expDriver` returns `2 * 0.5 * 10 = 10`, which exceeds
`maxSpeedCoef` as well. -/
theorem C24_curves_exceed_ceiling :
    (sampleEnvironment.CurrentTime &&& 16384 = 0 ∧ 0 ≤ fastPointerState.avgSpeedPerS ∧
      sampleEnvironment.params.maxSpeedCoef = 8 ∧
      expDriver sampleEnvironment fastPointerState = 17 / 2 ∧
      ¬ expDriver sampleEnvironment fastPointerState ≤ sampleEnvironment.params.maxSpeedCoef) ∧
    (¬ sqrtModeEnvironment.CurrentTime &&& 16384 = 0 ∧ 0 ≤ veryFastPointerState.avgSpeedPerS ∧
      sqrtModeEnvironment.params.maxSpeedCoef = 8 ∧
      veryFastPointerState.avgSpeedPerS / sqrtModeEnvironment.params.midSpeed = 100 ∧
      sqrtModeEnvironment.params.midSpeedCoef - sqrtModeEnvironment.params.minSpeedCoef = 1 / 2 ∧
      sqrtModeEnvironment.pow 100 (1 / 2) = 10 ∧
      expDriver sqrtModeEnvironment veryFastPointerState = 10 ∧
      ¬ expDriver sqrtModeEnvironment veryFastPointerState ≤
        sqrtModeEnvironment.params.maxSpeedCoef) := by
  have e : expDriver sampleEnvironment fastPointerState = 17 / 2 := by
    rw [expDriver_linear _ _ (by decide)]
    norm_num [sampleEnvironment, defaultExpDriverParams, fastPointerState, sampleState]
  have hn : veryFastPointerState.avgSpeedPerS / sqrtModeEnvironment.params.midSpeed = 100 := by
    norm_num [veryFastPointerState, sampleState, sqrtModeEnvironment, sampleEnvironment,
      defaultExpDriverParams]
  have hd : sqrtModeEnvironment.params.midSpeedCoef - sqrtModeEnvironment.params.minSpeedCoef
      = 1 / 2 := by
    norm_num [sqrtModeEnvironment, sampleEnvironment, defaultExpDriverParams]
  have hp : sqrtModeEnvironment.pow 100 (1 / 2) = 10 := by
    show integerSqrtPow 100 (1 / 2) = 10
    unfold integerSqrtPow
    rw [if_pos rfl]
    have h1 : ⌊(100 : ℚ)⌋₊ = 10 * 10 := by
      have h0 : ⌊((100 : ℕ) : ℚ)⌋₊ = 100 := Nat.floor_natCast 100
      rw [show (100 : ℚ) = ((100 : ℕ) : ℚ) by norm_num, h0]
    rw [h1, Nat.sqrt_eq]
    norm_num
  have e2 : expDriver sqrtModeEnvironment veryFastPointerState = 10 := by
    rw [expDriver_power _ _ (by decide), hn, hd, hp]
    norm_num [sqrtModeEnvironment, sampleEnvironment, defaultExpDriverParams]
  refine ⟨⟨by decide, by norm_num [fastPointerState, sampleState], rfl, e, ?_⟩,
    ⟨by decide, by norm_num [veryFastPointerState, sampleState], rfl, hn, hd, hp, e2, ?_⟩⟩
  · rw [e]
    norm_num [sampleEnvironment, defaultExpDriverParams]
  · rw [e2]
    norm_num [sqrtModeEnvironment, sampleEnvironment, defaultExpDriverParams]

/-- C24, amended. Coefficient without ceiling: the value of `expDriver` does not
depend on `maxSpeedCoef`.  For a non-negative speed estimate and tuning values with
`0 ≤ minSpeedCoef < midSpeedCoef` and `midSpeed > 0` (the start-up values among
them), and `pow` non-negative on non-negative bases, the coefficient is
non-negative on both curves.  The linear curve returns a coefficient that is at
least `minSpeedCoef` and that is at most `maxSpeedCoef` exactly when the speed
estimate is at most
`midSpeed * (maxSpeedCoef - minSpeedCoef) / (midSpeedCoef - minSpeedCoef)`; the
power curve (with `minSpeedCoef > 0`) returns a coefficient that is at most
`maxSpeedCoef` exactly when
`pow (avgSpeedPerS / midSpeed) (midSpeedCoef - minSpeedCoef)` is at most
`maxSpeedCoef / (2 * minSpeedCoef)`. -/
theorem C24_coefficient_without_ceiling (env : TickEnvironment) (s : MouseControllerState)
    (hmin : 0 ≤ env.params.minSpeedCoef) (hmid : 0 < env.params.midSpeed)
    (hcoef : env.params.minSpeedCoef < env.params.midSpeedCoef)
    (hs : 0 ≤ s.avgSpeedPerS)
    (hpow : ∀ x y : ℚ, 0 ≤ x → 0 ≤ env.pow x y) :
    0 ≤ expDriver env s ∧
    (env.CurrentTime &&& 16384 = 0 →
      env.params.minSpeedCoef ≤ expDriver env s ∧
      (expDriver env s ≤ env.params.maxSpeedCoef ↔ s.avgSpeedPerS ≤ ceilingSpeed env.params)) ∧
    (¬ env.CurrentTime &&& 16384 = 0 → 0 < env.params.minSpeedCoef →
      (expDriver env s ≤ env.params.maxSpeedCoef ↔
        env.pow (s.avgSpeedPerS / env.params.midSpeed)
          (env.params.midSpeedCoef - env.params.minSpeedCoef) ≤
            env.params.maxSpeedCoef / (2 * env.params.minSpeedCoef))) ∧
    (∀ ceiling : ℚ,
      expDriver { env with params := { env.params with maxSpeedCoef := ceiling } } s =
        expDriver env s) := by
  have hd : 0 < env.params.midSpeedCoef - env.params.minSpeedCoef := sub_pos.mpr hcoef
  have hn : 0 ≤ s.avgSpeedPerS / env.params.midSpeed := div_nonneg hs hmid.le
  have hprod : 0 ≤ s.avgSpeedPerS / env.params.midSpeed *
      (env.params.midSpeedCoef - env.params.minSpeedCoef) := mul_nonneg hn hd.le
  refine ⟨?_, fun hlin => ?_, fun hsq hpos => ?_, fun _ => rfl⟩
  · by_cases hlin : env.CurrentTime &&& 16384 = 0
    · rw [expDriver_linear env s hlin]
      linarith
    · rw [expDriver_power env s hlin]
      exact mul_nonneg (mul_nonneg (by norm_num) hmin) (hpow _ _ hn)
  · rw [expDriver_linear env s hlin]
    refine ⟨by linarith, ?_⟩
    unfold ceilingSpeed
    rw [le_div_iff₀ hd, ← le_sub_iff_add_le', div_mul_eq_mul_div, div_le_iff₀ hmid]
    constructor <;> intro h <;> linarith
  · rw [expDriver_power env s hsq]
    have h2 : 0 < 2 * env.params.minSpeedCoef := by linarith
    rw [le_div_iff₀ h2]
    constructor <;> intro h <;> linarith

/-- Worked instance of C24: with the start-up values the bound on the speed
estimate of the linear curve is 45000 px/s; on the square-root curve at
300000 px/s the coefficient is non-negative and the ceiling is decided by the
value of `pow`. -/
theorem C24_coefficient_without_ceiling_witness :
    (0 ≤ expDriver sampleEnvironment fastPointerState ∧
      sampleEnvironment.params.minSpeedCoef ≤ expDriver sampleEnvironment fastPointerState ∧
      (expDriver sampleEnvironment fastPointerState ≤ sampleEnvironment.params.maxSpeedCoef ↔
        fastPointerState.avgSpeedPerS ≤ ceilingSpeed sampleEnvironment.params)) ∧
    ceilingSpeed sampleEnvironment.params = 45000 ∧
    (0 ≤ expDriver sqrtModeEnvironment veryFastPointerState ∧
      (expDriver sqrtModeEnvironment veryFastPointerState ≤
          sqrtModeEnvironment.params.maxSpeedCoef ↔
        sqrtModeEnvironment.pow
          (veryFastPointerState.avgSpeedPerS / sqrtModeEnvironment.params.midSpeed)
          (sqrtModeEnvironment.params.midSpeedCoef - sqrtModeEnvironment.params.minSpeedCoef) ≤
            sqrtModeEnvironment.params.maxSpeedCoef /
              (2 * sqrtModeEnvironment.params.minSpeedCoef))) := by
  have h1 := C24_coefficient_without_ceiling sampleEnvironment fastPointerState
      (by norm_num [sampleEnvironment, defaultExpDriverParams])
      (by norm_num [sampleEnvironment, defaultExpDriverParams])
      (by norm_num [sampleEnvironment, defaultExpDriverParams])
      (by norm_num [fastPointerState, sampleState])
      (fun x _ hx => hx)
  have h2 := C24_coefficient_without_ceiling sqrtModeEnvironment veryFastPointerState
      (by norm_num [sqrtModeEnvironment, sampleEnvironment, defaultExpDriverParams])
      (by norm_num [sqrtModeEnvironment, sampleEnvironment, defaultExpDriverParams])
      (by norm_num [sqrtModeEnvironment, sampleEnvironment, defaultExpDriverParams])
      (by norm_num [veryFastPointerState, sampleState])
      integerSqrtPow_nonneg
  exact ⟨⟨h1.1, (h1.2.1 (by decide)).1, (h1.2.1 (by decide)).2⟩,
    by norm_num [ceilingSpeed, sampleEnvironment, defaultExpDriverParams],
    h2.1, h2.2.2.1 (by decide)
      (by norm_num [sqrtModeEnvironment, sampleEnvironment, defaultExpDriverParams])⟩

/-- C25, counterexample: a toggled counter that holds 255 is 0, not 256, after
`ToggleMouseState (MoveUp, true)`: the 8-bit counter wraps. -/
theorem C25_toggle_counter_wraps :
    saturatedGlobals.ToggledMouseStates MoveUp = 255 ∧
    (ToggleMouseState MoveUp true saturatedGlobals).ToggledMouseStates MoveUp = 0 ∧
    (ToggleMouseState MoveUp true saturatedGlobals).ToggledMouseStates MoveUp
      ≠ saturatedGlobals.ToggledMouseStates MoveUp + 1 := by
  have h := (toggleMouseState_activate MoveUp saturatedGlobals).1
  have e : (ToggleMouseState MoveUp true saturatedGlobals).ToggledMouseStates MoveUp = 0 := by
    rw [h]; simp [saturatedGlobals]
  refine ⟨rfl, e, ?_⟩
  rw [e]
  decide

/-- C25, amended. Toggle counter: for every action code `a` and every counter
value, `ToggleMouseState (a, true)` increases `ToggledMouseStates[a]` by one
modulo 256, that is by exactly one when it is below 255; `ToggleMouseState
(a, false)` decreases it by exactly one when it is positive and leaves it 0 when
it is 0; the toggled counters of all other codes are unchanged by either
call. -/
theorem C25_toggle_counter (a : SerializedMouseAction) (g : Globals) :
    ((ToggleMouseState a true g).ToggledMouseStates a = (g.ToggledMouseStates a + 1) % 256 ∧
      (g.ToggledMouseStates a < 255 →
        (ToggleMouseState a true g).ToggledMouseStates a = g.ToggledMouseStates a + 1)) ∧
    ((g.ToggledMouseStates a > 0 →
        (ToggleMouseState a false g).ToggledMouseStates a + 1 = g.ToggledMouseStates a) ∧
      (g.ToggledMouseStates a = 0 →
        (ToggleMouseState a false g).ToggledMouseStates a = 0)) ∧
    (∀ (b : SerializedMouseAction) (activate : Bool), b ≠ a →
      (ToggleMouseState a activate g).ToggledMouseStates b = g.ToggledMouseStates b) := by
  have hact := (toggleMouseState_activate a g).1
  have hde := toggleMouseState_deactivate a g
  refine ⟨⟨?_, fun hlt => ?_⟩, ⟨fun hpos => ?_, fun hz => ?_⟩, ?_⟩
  · rw [hact, Function.update_same]
  · rw [hact, Function.update_same]
    exact Nat.mod_eq_of_lt (by omega)
  · rw [hde]
    simp only [Function.update_same, if_pos hpos]
    omega
  · rw [hde]
    simp only [Function.update_same, hz]
    rfl
  · intro b activate hb
    cases activate
    · rw [hde]
      exact Function.update_noteq hb _ _
    · rw [hact]
      exact Function.update_noteq hb _ _

/-- C26, counterexample: from the start-up globals, `ToggleMouseState (MoveUp,
true)` changes `ActiveMouseStates[MoveUp]` from 0 to 1. -/
theorem C26_activation_writes_active_counter :
    initialGlobals.ActiveMouseStates MoveUp = 0 ∧
    (ToggleMouseState MoveUp true initialGlobals).ActiveMouseStates MoveUp = 1 ∧
    (ToggleMouseState MoveUp true initialGlobals).ActiveMouseStates
      ≠ initialGlobals.ActiveMouseStates := by
  have h := (toggleMouseState_activate MoveUp initialGlobals).2
  have e : (ToggleMouseState MoveUp true initialGlobals).ActiveMouseStates MoveUp = 1 := by
    rw [h]; simp [initialGlobals]
  refine ⟨rfl, e, fun hc => ?_⟩
  rw [hc] at e
  exact absurd e (by decide)

/-- C26, amended. Writes to the active snapshot: `ToggleMouseState (a, false)`
leaves `ActiveMouseStates` as it is; `ToggleMouseState (a, true)` increments
`ActiveMouseStates[a]` (modulo 256) next to the toggled counter and leaves the
active counters of all other codes unchanged. -/
theorem C26_active_snapshot_writes (a : SerializedMouseAction) (g : Globals) :
    (ToggleMouseState a false g).ActiveMouseStates = g.ActiveMouseStates ∧
    (ToggleMouseState a true g).ActiveMouseStates a = (g.ActiveMouseStates a + 1) % 256 ∧
    (∀ b : SerializedMouseAction, b ≠ a →
      (ToggleMouseState a true g).ActiveMouseStates b = g.ActiveMouseStates b) := by
  have hact := (toggleMouseState_activate a g).2
  refine ⟨?_, ?_, fun b hb => ?_⟩
  · rw [toggleMouseState_deactivate a g]
  · rw [hact, Function.update_same]
  · rw [hact]
    exact Function.update_noteq hb _ _

/-- C27, counterexample: from rest with zero remainders, one tick of 20 ms with
`MoveUp` held leaves `ySum = -0.85`, outside `[0, 1)`. -/
theorem C27_negative_remainder_moving_up :
    moveUpStart.xSum = 0 ∧ moveUpStart.ySum = 0 ∧
    (processMouseKineticState moveUpOnly false 20 moveUpStart).ySum = -17 / 20 ∧
    ¬ (0 ≤ (processMouseKineticState moveUpOnly false 20 moveUpStart).ySum ∧
      (processMouseKineticState moveUpOnly false 20 moveUpStart).ySum < 1) := by
  have e : (processMouseKineticState moveUpOnly false 20 moveUpStart).ySum = -17 / 20 := by
    have h := scenarioTick1_eq
    unfold scenarioTick1 at h
    rw [h]
  refine ⟨rfl, rfl, e, ?_⟩
  rw [e]
  norm_num

/-- C27, amended. Signed carry: if both remainders have magnitude below one
before a call of `processMouseKineticState`, then after it `xSum` and `ySum` lie
in the open interval `(-1, 1)`; in a motion tick each remainder carries the sign
of the sum that was split: it is non-negative when that sum is non-negative and
non-positive when that sum is non-positive (motion to the left or upwards leaves
remainders in `(-1, 0]`). -/
theorem C27_remainder_keeps_sign (A : MouseStates) (C : Bool) (t : Nat)
    (k : mouse_kinetic_state_t) (hx : |k.xSum| < 1) (hy : |k.ySum| < 1) :
    ((-1 < (processMouseKineticState A C t k).xSum ∧
        (processMouseKineticState A C t k).xSum < 1) ∧
      (-1 < (processMouseKineticState A C t k).ySum ∧
        (processMouseKineticState A C t k).ySum < 1)) ∧
    (isMoveAction A k = true →
      ((0 ≤ integrateSumX A C t (rampSpeed t (preRamp A k)) →
          0 ≤ (processMouseKineticState A C t k).xSum) ∧
        (integrateSumX A C t (rampSpeed t (preRamp A k)) ≤ 0 →
          (processMouseKineticState A C t k).xSum ≤ 0)) ∧
      ((0 ≤ integrateSumY A C t (rampSpeed t (preRamp A k)) →
          0 ≤ (processMouseKineticState A C t k).ySum) ∧
        (integrateSumY A C t (rampSpeed t (preRamp A k)) ≤ 0 →
          (processMouseKineticState A C t k).ySum ≤ 0))) := by
  obtain ⟨h1, h2⟩ := process_abs_sums A C t k hx hy
  refine ⟨⟨abs_lt.mp h1, abs_lt.mp h2⟩, fun hm => ?_⟩
  rw [process_motion A C t k hm, integrate_xSum, integrate_ySum]
  refine ⟨⟨fun h => ?_, fun h => ?_⟩, ⟨fun h => ?_, fun h => ?_⟩⟩
  · split_ifs
    · exact le_rfl
    · exact modffFrac_nonneg h
  · split_ifs
    · exact le_rfl
    · exact modffFrac_nonpos h
  · split_ifs
    · exact le_rfl
    · exact modffFrac_nonneg h
  · split_ifs
    · exact le_rfl
    · exact modffFrac_nonpos h

/-- Worked instance of C27: the tick of the counterexample, in which both
remainders stay within `(-1, 1)`. -/
theorem C27_remainder_keeps_sign_witness :
    (|moveUpStart.xSum| < 1 ∧ |moveUpStart.ySum| < 1) ∧
    ((-1 < (processMouseKineticState moveUpOnly false 20 moveUpStart).xSum ∧
        (processMouseKineticState moveUpOnly false 20 moveUpStart).xSum < 1) ∧
      (-1 < (processMouseKineticState moveUpOnly false 20 moveUpStart).ySum ∧
        (processMouseKineticState moveUpOnly false 20 moveUpStart).ySum < 1)) :=
  ⟨⟨by norm_num [moveUpStart, MouseMoveState], by norm_num [moveUpStart, MouseMoveState]⟩,
    (C27_remainder_keeps_sign moveUpOnly false 20 moveUpStart
      (by norm_num [moveUpStart, MouseMoveState]) (by norm_num [moveUpStart, MouseMoveState])).1⟩

/-! ## Lemmas for idle axes and for the divisor of the speed estimate -/

theorem updateDirectionSigns_horizontal_idle (A : MouseStates) (k : mouse_kinetic_state_t)
    (hl : A k.leftState = 0) (hr : A k.rightState = 0)
    (hs : k.horizontalStateSign = -1 ∨ k.horizontalStateSign = 0 ∨ k.horizontalStateSign = 1) :
    (updateDirectionSigns A k).horizontalStateSign = 0 := by
  rw [updateDirectionSigns_horizontal]
  rcases hs with h | h | h <;> simp [h, hl, hr]

theorem updateDirectionSigns_vertical_idle (A : MouseStates) (k : mouse_kinetic_state_t)
    (hu : A k.upState = 0) (hd : A k.downState = 0)
    (hs : k.verticalStateSign = -1 ∨ k.verticalStateSign = 0 ∨ k.verticalStateSign = 1) :
    (updateDirectionSigns A k).verticalStateSign = 0 := by
  rw [updateDirectionSigns_vertical]
  rcases hs with h | h | h <;> simp [h, hu, hd]

theorem process_xOut_idle (A : MouseStates) (C : Bool) (t : Nat) (k : mouse_kinetic_state_t)
    (hl : A k.leftState = 0) (hr : A k.rightState = 0)
    (hs : k.horizontalStateSign = -1 ∨ k.horizontalStateSign = 0 ∨ k.horizontalStateSign = 1)
    (hsum : |k.xSum| < 1) (hout : k.xOut = 0) :
    (processMouseKineticState A C t k).xOut = 0 := by
  cases hm : isMoveAction A k
  · rw [process_rest_fields A C t k hm]
    exact hout
  · rw [process_motion A C t k hm]
    obtain ⟨c, T, hp⟩ := rampSpeed_preRamp_eq A t k
    show (integrate A C t (rampSpeed t (preRamp A k))).xOut = 0
    rw [integrate_xOut, hp]
    have hsign : (updateDirectionSigns A { k with currentSpeed := c, targetSpeed := T }
        ).horizontalStateSign = 0 :=
      updateDirectionSigns_horizontal_idle A _ hl hr hs
    have hint : modffInt (integrateSumX A C t { k with currentSpeed := c, targetSpeed := T })
        = 0 := by
      apply modffInt_eq_zero_of_abs_lt_one
      unfold integrateSumX
      rw [hsign]
      simp only [Int.cast_zero, mul_zero, add_zero]
      split_ifs
      · simp
      · exact hsum
    rw [hsign, hint]
    simp

theorem process_yOut_idle (A : MouseStates) (C : Bool) (t : Nat) (k : mouse_kinetic_state_t)
    (hu : A k.upState = 0) (hd : A k.downState = 0)
    (hs : k.verticalStateSign = -1 ∨ k.verticalStateSign = 0 ∨ k.verticalStateSign = 1)
    (hsum : |k.ySum| < 1) (hout : k.yOut = 0) :
    (processMouseKineticState A C t k).yOut = 0 := by
  cases hm : isMoveAction A k
  · rw [process_rest_fields A C t k hm]
    exact hout
  · rw [process_motion A C t k hm]
    obtain ⟨c, T, hp⟩ := rampSpeed_preRamp_eq A t k
    show (integrate A C t (rampSpeed t (preRamp A k))).yOut = 0
    rw [integrate_yOut, hp]
    have hsign : (updateDirectionSigns A { k with currentSpeed := c, targetSpeed := T }
        ).verticalStateSign = 0 :=
      updateDirectionSigns_vertical_idle A _ hu hd hs
    have hint : modffInt (integrateSumY A C t { k with currentSpeed := c, targetSpeed := T })
        = 0 := by
      apply modffInt_eq_zero_of_abs_lt_one
      unfold integrateSumY
      rw [hsign]
      simp only [Int.cast_zero, mul_zero, add_zero]
      split_ifs
      · simp
      · exact hsum
    rw [hsign, hint]
    simp

theorem uint32_sub_self (a : Nat) : uint32_sub a a = 0 := by
  unfold uint32_sub
  have h : a % 2 ^ 32 < 2 ^ 32 := Nat.mod_lt _ (by norm_num)
  rw [Nat.add_sub_cancel_left]
  exact Nat.mod_self _

theorem uint32_sub_ne_zero_iff (a b : Nat) :
    uint32_sub a b ≠ 0 ↔ a % 2 ^ 32 ≠ b % 2 ^ 32 := by
  unfold uint32_sub
  have ha : a % 2 ^ 32 < 2 ^ 32 := Nat.mod_lt _ (by norm_num)
  have hb : b % 2 ^ 32 < 2 ^ 32 := Nat.mod_lt _ (by norm_num)
  omega

/-- A nonzero sample sets the time stamp of the speed estimate to the current
time. -/
theorem recalculateSpeed_nonzero (env : TickEnvironment) (inx iny : Int)
    (s : MouseControllerState) (h : inx ≠ 0 ∨ iny ≠ 0) :
    (recalculateSpeed env inx iny s).speedLastUpdate = env.CurrentTime := by
  unfold recalculateSpeed
  rw [if_pos h]

theorem touchpadMotion_speedLastUpdate (env : TickEnvironment) (s : MouseControllerState) :
    (touchpadMotion env s).speedLastUpdate =
      (recalculateSpeed env s.TouchpadEvents.x s.TouchpadEvents.y s).speedLastUpdate := by
  unfold touchpadMotion
  simp only
  rw [expDriverEffect_frame]

theorem touchpadWheelX_speedLastUpdate (env : TickEnvironment) (s : MouseControllerState) :
    (touchpadWheelX env s).speedLastUpdate = s.speedLastUpdate ∧
    (touchpadWheelX env s).UhkModuleStates = s.UhkModuleStates := by
  unfold touchpadWheelX
  simp only
  split_ifs <;> exact ⟨rfl, rfl⟩

theorem touchpadWheelY_speedLastUpdate (env : TickEnvironment) (s : MouseControllerState) :
    (touchpadWheelY env s).speedLastUpdate = s.speedLastUpdate ∧
    (touchpadWheelY env s).UhkModuleStates = s.UhkModuleStates := by
  unfold touchpadWheelY
  simp only
  split_ifs <;> exact ⟨rfl, rfl⟩

theorem touchpadTaps_speedLastUpdate (env : TickEnvironment) (s : MouseControllerState) :
    (touchpadTaps env s).speedLastUpdate = s.speedLastUpdate ∧
    (touchpadTaps env s).UhkModuleStates = s.UhkModuleStates := by
  unfold touchpadTaps
  simp only
  split_ifs <;> exact ⟨rfl, rfl⟩

/-- After `processTouchpadActions` with a nonzero motion sample the time stamp
of the speed estimate is the current time. -/
theorem processTouchpadActions_speedLastUpdate (env : TickEnvironment)
    (s : MouseControllerState)
    (h : s.TouchpadEvents.x ≠ 0 ∨ s.TouchpadEvents.y ≠ 0) :
    (processTouchpadActions env s).speedLastUpdate = env.CurrentTime ∧
    (processTouchpadActions env s).UhkModuleStates = s.UhkModuleStates := by
  unfold processTouchpadActions
  rw [(touchpadTaps_speedLastUpdate env _).1, (touchpadWheelY_speedLastUpdate env _).1,
    (touchpadWheelX_speedLastUpdate env _).1, touchpadMotion_speedLastUpdate,
    recalculateSpeed_nonzero env _ _ s h,
    (touchpadTaps_speedLastUpdate env _).2, (touchpadWheelY_speedLastUpdate env _).2,
    (touchpadWheelX_speedLastUpdate env _).2, (touchpadMotion_fields env s).2.2]
  exact ⟨rfl, rfl⟩

/-! ## The claims, continued: phantom motion and the speed divisor -/

/-- C34. No phantom motion: for every kinetic state (move or scroll), every
stored axis sign (`-1`, `0` or `1`, possibly stale) and every tick, if neither
direction of an axis is active in `ActiveMouseStates`, the remainder of the axis
has magnitude below one and the output of the axis was 0 at the start of the
tick, then the output of that axis after `processMouseKineticState` is 0,
whatever the other axis does and also on the first scroll tick; and these
outputs are the values that the kinetic part of
`MouseController_ProcessMouseActions` writes to the report fields `x`, `y`,
`wheelX`, `wheelY`. -/
theorem C34_no_phantom_motion (A : MouseStates) (C : Bool) (t : Nat) (s : KineticTickState) :
    (∀ k : mouse_kinetic_state_t, A k.leftState = 0 → A k.rightState = 0 →
      (k.horizontalStateSign = -1 ∨ k.horizontalStateSign = 0 ∨ k.horizontalStateSign = 1) →
      |k.xSum| < 1 → k.xOut = 0 → (processMouseKineticState A C t k).xOut = 0) ∧
    (∀ k : mouse_kinetic_state_t, A k.upState = 0 → A k.downState = 0 →
      (k.verticalStateSign = -1 ∨ k.verticalStateSign = 0 ∨ k.verticalStateSign = 1) →
      |k.ySum| < 1 → k.yOut = 0 → (processMouseKineticState A C t k).yOut = 0) ∧
    (processKineticStates A C t s).ActiveUsbMouseReport.x =
      (processMouseKineticState A C t s.MouseMoveState).xOut ∧
    (processKineticStates A C t s).ActiveUsbMouseReport.y =
      (processMouseKineticState A C t s.MouseMoveState).yOut ∧
    (processKineticStates A C t s).ActiveUsbMouseReport.wheelX =
      (processMouseKineticState A C t s.MouseScrollState).xOut ∧
    (processKineticStates A C t s).ActiveUsbMouseReport.wheelY =
      (processMouseKineticState A C t s.MouseScrollState).yOut :=
  ⟨fun k hl hr hs hsum hout => process_xOut_idle A C t k hl hr hs hsum hout,
    fun k hu hd hs hsum hout => process_yOut_idle A C t k hu hd hs hsum hout,
    rfl, rfl, rfl, rfl⟩

/-- Worked instance of C34: `MoveUp` held with a stale horizontal sign `+1`, and
the first scroll tick with `ScrollDown` held and a stale horizontal sign `+1`:
the horizontal output is 0 in both. -/
theorem C34_no_phantom_motion_witness :
    isMoveAction moveUpOnly moveUpStaleRight = true ∧
    moveUpStaleRight.horizontalStateSign = 1 ∧
    (processMouseKineticState moveUpOnly false 20 moveUpStaleRight).xOut = 0 ∧
    (isMoveAction scrollDownOnly scrollRightLast = true ∧
      scrollRightLast.wasMoveAction = false ∧ scrollRightLast.horizontalStateSign = 1) ∧
    (processMouseKineticState scrollDownOnly false 10 scrollRightLast).xOut = 0 :=
  ⟨by decide, rfl,
    (C34_no_phantom_motion moveUpOnly false 20 initialTickState).1 moveUpStaleRight
      rfl rfl (Or.inr (Or.inr rfl)) (by norm_num [moveUpStaleRight, moveUpStart, MouseMoveState])
      rfl,
    ⟨by decide, rfl, rfl⟩,
    (C34_no_phantom_motion scrollDownOnly false 10 initialTickState).1 scrollRightLast
      rfl rfl (Or.inr (Or.inr rfl)) (by norm_num [scrollRightLast, MouseScrollState]) rfl⟩

/-- C35, failing input: in a tick at time 1000 in which the touchpad reports
`(3, 0)` and a trackball module reports `(2, 1)`, the touchpad's sample is
processed with the divisor 1000, and the module loop then hands the trackball's
nonzero sample to `recalculateSpeed` in a state whose divisor `diffMs` is 0:
the first call has set the time stamp to the current time, and the division of
the source has no guard. -/
theorem C35_second_sample_divides_by_zero :
    sampleEnvironment.touchpadConnected = true ∧
    (touchpadAndTrackballState.TouchpadEvents.x ≠ 0 ∧
      diffMs sampleEnvironment touchpadAndTrackballState = 1000) ∧
    (processModules sampleEnvironment afterTouchpad.UhkModuleStates afterTouchpad true).2.1
      = processTrackball sampleEnvironment trackballModule.pointerDelta afterTouchpad ∧
    (trackballModule.pointerDelta.x ≠ 0 ∧ diffMs sampleEnvironment afterTouchpad = 0) := by
  have h := processTouchpadActions_speedLastUpdate sampleEnvironment
    { touchpadAndTrackballState with
      kinetic := processKineticStates sampleEnvironment.ActiveMouseStates
        sampleEnvironment.CompensateDiagonalSpeed sampleEnvironment.mouseElapsedTime
        touchpadAndTrackballState.kinetic } (Or.inl (by decide))
  have hu : afterTouchpad.UhkModuleStates = [trackballModule] := h.2
  have ht : afterTouchpad.speedLastUpdate = sampleEnvironment.CurrentTime := h.1
  refine ⟨rfl, ⟨by decide, by decide⟩, ?_, by decide, ?_⟩
  · rw [hu]
    rfl
  · unfold diffMs
    rw [ht]
    exact uint32_sub_self _

end MouseController

namespace Postponer

/-! ## Lemmas on the postponer -/

theorem postponeNCycles_fields (K : PostponerConstants) (CurrentTime n : Nat)
    (st : PostponerState) :
    (PostponerCore_PostponeNCycles K CurrentTime n st).cyclesUntilActivation
        = MAX (n + 1) st.cyclesUntilActivation % 256 ∧
    (PostponerCore_PostponeNCycles K CurrentTime n st).bufferSize = st.bufferSize ∧
    (PostponerCore_PostponeNCycles K CurrentTime n st).bufferPosition = st.bufferPosition ∧
    (PostponerCore_PostponeNCycles K CurrentTime n st).current = st.current := by
  unfold PostponerCore_PostponeNCycles
  by_cases h : st.bufferSize = 0 ∧ st.cyclesUntilActivation = 0
  · rw [if_pos h]
    exact ⟨rfl, rfl, rfl, rfl⟩
  · rw [if_neg h]
    exact ⟨rfl, rfl, rfl, rfl⟩

theorem MAX_eq_max (a b : Nat) : MAX a b = max a b := by
  unfold MAX
  split_ifs with h
  · exact (max_eq_left (le_of_lt h)).symm
  · exact (max_eq_right (not_lt.mp h)).symm

theorem postponeNCycles_cycles (K : PostponerConstants) (CurrentTime n : Nat)
    (st : PostponerState) (hn : n < 255) (hc : st.cyclesUntilActivation ≤ 255) :
    (PostponerCore_PostponeNCycles K CurrentTime n st).cyclesUntilActivation
        = max (n + 1) st.cyclesUntilActivation := by
  rw [(postponeNCycles_fields K CurrentTime n st).1, MAX_eq_max]
  exact Nat.mod_eq_of_lt (by omega)

theorem finishCycle_fields (CurrentTime : Nat) (st : PostponerState) :
    (PostponerCore_FinishCycle CurrentTime st).cyclesUntilActivation
        = st.cyclesUntilActivation - 1 ∧
    (PostponerCore_FinishCycle CurrentTime st).bufferSize = st.bufferSize ∧
    (PostponerCore_FinishCycle CurrentTime st).bufferPosition = st.bufferPosition ∧
    (PostponerCore_FinishCycle CurrentTime st).buffer = st.buffer ∧
    (PostponerCore_FinishCycle CurrentTime st).current = st.current := by
  have e : st.cyclesUntilActivation - (if st.cyclesUntilActivation > 0 then 1 else 0)
      = st.cyclesUntilActivation - 1 := by
    split_ifs with h
    · rfl
    · omega
  unfold PostponerCore_FinishCycle
  simp only [e]
  split_ifs <;> exact ⟨rfl, rfl, rfl, rfl, rfl⟩

theorem POS_lt (K : PostponerConstants) (p i : Nat) (h : 0 < K.POSTPONER_BUFFER_SIZE) :
    POS K p i < K.POSTPONER_BUFFER_SIZE := Nat.mod_lt _ h

theorem POS_zero (K : PostponerConstants) (p : Nat) (h : p < K.POSTPONER_BUFFER_SIZE) :
    POS K p 0 = p := by
  unfold POS
  rw [Nat.add_zero, Nat.mod_eq_of_lt h]

theorem POS_ne (K : PostponerConstants) (p i j : Nat) (hij : i < j)
    (hj : j < K.POSTPONER_BUFFER_SIZE) : POS K p i ≠ POS K p j := by
  unfold POS
  intro h
  have hd : K.POSTPONER_BUFFER_SIZE ∣ (p + j) - (p + i) :=
    (Nat.modEq_iff_dvd' (by omega)).mp h
  have hle := Nat.le_of_dvd (by omega) hd
  omega

theorem POS_succ (K : PostponerConstants) (p i : Nat) :
    POS K (POS K p 1) i = POS K p (i + 1) := by
  unfold POS
  rw [Nat.mod_add_mod]
  congr 1
  omega

theorem queue_length (K : PostponerConstants) (st : PostponerState) :
    (queue K st).length = st.bufferSize := by
  unfold queue
  rw [List.length_map, List.length_range]

theorem queue_cons (K : PostponerConstants) (st : PostponerState) (n : Nat)
    (h : st.bufferSize = n + 1) :
    queue K st = st.buffer (POS K st.bufferPosition 0) ::
      (List.range n).map (fun i => st.buffer (POS K st.bufferPosition (i + 1))) := by
  unfold queue
  rw [h, List.range_succ_eq_map, List.map_cons, List.map_map]
  rfl

theorem queue_postpone (K : PostponerConstants) (CurrentTime n : Nat) (st : PostponerState) :
    queue K (PostponerCore_PostponeNCycles K CurrentTime n st) = queue K st := by
  unfold PostponerCore_PostponeNCycles
  by_cases h : st.bufferSize = 0 ∧ st.cyclesUntilActivation = 0
  · rw [if_pos h]
    unfold queue
    simp only [h.1, List.range_zero, List.map_nil]
  · rw [if_neg h]
    rfl

theorem queue_finishCycle (K : PostponerConstants) (CurrentTime : Nat) (st : PostponerState) :
    queue K (PostponerCore_FinishCycle CurrentTime st) = queue K st := by
  unfold PostponerCore_FinishCycle
  simp only
  split_ifs <;> rfl

theorem trackKeyEvent_spec (K : PostponerConstants) (CurrentTime keyState : Nat) (active : Bool)
    (st : PostponerState) (hS : K.POSTPONER_BUFFER_SIZE ≤ 255)
    (hfill : st.bufferSize < K.POSTPONER_BUFFER_SIZE) :
    queue K (PostponerCore_TrackKeyEvent K CurrentTime keyState active st) =
        queue K st ++ [{ time := CurrentTime, key := keyState, active := active }] ∧
    (PostponerCore_TrackKeyEvent K CurrentTime keyState active st).bufferPosition
        = st.bufferPosition ∧
    (PostponerCore_TrackKeyEvent K CurrentTime keyState active st).cyclesUntilActivation
        = st.cyclesUntilActivation ∧
    (PostponerCore_TrackKeyEvent K CurrentTime keyState active st).current = st.current := by
  have hpos : POS K st.bufferPosition st.bufferSize % 256 = POS K st.bufferPosition st.bufferSize :=
    Nat.mod_eq_of_lt (lt_of_lt_of_le (POS_lt K _ _ (by omega)) (by omega))
  have hsz : (st.bufferSize + 1) % 256 = st.bufferSize + 1 := Nat.mod_eq_of_lt (by omega)
  refine ⟨?_, rfl, rfl, rfl⟩
  unfold queue PostponerCore_TrackKeyEvent
  simp only [if_pos hfill, hsz]
  rw [List.range_succ, List.map_append, List.map_singleton, hpos, Function.update_same]
  congr 1
  apply List.map_congr_left
  intro i hi
  exact Function.update_noteq (POS_ne K _ i _ (List.mem_range.mp hi) hfill) _ _

theorem trackEvents_spec (K : PostponerConstants) (hS : K.POSTPONER_BUFFER_SIZE ≤ 255)
    (es : List postponer_buffer_record_type_t) :
    ∀ st : PostponerState, st.bufferSize + es.length ≤ K.POSTPONER_BUFFER_SIZE →
      queue K (trackEvents K es st) = queue K st ++ es ∧
      (trackEvents K es st).bufferPosition = st.bufferPosition ∧
      (trackEvents K es st).cyclesUntilActivation = st.cyclesUntilActivation ∧
      (trackEvents K es st).current = st.current := by
  induction es with
  | nil => intro st _; exact ⟨(List.append_nil _).symm, rfl, rfl, rfl⟩
  | cons e rest ih =>
    intro st h
    rw [List.length_cons] at h
    obtain ⟨t1, t2, t3, t4⟩ := trackKeyEvent_spec K e.time e.key e.active st hS (by omega)
    have hlen : (PostponerCore_TrackKeyEvent K e.time e.key e.active st).bufferSize
        = st.bufferSize + 1 := by
      rw [← queue_length K, t1, List.length_append, queue_length]
      rfl
    obtain ⟨i1, i2, i3, i4⟩ := ih (PostponerCore_TrackKeyEvent K e.time e.key e.active st)
      (by rw [hlen]; omega)
    unfold trackEvents
    rw [i1, i2, i3, i4, t1, t2, t3, t4, List.append_assoc]
    exact ⟨rfl, rfl, rfl, rfl⟩

theorem runPostponedEvents_replay (K : PostponerConstants) (CurrentTime : Nat)
    (st : PostponerState) (e : postponer_buffer_record_type_t)
    (q : List postponer_buffer_record_type_t) (hS : K.POSTPONER_BUFFER_SIZE ≤ 255)
    (hp : st.bufferPosition < K.POSTPONER_BUFFER_SIZE) (hq : queue K st = e :: q)
    (hc : st.cyclesUntilActivation = 0) :
    queue K (PostponerCore_RunPostponedEvents K CurrentTime st) = q ∧
    (PostponerCore_RunPostponedEvents K CurrentTime st).current
        = Function.update st.current e.key e.active ∧
    (PostponerCore_RunPostponedEvents K CurrentTime st).cyclesUntilActivation = 2 ∧
    (PostponerCore_RunPostponedEvents K CurrentTime st).bufferPosition
        < K.POSTPONER_BUFFER_SIZE := by
  have hlen : st.bufferSize = q.length + 1 := by
    rw [← queue_length K, hq, List.length_cons]
  rw [queue_cons K st q.length hlen, POS_zero K _ hp] at hq
  obtain ⟨he, hq⟩ := List.cons.inj hq
  have hcond : st.bufferSize ≠ 0 ∧
      (st.cyclesUntilActivation = 0 ∨ st.bufferSize > K.POSTPONER_BUFFER_MAX_FILL) :=
    ⟨by omega, Or.inl hc⟩
  have hpos : POS K st.bufferPosition 1 % 256 = POS K st.bufferPosition 1 :=
    Nat.mod_eq_of_lt (lt_of_lt_of_le (POS_lt K _ _ (by omega)) (by omega))
  unfold PostponerCore_RunPostponedEvents
  rw [if_pos hcond]
  simp only
  obtain ⟨f1, f2, f3, f4⟩ := postponeNCycles_fields K CurrentTime 1
    (consumeEvent K 1 { st with
      current := Function.update st.current (st.buffer st.bufferPosition).key
        (st.buffer st.bufferPosition).active })
  rw [queue_postpone, f1, f3, f4]
  refine ⟨?_, ?_, ?_, ?_⟩
  · unfold queue consumeEvent
    simp only [hpos, hlen, POS_succ]
    rw [if_neg (by omega), Nat.add_sub_cancel]
    exact hq
  · rw [← he]; rfl
  · show MAX (1 + 1) st.cyclesUntilActivation % 256 = 2
    rw [hc]; rfl
  · show POS K st.bufferPosition 1 % 256 < K.POSTPONER_BUFFER_SIZE
    rw [hpos]
    exact POS_lt K _ _ (by omega)

theorem updateCycle_replay (K : PostponerConstants) (CurrentTime : Nat)
    (st : PostponerState) (e : postponer_buffer_record_type_t)
    (q : List postponer_buffer_record_type_t) (hS : K.POSTPONER_BUFFER_SIZE ≤ 255)
    (hp : st.bufferPosition < K.POSTPONER_BUFFER_SIZE) (hq : queue K st = e :: q)
    (hc : st.cyclesUntilActivation = 0) :
    queue K (updateCycle K CurrentTime st) = q ∧
    (updateCycle K CurrentTime st).current = Function.update st.current e.key e.active ∧
    (updateCycle K CurrentTime st).cyclesUntilActivation = 1 ∧
    (updateCycle K CurrentTime st).bufferPosition < K.POSTPONER_BUFFER_SIZE := by
  obtain ⟨r1, r2, r3, r4⟩ := runPostponedEvents_replay K CurrentTime st e q hS hp hq hc
  obtain ⟨f1, -, f3, -, f5⟩ :=
    finishCycle_fields CurrentTime (PostponerCore_RunPostponedEvents K CurrentTime st)
  unfold updateCycle
  rw [queue_finishCycle, f1, f3, f5, r1, r2, r3]
  exact ⟨rfl, rfl, rfl, r4⟩

theorem updateCycle_wait (K : PostponerConstants) (CurrentTime : Nat)
    (st : PostponerState)
    (hq : st.bufferSize = 0 ∨
      (st.cyclesUntilActivation ≠ 0 ∧ st.bufferSize ≤ K.POSTPONER_BUFFER_MAX_FILL)) :
    queue K (updateCycle K CurrentTime st) = queue K st ∧
    (updateCycle K CurrentTime st).current = st.current ∧
    (updateCycle K CurrentTime st).cyclesUntilActivation = st.cyclesUntilActivation - 1 ∧
    (updateCycle K CurrentTime st).bufferPosition = st.bufferPosition := by
  have hcond : ¬ (st.bufferSize ≠ 0 ∧
      (st.cyclesUntilActivation = 0 ∨ st.bufferSize > K.POSTPONER_BUFFER_MAX_FILL)) := by
    rintro ⟨h1, h2⟩
    rcases hq with hq | ⟨hq1, hq2⟩
    · exact h1 hq
    · rcases h2 with h2 | h2
      · exact hq1 h2
      · omega
  have hrun : PostponerCore_RunPostponedEvents K CurrentTime st = st := by
    unfold PostponerCore_RunPostponedEvents
    rw [if_neg hcond]
  obtain ⟨f1, -, f3, -, f5⟩ := finishCycle_fields CurrentTime st
  unfold updateCycle
  rw [hrun, queue_finishCycle, f1, f3, f5]
  exact ⟨rfl, rfl, rfl, rfl⟩

theorem updateCycles_spec (K : PostponerConstants) (hS : K.POSTPONER_BUFFER_SIZE ≤ 255)
    (ts : List Nat) :
    ∀ (st : PostponerState) (q : List postponer_buffer_record_type_t),
      st.bufferPosition < K.POSTPONER_BUFFER_SIZE → queue K st = q →
      q.length ≤ K.POSTPONER_BUFFER_MAX_FILL → st.cyclesUntilActivation ≤ 1 →
      queue K (updateCycles K ts st)
          = q.drop ((ts.length + 1 - st.cyclesUntilActivation) / 2) ∧
      (updateCycles K ts st).current
          = replay (q.take ((ts.length + 1 - st.cyclesUntilActivation) / 2)) st.current := by
  induction ts with
  | nil =>
    intro st q _ hq _ hc
    have h0 : (([] : List Nat).length + 1 - st.cyclesUntilActivation) / 2 = 0 := by
      rw [List.length_nil]; omega
    rw [h0, List.drop_zero, List.take_zero]
    exact ⟨hq, rfl⟩
  | cons t rest ih =>
    intro st q hp hq hfill hc
    rw [List.length_cons]
    unfold updateCycles
    rcases Nat.eq_zero_or_pos st.cyclesUntilActivation with h0 | hpos
    · cases q with
      | nil =>
        have hsize : st.bufferSize = 0 := by rw [← queue_length K, hq]; rfl
        obtain ⟨w1, w2, w3, w4⟩ := updateCycle_wait K t st (Or.inl hsize)
        obtain ⟨i1, i2⟩ := ih (updateCycle K t st) [] (by rw [w4]; exact hp)
          (by rw [w1, hq]) (Nat.zero_le _) (by rw [w3]; omega)
        rw [i1, i2, w2]
        simp only [List.drop_nil, List.take_nil]
        exact ⟨trivial, trivial⟩
      | cons e q1 =>
        obtain ⟨r1, r2, r3, r4⟩ := updateCycle_replay K t st e q1 hS hp hq h0
        obtain ⟨i1, i2⟩ := ih (updateCycle K t st) q1 r4 r1
          (by rw [List.length_cons] at hfill; omega) (by rw [r3])
        have hn : (rest.length + 1 + 1 - st.cyclesUntilActivation) / 2
            = (rest.length + 1 - (updateCycle K t st).cyclesUntilActivation) / 2 + 1 := by
          rw [r3, h0]; omega
        rw [i1, i2, hn, r2, List.drop_succ_cons, List.take_succ_cons]
        exact ⟨rfl, rfl⟩
    · have h1 : st.cyclesUntilActivation = 1 := by omega
      have hsize : st.bufferSize ≤ K.POSTPONER_BUFFER_MAX_FILL := by
        rw [← queue_length K, hq]; exact hfill
      obtain ⟨w1, w2, w3, w4⟩ := updateCycle_wait K t st (Or.inr ⟨by omega, hsize⟩)
      obtain ⟨i1, i2⟩ := ih (updateCycle K t st) q (by rw [w4]; exact hp)
        (by rw [w1, hq]) hfill (by rw [w3]; omega)
      have hn : (rest.length + 1 + 1 - st.cyclesUntilActivation) / 2
          = (rest.length + 1 - (updateCycle K t st).cyclesUntilActivation) / 2 := by
        rw [w3, h1]; omega
      rw [i1, i2, hn, w2]
      exact ⟨rfl, rfl⟩

theorem finishCycles_fields (ts : List Nat) :
    ∀ st : PostponerState,
      (finishCycles ts st).cyclesUntilActivation = st.cyclesUntilActivation - ts.length ∧
      (finishCycles ts st).bufferSize = st.bufferSize := by
  induction ts with
  | nil => intro st; exact ⟨rfl, rfl⟩
  | cons t rest ih =>
    intro st
    obtain ⟨h1, h2⟩ := ih (PostponerCore_FinishCycle t st)
    obtain ⟨f1, f2, -⟩ := finishCycle_fields t st
    unfold finishCycles
    rw [h1, h2, f1, f2, List.length_cons]
    exact ⟨by omega, rfl⟩

/-! ## The claims on the postponer -/

/-- C28, the code at the failing input: `PostponerCore_PostponeNCycles (255)`
stores `256` in the 8-bit counter, which keeps 0.  A postponement of five
cycles is cancelled and the postponer is not active after the call; from the
idle postponer the counter stays 0 as well. -/
theorem C28_request_of_255_cycles_cancels :
    postponedFive.cyclesUntilActivation = 5 ∧
    (PostponerCore_PostponeNCycles sampleConstants 1000 255
      postponedFive).cyclesUntilActivation = 0 ∧
    PostponerCore_IsActive (PostponerCore_PostponeNCycles sampleConstants 1000 255
      postponedFive) = false ∧
    (PostponerCore_PostponeNCycles sampleConstants 1000 255
      idlePostponer).cyclesUntilActivation = 0 := by
  refine ⟨rfl, ?_, ?_, ?_⟩
  · rw [(postponeNCycles_fields _ _ _ _).1]; decide
  · unfold PostponerCore_IsActive
    rw [(postponeNCycles_fields _ _ _ _).1, (postponeNCycles_fields _ _ _ _).2.1]; decide
  · rw [(postponeNCycles_fields _ _ _ _).1]; decide

/-- C29. Postponement length: starting from an idle postponer (empty buffer,
`cyclesUntilActivation = 0`) and with no events tracked, after
`PostponerCore_PostponeNCycles (n)` with `n < 255` the postponer is active after
`k` calls of `PostponerCore_FinishCycle` for every `k ≤ n` and is not active
after `n + 1` calls, at whatever times the calls are made. -/
theorem C29_postponement_length (K : PostponerConstants) (CurrentTime n : Nat)
    (st : PostponerState) (ts : List Nat)
    (hsize : st.bufferSize = 0) (hidle : st.cyclesUntilActivation = 0) (hn : n < 255) :
    (ts.length ≤ n →
      PostponerCore_IsActive
        (finishCycles ts (PostponerCore_PostponeNCycles K CurrentTime n st)) = true) ∧
    (ts.length = n + 1 →
      PostponerCore_IsActive
        (finishCycles ts (PostponerCore_PostponeNCycles K CurrentTime n st)) = false) := by
  obtain ⟨h1, h2⟩ := finishCycles_fields ts (PostponerCore_PostponeNCycles K CurrentTime n st)
  have hc := postponeNCycles_cycles K CurrentTime n st hn (by omega)
  have hb := (postponeNCycles_fields K CurrentTime n st).2.1
  rw [hc, hidle] at h1
  rw [hb, hsize] at h2
  unfold PostponerCore_IsActive
  rw [h1, h2]
  constructor
  · intro h
    simp only [gt_iff_lt, lt_self_iff_false, decide_False, Bool.false_or, decide_eq_true_eq]
    omega
  · intro h
    simp only [gt_iff_lt, lt_self_iff_false, decide_False, Bool.false_or, decide_eq_false_iff_not]
    omega

/-- Worked instance of C29: `n = 1` covers this cycle and the next one, `n = 0`
only the rest of this cycle. -/
theorem C29_postponement_length_witness :
    (PostponerCore_IsActive
        (finishCycles [] (PostponerCore_PostponeNCycles sampleConstants 1000 1 idlePostponer))
        = true ∧
      PostponerCore_IsActive
        (finishCycles [1001] (PostponerCore_PostponeNCycles sampleConstants 1000 1 idlePostponer))
        = true ∧
      PostponerCore_IsActive
        (finishCycles [1001, 1002]
          (PostponerCore_PostponeNCycles sampleConstants 1000 1 idlePostponer)) = false) ∧
    (PostponerCore_IsActive
        (finishCycles [] (PostponerCore_PostponeNCycles sampleConstants 1000 0 idlePostponer))
        = true ∧
      PostponerCore_IsActive
        (finishCycles [1001] (PostponerCore_PostponeNCycles sampleConstants 1000 0 idlePostponer))
        = false) :=
  ⟨⟨(C29_postponement_length sampleConstants 1000 1 idlePostponer [] rfl rfl (by decide)).1
      (by decide),
    (C29_postponement_length sampleConstants 1000 1 idlePostponer [1001] rfl rfl (by decide)).1
      (by decide),
    (C29_postponement_length sampleConstants 1000 1 idlePostponer [1001, 1002] rfl rfl
      (by decide)).2 rfl⟩,
   ⟨(C29_postponement_length sampleConstants 1000 0 idlePostponer [] rfl rfl (by decide)).1
      (by decide),
    (C29_postponement_length sampleConstants 1000 0 idlePostponer [1001] rfl rfl (by decide)).2
      rfl⟩⟩

/-- C30. Replay order and pace: let `k` events be queued by
`PostponerCore_TrackKeyEvent` into an empty buffer (`k` at most
`POSTPONER_BUFFER_MAX_FILL` and at most the buffer size, which is at most 255,
the fill level being a `uint8_t`), with
`cyclesUntilActivation = 0`.  The queue then holds the events in the order they
were tracked, and after `m` cycles of `PostponerCore_RunPostponedEvents`;
`PostponerCore_FinishCycle` exactly the first `min k ((m + 1) / 2)` events have
been replayed, in that order, each by writing its recorded flag into the field
`current` of its recorded key: one event in each of the cycles 1, 3, ...,
`2k - 1`, none in the even cycles, and the buffer is empty after cycle
`2k - 1`. -/
theorem C30_replay_order_and_pace (K : PostponerConstants) (st : PostponerState)
    (events : List postponer_buffer_record_type_t) (cycleTimes : List Nat)
    (hS : K.POSTPONER_BUFFER_SIZE ≤ 255)
    (hp : st.bufferPosition < K.POSTPONER_BUFFER_SIZE)
    (hempty : st.bufferSize = 0) (hidle : st.cyclesUntilActivation = 0)
    (hk : events.length ≤ K.POSTPONER_BUFFER_MAX_FILL)
    (hfit : events.length ≤ K.POSTPONER_BUFFER_SIZE) :
    queue K (trackEvents K events st) = events ∧
    (updateCycles K cycleTimes (trackEvents K events st)).current
        = replay (events.take ((cycleTimes.length + 1) / 2)) st.current ∧
    queue K (updateCycles K cycleTimes (trackEvents K events st))
        = events.drop ((cycleTimes.length + 1) / 2) ∧
    (updateCycles K cycleTimes (trackEvents K events st)).bufferSize
        = events.length - (cycleTimes.length + 1) / 2 ∧
    (cycleTimes.length + 1 = 2 * events.length →
      (updateCycles K cycleTimes (trackEvents K events st)).bufferSize = 0) := by
  have hq0 : queue K st = [] := by
    unfold queue; rw [hempty]; rfl
  obtain ⟨t1, t2, t3, t4⟩ := trackEvents_spec K hS events st (by omega)
  rw [hq0, List.nil_append] at t1
  obtain ⟨u1, u2⟩ := updateCycles_spec K hS cycleTimes (trackEvents K events st) events
    (by rw [t2]; exact hp) t1 hk (by rw [t3, hidle]; exact Nat.zero_le 1)
  rw [t3, hidle, Nat.sub_zero] at u1 u2
  rw [t4] at u2
  have hsize : (updateCycles K cycleTimes (trackEvents K events st)).bufferSize
      = events.length - (cycleTimes.length + 1) / 2 := by
    rw [← queue_length K, u1, List.length_drop]
  refine ⟨t1, u2, u1, hsize, fun h => ?_⟩
  rw [hsize]
  omega

/-- Worked instance of C30: three events (key 7 pressed, key 9 pressed, key 7
released): after cycle 1 only key 7 is pressed, cycle 2 replays nothing, and
after cycle 5 key 7 is released, key 9 is pressed and the buffer is empty. -/
theorem C30_replay_order_and_pace_witness :
    queue sampleConstants (trackEvents sampleConstants sampleEvents idlePostponer)
        = sampleEvents ∧
    ((updateCycles sampleConstants [20] (trackEvents sampleConstants sampleEvents
        idlePostponer)).current 7 = true ∧
      (updateCycles sampleConstants [20] (trackEvents sampleConstants sampleEvents
        idlePostponer)).current 9 = false ∧
      (updateCycles sampleConstants [20] (trackEvents sampleConstants sampleEvents
        idlePostponer)).bufferSize = 2) ∧
    ((updateCycles sampleConstants [20, 21] (trackEvents sampleConstants sampleEvents
        idlePostponer)).current 9 = false ∧
      (updateCycles sampleConstants [20, 21] (trackEvents sampleConstants sampleEvents
        idlePostponer)).bufferSize = 2) ∧
    ((updateCycles sampleConstants [20, 21, 22, 23, 24] (trackEvents sampleConstants
        sampleEvents idlePostponer)).current 7 = false ∧
      (updateCycles sampleConstants [20, 21, 22, 23, 24] (trackEvents sampleConstants
        sampleEvents idlePostponer)).current 9 = true ∧
      (updateCycles sampleConstants [20, 21, 22, 23, 24] (trackEvents sampleConstants
        sampleEvents idlePostponer)).bufferSize = 0) := by
  have h1 := C30_replay_order_and_pace sampleConstants idlePostponer sampleEvents [20]
    (by decide) (by decide) rfl rfl (by decide) (by decide)
  have h2 := C30_replay_order_and_pace sampleConstants idlePostponer sampleEvents [20, 21]
    (by decide) (by decide) rfl rfl (by decide) (by decide)
  have h5 := C30_replay_order_and_pace sampleConstants idlePostponer sampleEvents
    [20, 21, 22, 23, 24] (by decide) (by decide) rfl rfl (by decide) (by decide)
  refine ⟨h1.1, ⟨?_, ?_, ?_⟩, ⟨?_, ?_⟩, ⟨?_, ?_, ?_⟩⟩
  · rw [h1.2.1]; rfl
  · rw [h1.2.1]; rfl
  · rw [h1.2.2.2.1]; rfl
  · rw [h2.2.1]; rfl
  · rw [h2.2.2.2.1]; rfl
  · rw [h5.2.1]; rfl
  · rw [h5.2.1]; rfl
  · exact h5.2.2.2.2 rfl

/-! ## Lemmas on tracking at a full buffer and on the queries -/

theorem trackKeyEvent_bufferSize (K : PostponerConstants) (CurrentTime keyState : Nat)
    (active : Bool) (st : PostponerState) :
    (PostponerCore_TrackKeyEvent K CurrentTime keyState active st).bufferSize =
      if st.bufferSize < K.POSTPONER_BUFFER_SIZE then (st.bufferSize + 1) % 256
      else st.bufferSize := rfl

theorem fullPostponer_queue :
    queue smallConstants fullPostponer = fourEvents ∧
    fullPostponer.bufferSize = smallConstants.POSTPONER_BUFFER_SIZE := by
  have h := trackEvents_spec smallConstants (by decide) fourEvents idlePostponer (by decide)
  have hq : queue smallConstants fullPostponer = fourEvents := by
    unfold fullPostponer
    rw [h.1]
    rfl
  refine ⟨hq, ?_⟩
  rw [← queue_length smallConstants, hq]
  rfl

theorem count_active_succ (K : PostponerConstants) (st : PostponerState) (i : Nat) :
    Nat.count (fun j => (queueRecord K st j).active = true) (i + 1) =
      Nat.count (fun j => (queueRecord K st j).active = true) i +
        (if (queueRecord K st i).active = true then 1 else 0) :=
  Nat.count_succ _ _

theorem count_active_mono (K : PostponerConstants) (st : PostponerState) {i j : Nat}
    (h : i ≤ j) :
    Nat.count (fun j => (queueRecord K st j).active = true) i ≤
      Nat.count (fun j => (queueRecord K st j).active = true) j :=
  Nat.count_monotone _ h

theorem getPendingKeypressIdxLoop_found (K : PostponerConstants) (st : PostponerState) :
    ∀ (r i n j : Nat), i ≤ j → j < i + r → i + r ≤ 256 →
      (queueRecord K st j).active = true →
      Nat.count (fun j => (queueRecord K st j).active = true) j =
        Nat.count (fun j => (queueRecord K st j).active = true) i + n →
      getPendingKeypressIdxLoop K st r i n = j := by
  intro r
  induction r with
  | zero => intro i n j h1 h2; omega
  | succ r ih =>
    intro i n j h1 h2 h3 ha hc
    have hs := count_active_succ K st i
    unfold getPendingKeypressIdxLoop
    by_cases hi : (queueRecord K st i).active = true
    · rw [if_pos hi] at hs
      rw [if_pos (show (st.buffer (POS K st.bufferPosition i)).active = true from hi)]
      by_cases hn : n = 0
      · rw [if_pos hn]
        have hij : j = i := by
          by_contra hne
          have hm := count_active_mono K st (show i + 1 ≤ j by omega)
          omega
        rw [hij]
        exact Nat.mod_eq_of_lt (by omega)
      · rw [if_neg hn]
        have hij : i + 1 ≤ j := by
          by_contra hne
          have hij : j = i := by omega
          rw [hij] at hc
          omega
        exact ih (i + 1) (n - 1) j hij (by omega) (by omega) ha (by omega)
    · rw [if_neg hi] at hs
      rw [if_neg (show ¬ (st.buffer (POS K st.bufferPosition i)).active = true from hi)]
      have hij : i + 1 ≤ j := by
        by_contra hne
        have hij : j = i := by omega
        rw [hij] at ha
        exact hi ha
      exact ih (i + 1) n j hij (by omega) (by omega) ha (by omega)

theorem getPendingKeypressIdxLoop_none (K : PostponerConstants) (st : PostponerState) :
    ∀ (r i n : Nat),
      (∀ j, i ≤ j → j < i + r → (queueRecord K st j).active = true →
        Nat.count (fun j => (queueRecord K st j).active = true) j ≠
          Nat.count (fun j => (queueRecord K st j).active = true) i + n) →
      getPendingKeypressIdxLoop K st r i n = 255 := by
  intro r
  induction r with
  | zero => intro i n _; rfl
  | succ r ih =>
    intro i n h
    have hs := count_active_succ K st i
    unfold getPendingKeypressIdxLoop
    by_cases hi : (queueRecord K st i).active = true
    · rw [if_pos hi] at hs
      rw [if_pos (show (st.buffer (POS K st.bufferPosition i)).active = true from hi)]
      have hn : n ≠ 0 := by
        intro hn
        exact h i le_rfl (by omega) hi (by rw [hn, Nat.add_zero])
      rw [if_neg hn]
      apply ih
      intro j h1 h2 ha
      have := h j (by omega) (by omega) ha
      omega
    · rw [if_neg hi] at hs
      rw [if_neg (show ¬ (st.buffer (POS K st.bufferPosition i)).active = true from hi)]
      apply ih
      intro j h1 h2 ha
      have := h j (by omega) (by omega) ha
      omega

theorem exists_nth_active (K : PostponerConstants) (st : PostponerState) (idx : Nat) :
    ∀ m : Nat, idx < Nat.count (fun j => (queueRecord K st j).active = true) m →
      ∃ j, j < m ∧ (queueRecord K st j).active = true ∧
        Nat.count (fun j => (queueRecord K st j).active = true) j = idx := by
  intro m
  induction m with
  | zero => intro h; simp at h
  | succ m ih =>
    intro h
    rw [count_active_succ] at h
    by_cases hlt : idx < Nat.count (fun j => (queueRecord K st j).active = true) m
    · obtain ⟨j, h1, h2, h3⟩ := ih hlt
      exact ⟨j, by omega, h2, h3⟩
    · by_cases hm : (queueRecord K st m).active = true
      · rw [if_pos hm] at h
        exact ⟨m, by omega, hm, by omega⟩
      · rw [if_neg hm] at h
        omega

theorem pendingKeypressCountLoop_eq (K : PostponerConstants) (st : PostponerState) :
    ∀ (r i cnt : Nat), cnt ≤ i → i + r ≤ 255 →
      pendingKeypressCountLoop K st r i cnt + Nat.count
          (fun j => (queueRecord K st j).active = true) i =
        cnt + Nat.count (fun j => (queueRecord K st j).active = true) (i + r) := by
  intro r
  induction r with
  | zero => intro i cnt _ _; rfl
  | succ r ih =>
    intro i cnt h1 h2
    have hs := count_active_succ K st i
    unfold pendingKeypressCountLoop
    by_cases hi : (queueRecord K st i).active = true
    · rw [if_pos hi] at hs
      rw [if_pos (show (st.buffer (POS K st.bufferPosition i)).active = true from hi),
        Nat.mod_eq_of_lt (by omega)]
      have := ih (i + 1) (cnt + 1) (by omega) (by omega)
      rw [show i + (r + 1) = i + 1 + r by omega]
      omega
    · rw [if_neg hi] at hs
      rw [if_neg (show ¬ (st.buffer (POS K st.bufferPosition i)).active = true from hi)]
      have := ih (i + 1) cnt (by omega) (by omega)
      rw [show i + (r + 1) = i + 1 + r by omega]
      omega

theorem pendingKeypressCount_eq (K : PostponerConstants) (st : PostponerState)
    (h : st.bufferSize ≤ 255) :
    PostponerQuery_PendingKeypressCount K st =
      Nat.count (fun j => (queueRecord K st j).active = true) st.bufferSize := by
  have := pendingKeypressCountLoop_eq K st st.bufferSize 0 0 le_rfl (by omega)
  unfold PostponerQuery_PendingKeypressCount
  rw [Nat.count_zero, Nat.zero_add, Nat.zero_add] at this
  omega

theorem pendingKeypressCount_queue (K : PostponerConstants) (st : PostponerState) :
    Nat.count (fun j => (queueRecord K st j).active = true) st.bufferSize =
      (queue K st).countP (fun e => e.active) := by
  unfold queue Nat.count
  rw [List.countP_map]
  apply List.countP_congr
  intro j _
  simp [queueRecord]

theorem releaseLoop_found (K : PostponerConstants) (st : PostponerState) (pressKey : Nat) :
    ∀ (r i j : Nat), i ≤ j → j < i + r →
      ((queueRecord K st j).active = false ∧ (queueRecord K st j).key = pressKey) →
      (∀ k, i ≤ k → k < j →
        ¬ ((queueRecord K st k).active = false ∧ (queueRecord K st k).key = pressKey)) →
      releaseLoop K st pressKey r i = some (POS K st.bufferPosition j) := by
  intro r
  induction r with
  | zero => intro i j h1 h2; omega
  | succ r ih =>
    intro i j h1 h2 hj hk
    unfold releaseLoop
    by_cases hi : (queueRecord K st i).active = false ∧ (queueRecord K st i).key = pressKey
    · have hij : j = i := by
        by_contra hne
        exact hk i le_rfl (by omega) hi
      rw [if_pos (show (st.buffer (POS K st.bufferPosition i)).active = false ∧
        (st.buffer (POS K st.bufferPosition i)).key = pressKey from hi), hij]
    · rw [if_neg (show ¬ ((st.buffer (POS K st.bufferPosition i)).active = false ∧
        (st.buffer (POS K st.bufferPosition i)).key = pressKey) from hi)]
      have hij : i + 1 ≤ j := by
        by_contra hne
        have hij : j = i := by omega
        rw [hij] at hj
        exact hi hj
      exact ih (i + 1) j hij (by omega) hj (fun k h3 h4 => hk k (by omega) h4)

theorem releaseLoop_none (K : PostponerConstants) (st : PostponerState) (pressKey : Nat) :
    ∀ (r i : Nat),
      (∀ k, i ≤ k → k < i + r →
        ¬ ((queueRecord K st k).active = false ∧ (queueRecord K st k).key = pressKey)) →
      releaseLoop K st pressKey r i = none := by
  intro r
  induction r with
  | zero => intro i _; rfl
  | succ r ih =>
    intro i hk
    unfold releaseLoop
    rw [if_neg (show ¬ ((st.buffer (POS K st.bufferPosition i)).active = false ∧
      (st.buffer (POS K st.bufferPosition i)).key = pressKey) from hk i le_rfl (by omega))]
    exact ih (i + 1) (fun k h3 h4 => hk k (by omega) (by omega))

/-- The release search has one of two outcomes. -/
theorem releaseLoop_cases (K : PostponerConstants) (st : PostponerState) (pressKey : Nat) :
    ∀ (r i : Nat),
      (∃ j, i ≤ j ∧ j < i + r ∧
        releaseLoop K st pressKey r i = some (POS K st.bufferPosition j) ∧
        ((queueRecord K st j).active = false ∧ (queueRecord K st j).key = pressKey) ∧
        ∀ k, i ≤ k → k < j →
          ¬ ((queueRecord K st k).active = false ∧ (queueRecord K st k).key = pressKey)) ∨
      (releaseLoop K st pressKey r i = none ∧
        ∀ k, i ≤ k → k < i + r →
          ¬ ((queueRecord K st k).active = false ∧ (queueRecord K st k).key = pressKey)) := by
  intro r
  induction r with
  | zero =>
    intro i
    exact Or.inr ⟨rfl, fun k h1 h2 => by omega⟩
  | succ r ih =>
    intro i
    by_cases hi : (queueRecord K st i).active = false ∧ (queueRecord K st i).key = pressKey
    · exact Or.inl ⟨i, le_rfl, by omega,
        releaseLoop_found K st pressKey (r + 1) i i le_rfl (by omega) hi
          (fun k h1 h2 => by omega),
        hi, fun k h1 h2 => by omega⟩
    · have hstep : releaseLoop K st pressKey (r + 1) i = releaseLoop K st pressKey r (i + 1) := by
        rw [releaseLoop]
        rw [if_neg (show ¬ ((st.buffer (POS K st.bufferPosition i)).active = false ∧
          (st.buffer (POS K st.bufferPosition i)).key = pressKey) from hi)]
      rcases ih (i + 1) with ⟨j, h1, h2, h3, h4, h5⟩ | ⟨h3, h5⟩
      · refine Or.inl ⟨j, by omega, by omega, by rw [hstep, h3], h4, fun k hk1 hk2 => ?_⟩
        rcases Nat.eq_or_lt_of_le hk1 with hk | hk
        · rw [← hk]; exact hi
        · exact h5 k (by omega) hk2
      · refine Or.inr ⟨by rw [hstep, h3], fun k hk1 hk2 => ?_⟩
        rcases Nat.eq_or_lt_of_le hk1 with hk | hk
        · rw [← hk]; exact hi
        · exact h5 k (by omega) (by omega)

theorem queue_take_countP (K : PostponerConstants) (st : PostponerState) (i : Nat)
    (h : i ≤ st.bufferSize) :
    ((queue K st).take i).countP (fun e => e.active) =
      Nat.count (fun j => (queueRecord K st j).active = true) i := by
  unfold queue Nat.count
  rw [← List.map_take, List.take_range, Nat.min_eq_left h, List.countP_map]
  apply List.countP_congr
  intro j _
  simp [queueRecord]

theorem queue_getElem? (K : PostponerConstants) (st : PostponerState) (i : Nat)
    (h : i < st.bufferSize) : (queue K st)[i]? = some (queueRecord K st i) := by
  unfold queue queueRecord
  rw [List.getElem?_map, List.getElem?_range h]
  rfl

/-! ## The claims on the postponer, continued -/

/-- C31, counterexample: with a buffer of four slots that holds four events
(fill level `POSTPONER_BUFFER_SIZE`), tracking a fifth event overwrites the
record at the head: the queue then starts with the new event, the first queued
record is gone, and the queue is not the old queue followed by the new
event. -/
theorem C31_full_buffer_overwrites_head :
    fullPostponer.bufferSize = smallConstants.POSTPONER_BUFFER_SIZE ∧
    queue smallConstants fullPostponer = fourEvents ∧
    queue smallConstants (PostponerCore_TrackKeyEvent smallConstants 14 5 true fullPostponer)
      = [{ time := 14, key := 5, active := true }, { time := 11, key := 2, active := true },
          { time := 12, key := 3, active := true }, { time := 13, key := 4, active := true }] ∧
    queue smallConstants (PostponerCore_TrackKeyEvent smallConstants 14 5 true fullPostponer)
      ≠ queue smallConstants fullPostponer ++ [{ time := 14, key := 5, active := true }] := by
  have hq : queue smallConstants
      (PostponerCore_TrackKeyEvent smallConstants 14 5 true fullPostponer)
      = [{ time := 14, key := 5, active := true }, { time := 11, key := 2, active := true },
          { time := 12, key := 3, active := true }, { time := 13, key := 4, active := true }] := by
    rfl
  refine ⟨fullPostponer_queue.2, fullPostponer_queue.1, hq, ?_⟩
  rw [hq, fullPostponer_queue.1]
  decide

/-- C31, amended. `PostponerCore_TrackKeyEvent` keeps the queued events while
the buffer is not full: for every fill level `bufferSize < POSTPONER_BUFFER_SIZE`
(the size being at most 255, as the fill level is a `uint8_t`), after tracking
an event every previously queued record (time, key, active flag) is still in the
queue at the same position from the head, the new event is the last element,
and `bufferSize` has grown by one; for every fill level up to
`POSTPONER_BUFFER_SIZE`, `bufferSize` does not exceed `POSTPONER_BUFFER_SIZE`
after the call. -/
theorem C31_track_keeps_queue (K : PostponerConstants) (CurrentTime keyState : Nat)
    (active : Bool) (st : PostponerState) (hS : K.POSTPONER_BUFFER_SIZE ≤ 255) :
    (st.bufferSize < K.POSTPONER_BUFFER_SIZE →
      queue K (PostponerCore_TrackKeyEvent K CurrentTime keyState active st) =
        queue K st ++ [{ time := CurrentTime, key := keyState, active := active }] ∧
      (∀ i, i < st.bufferSize →
        queueRecord K (PostponerCore_TrackKeyEvent K CurrentTime keyState active st) i
          = queueRecord K st i) ∧
      queueRecord K (PostponerCore_TrackKeyEvent K CurrentTime keyState active st) st.bufferSize
        = { time := CurrentTime, key := keyState, active := active } ∧
      (PostponerCore_TrackKeyEvent K CurrentTime keyState active st).bufferSize
        = st.bufferSize + 1 ∧
      (PostponerCore_TrackKeyEvent K CurrentTime keyState active st).bufferPosition
        = st.bufferPosition) ∧
    (st.bufferSize ≤ K.POSTPONER_BUFFER_SIZE →
      (PostponerCore_TrackKeyEvent K CurrentTime keyState active st).bufferSize
        ≤ K.POSTPONER_BUFFER_SIZE) := by
  have hb := trackKeyEvent_bufferSize K CurrentTime keyState active st
  refine ⟨fun hfill => ?_, fun hle => ?_⟩
  · obtain ⟨t1, t2, -, -⟩ := trackKeyEvent_spec K CurrentTime keyState active st hS hfill
    have hpos : POS K st.bufferPosition st.bufferSize % 256
        = POS K st.bufferPosition st.bufferSize :=
      Nat.mod_eq_of_lt (lt_of_lt_of_le (POS_lt K _ _ (by omega)) (by omega))
    refine ⟨t1, fun i hi => ?_, ?_, ?_, t2⟩
    · show Function.update st.buffer (POS K st.bufferPosition st.bufferSize % 256) _
        (POS K st.bufferPosition i) = _
      rw [hpos]
      exact Function.update_noteq (POS_ne K _ i _ hi hfill) _ _
    · show Function.update st.buffer (POS K st.bufferPosition st.bufferSize % 256) _
        (POS K st.bufferPosition st.bufferSize) = _
      rw [hpos, Function.update_same]
    · rw [hb, if_pos hfill]
      exact Nat.mod_eq_of_lt (by omega)
  · rw [hb]
    split_ifs with h
    · omega
    · exact hle

/-- Worked instance of C31: a fourth event behind the three sample events, and
the fill level of the full buffer of four slots. -/
theorem C31_track_keeps_queue_witness :
    queue sampleConstants
        (PostponerCore_TrackKeyEvent sampleConstants 13 9 false sampleQueue)
      = queue sampleConstants sampleQueue ++ [{ time := 13, key := 9, active := false }] ∧
    (PostponerCore_TrackKeyEvent sampleConstants 13 9 false sampleQueue).bufferSize
      = sampleQueue.bufferSize + 1 ∧
    (PostponerCore_TrackKeyEvent smallConstants 14 5 true fullPostponer).bufferSize
      ≤ smallConstants.POSTPONER_BUFFER_SIZE := by
  have h := (C31_track_keeps_queue sampleConstants 13 9 false sampleQueue (by decide)).1
    (by decide)
  exact ⟨h.1, h.2.2.2.1,
    (C31_track_keeps_queue smallConstants 14 5 true fullPostponer (by decide)).2 (by decide)⟩

/-- C32. Pending-keypress queries agree: for every queue contents with
`bufferSize < 255` and every `idx`, `PostponerQuery_PendingKeypressCount` is the
number of queued records with `active = true`; `PostponerQuery_InfoByQueueIdx
(idx)` returns a non-NULL press iff `idx` is below that count; when it is, press
points to the record at the queue position `i` that is active and has exactly
`idx` active records in front of it, and release points to the first record
behind position `i` with the same key and `active = false`, or is NULL when the
queue holds no such record; when `idx` is out of range both results are
NULL. -/
theorem C32_pending_keypress_queries (K : PostponerConstants) (st : PostponerState)
    (idx : Nat) (hsize : st.bufferSize < 255) :
    PostponerQuery_PendingKeypressCount K st = (queue K st).countP (fun e => e.active) ∧
    ((PostponerQuery_InfoByQueueIdx K st idx).1 ≠ none ↔
      idx < PostponerQuery_PendingKeypressCount K st) ∧
    (idx < PostponerQuery_PendingKeypressCount K st →
      ∃ i, i < st.bufferSize ∧
        (PostponerQuery_InfoByQueueIdx K st idx).1 = some (POS K st.bufferPosition i) ∧
        (queue K st)[i]? = some (queueRecord K st i) ∧
        (queueRecord K st i).active = true ∧
        ((queue K st).take i).countP (fun e => e.active) = idx ∧
        ((∃ j, i < j ∧ j < st.bufferSize ∧
            (PostponerQuery_InfoByQueueIdx K st idx).2 = some (POS K st.bufferPosition j) ∧
            (queue K st)[j]? = some (queueRecord K st j) ∧
            (queueRecord K st j).active = false ∧
            (queueRecord K st j).key = (queueRecord K st i).key ∧
            ∀ k, i < k → k < j →
              ¬ ((queueRecord K st k).active = false ∧
                (queueRecord K st k).key = (queueRecord K st i).key)) ∨
          ((PostponerQuery_InfoByQueueIdx K st idx).2 = none ∧
            ∀ k, i < k → k < st.bufferSize →
              ¬ ((queueRecord K st k).active = false ∧
                (queueRecord K st k).key = (queueRecord K st i).key)))) ∧
    (¬ idx < PostponerQuery_PendingKeypressCount K st →
      PostponerQuery_InfoByQueueIdx K st idx = (none, none)) := by
  have hcount := pendingKeypressCount_eq K st (by omega)
  have hfound : idx < PostponerQuery_PendingKeypressCount K st →
      ∃ i, i < st.bufferSize ∧ (queueRecord K st i).active = true ∧
        Nat.count (fun j => (queueRecord K st j).active = true) i = idx ∧
        PostponerQuery_InfoByQueueIdx K st idx =
          (some (POS K st.bufferPosition i),
            releaseLoop K st (queueRecord K st i).key (st.bufferSize - i) i) := by
    intro hlt
    rw [hcount] at hlt
    obtain ⟨i, h1, h2, h3⟩ := exists_nth_active K st idx st.bufferSize hlt
    have hidx : getPendingKeypressIdx K st idx = i := by
      unfold getPendingKeypressIdx
      exact getPendingKeypressIdxLoop_found K st st.bufferSize 0 idx i (Nat.zero_le i)
        (by omega) (by omega) h2 (by rw [Nat.count_zero, Nat.zero_add, h3])
    refine ⟨i, h1, h2, h3, ?_⟩
    unfold PostponerQuery_InfoByQueueIdx
    simp only [hidx]
    rw [if_neg (by omega)]
    rfl
  have hnone : ¬ idx < PostponerQuery_PendingKeypressCount K st →
      PostponerQuery_InfoByQueueIdx K st idx = (none, none) := by
    intro hge
    rw [hcount] at hge
    have hidx : getPendingKeypressIdx K st idx = 255 := by
      unfold getPendingKeypressIdx
      apply getPendingKeypressIdxLoop_none
      intro j _ h2 ha
      have hs := count_active_succ K st j
      rw [if_pos ha] at hs
      have hm := count_active_mono K st (show j + 1 ≤ st.bufferSize by omega)
      rw [Nat.count_zero]
      omega
    unfold PostponerQuery_InfoByQueueIdx
    simp only [hidx]
    rfl
  refine ⟨by rw [hcount, pendingKeypressCount_queue], ?_, ?_, hnone⟩
  · constructor
    · intro h
      by_contra hge
      rw [hnone hge] at h
      exact h rfl
    · intro hlt
      obtain ⟨i, -, -, -, h4⟩ := hfound hlt
      rw [h4]
      exact Option.some_ne_none _
  · intro hlt
    obtain ⟨i, h1, h2, h3, h4⟩ := hfound hlt
    refine ⟨i, h1, by rw [h4], queue_getElem? K st i h1, h2,
      by rw [queue_take_countP K st i (by omega), h3], ?_⟩
    rw [h4]
    rcases releaseLoop_cases K st (queueRecord K st i).key (st.bufferSize - i) i with
      ⟨j, r1, r2, r3, r4, r5⟩ | ⟨r3, r5⟩
    · have hij : i < j := by
        rcases Nat.eq_or_lt_of_le r1 with h | h
        · rw [← h, h2] at r4
          exact absurd r4.1 (by decide)
        · exact h
      exact Or.inl ⟨j, hij, by omega, r3, queue_getElem? K st j (by omega), r4.1, r4.2,
        fun k hk1 hk2 => r5 k (by omega) hk2⟩
    · exact Or.inr ⟨r3, fun k hk1 hk2 => r5 k (by omega) (by omega)⟩

/-- Worked instance of C32: the three sample events (key 7 pressed, key 9
pressed, key 7 released) give two pending keypresses; the first has its release
in slot 2, the second has none, and index 2 is out of range. -/
theorem C32_pending_keypress_queries_witness :
    PostponerQuery_PendingKeypressCount sampleConstants sampleQueue = 2 ∧
    PostponerQuery_InfoByQueueIdx sampleConstants sampleQueue 0 = (some 0, some 2) ∧
    PostponerQuery_InfoByQueueIdx sampleConstants sampleQueue 1 = (some 1, none) ∧
    PostponerQuery_InfoByQueueIdx sampleConstants sampleQueue 2 = (none, none) := by
  have h2 := (C32_pending_keypress_queries sampleConstants sampleQueue 2 (by decide)).2.2.2
    (by decide)
  exact ⟨by decide, by decide, by decide, h2⟩

end Postponer

namespace TestSuite

open test_phase_t

/-! ## Lemmas on `streq` and on the lookup loops -/

theorem streq_iff (a : List Nat) : ∀ b : List Nat, 0 ∉ b → (streq a b = true ↔ a = b) := by
  induction a with
  | nil =>
    intro b hb
    cases b with
    | nil => simp [streq]
    | cons y b =>
      have hy : y ≠ 0 := fun h => hb (by rw [h]; exact List.mem_cons_self 0 b)
      simp [streq, hy]
  | cons x a ih =>
    intro b hb
    cases b with
    | nil => simp [streq]
    | cons y b =>
      have hy : y ≠ 0 := fun h => hb (by rw [h]; exact List.mem_cons_self 0 b)
      have hb2 : 0 ∉ b := fun h => hb (List.mem_cons_of_mem y h)
      unfold streq
      rw [if_neg hy]
      by_cases hxy : x = y
      · rw [if_neg (not_not.mpr hxy), ih b hb2, hxy]
        simp
      · rw [if_pos hxy]
        simp [hxy]

theorem findTest_some (testName : List Nat) :
    ∀ (tests : List test_t) (ti i : Nat) (t : test_t),
      findTest testName tests ti = some (i, t) →
      ∃ d, i = ti + d ∧ tests[d]? = some t ∧ streq testName t.name = true ∧
        ∀ (d2 : Nat) (t2 : test_t), d2 < d → tests[d2]? = some t2 →
          streq testName t2.name = false := by
  intro tests
  induction tests with
  | nil => intro ti i t h; simp [findTest] at h
  | cons test rest ih =>
    intro ti i t h
    unfold findTest at h
    by_cases hs : streq testName test.name = true
    · rw [if_pos hs] at h
      obtain ⟨h1, h2⟩ := Prod.mk.inj (Option.some.inj h)
      refine ⟨0, by omega, by rw [← h2, List.getElem?_cons_zero], by rw [← h2]; exact hs,
        fun d2 t2 hd => by omega⟩
    · rw [if_neg hs] at h
      obtain ⟨d, h1, h2, h3, h4⟩ := ih (ti + 1) i t h
      refine ⟨d + 1, by omega, by rw [List.getElem?_cons_succ]; exact h2, h3, ?_⟩
      intro d2 t2 hd hget
      cases d2 with
      | zero =>
        rw [List.getElem?_cons_zero] at hget
        rw [← Option.some.inj hget]
        exact Bool.eq_false_iff.mpr hs
      | succ d3 =>
        rw [List.getElem?_cons_succ] at hget
        exact h4 d3 t2 (by omega) hget

theorem findTest_none (testName : List Nat) :
    ∀ (tests : List test_t) (ti : Nat), findTest testName tests ti = none →
      ∀ (d : Nat) (t : test_t), tests[d]? = some t → streq testName t.name = false := by
  intro tests
  induction tests with
  | nil => intro ti _ d t hget; simp at hget
  | cons test rest ih =>
    intro ti h d t hget
    unfold findTest at h
    by_cases hs : streq testName test.name = true
    · rw [if_pos hs] at h
      exact absurd h (by simp)
    · rw [if_neg hs] at h
      cases d with
      | zero =>
        rw [List.getElem?_cons_zero] at hget
        rw [← Option.some.inj hget]
        exact Bool.eq_false_iff.mpr hs
      | succ d3 =>
        rw [List.getElem?_cons_succ] at hget
        exact ih (ti + 1) h d3 t hget

theorem findModuleTest_step (moduleName testName : List Nat) (module : test_module_t)
    (rest : List test_module_t) (mi : Nat)
    (h : streq moduleName module.name = false ∨ findTest testName module.tests 0 = none) :
    findModuleTest moduleName testName (module :: rest) mi =
      findModuleTest moduleName testName rest (mi + 1) := by
  rw [findModuleTest]
  rcases h with h | h
  · rw [if_neg (by rw [h]; decide)]
  · split_ifs
    · rw [h]
    · rfl

theorem findModuleTest_some (moduleName testName : List Nat) :
    ∀ (modules : List test_module_t) (mi i ti : Nat) (t : test_t),
      findModuleTest moduleName testName modules mi = some (i, ti, t) →
      ∃ d m, i = mi + d ∧ modules[d]? = some m ∧ streq moduleName m.name = true ∧
        m.tests[ti]? = some t ∧ streq testName t.name = true ∧
        (∀ (ti2 : Nat) (t2 : test_t), ti2 < ti → m.tests[ti2]? = some t2 →
          streq testName t2.name = false) ∧
        (∀ (d2 : Nat) (m2 : test_module_t) (ti2 : Nat) (t2 : test_t), d2 < d →
          modules[d2]? = some m2 → m2.tests[ti2]? = some t2 →
          streq moduleName m2.name = true → streq testName t2.name = false) := by
  intro modules
  induction modules with
  | nil => intro mi i ti t h; simp [findModuleTest] at h
  | cons module rest ih =>
    intro mi i ti t h
    by_cases hs : streq moduleName module.name = true
    · cases hf : findTest testName module.tests 0 with
      | some p =>
        obtain ⟨ti0, t0⟩ := p
        have he : findModuleTest moduleName testName (module :: rest) mi
            = some (mi, ti0, t0) := by
          unfold findModuleTest
          rw [if_pos hs, hf]
        rw [he] at h
        obtain ⟨h1, h2⟩ := Prod.mk.inj (Option.some.inj h)
        obtain ⟨h2, h3⟩ := Prod.mk.inj h2
        obtain ⟨d, f1, f2, f3, f4⟩ := findTest_some testName module.tests 0 ti0 t0 hf
        have hd : d = ti := by omega
        rw [hd] at f2 f4
        rw [h3] at f2 f3
        exact ⟨0, module, by omega, List.getElem?_cons_zero, hs, f2, f3, f4,
          fun d2 m2 ti2 t2 hlt => by omega⟩
      | none =>
        rw [findModuleTest_step moduleName testName module rest mi (Or.inr hf)] at h
        obtain ⟨d, m, g1, g2, g3, g4, g5, g6, g7⟩ := ih (mi + 1) i ti t h
        refine ⟨d + 1, m, by omega, by rw [List.getElem?_cons_succ]; exact g2, g3, g4, g5, g6, ?_⟩
        intro d2 m2 ti2 t2 hlt hget htest hname
        cases d2 with
        | zero =>
          rw [List.getElem?_cons_zero] at hget
          rw [← Option.some.inj hget] at htest
          exact findTest_none testName module.tests 0 hf ti2 t2 htest
        | succ d3 =>
          rw [List.getElem?_cons_succ] at hget
          exact g7 d3 m2 ti2 t2 (by omega) hget htest hname
    · have hs2 : streq moduleName module.name = false := Bool.eq_false_iff.mpr hs
      rw [findModuleTest_step moduleName testName module rest mi (Or.inl hs2)] at h
      obtain ⟨d, m, g1, g2, g3, g4, g5, g6, g7⟩ := ih (mi + 1) i ti t h
      refine ⟨d + 1, m, by omega, by rw [List.getElem?_cons_succ]; exact g2, g3, g4, g5, g6, ?_⟩
      intro d2 m2 ti2 t2 hlt hget htest hname
      cases d2 with
      | zero =>
        rw [List.getElem?_cons_zero] at hget
        rw [← Option.some.inj hget, hs2] at hname
        exact absurd hname (by decide)
      | succ d3 =>
        rw [List.getElem?_cons_succ] at hget
        exact g7 d3 m2 ti2 t2 (by omega) hget htest hname

theorem findModuleTest_none (moduleName testName : List Nat) :
    ∀ (modules : List test_module_t) (mi : Nat),
      findModuleTest moduleName testName modules mi = none →
      ∀ (d : Nat) (m : test_module_t) (ti : Nat) (t : test_t),
        modules[d]? = some m → m.tests[ti]? = some t →
        streq moduleName m.name = true → streq testName t.name = false := by
  intro modules
  induction modules with
  | nil => intro mi _ d m ti t hget; simp at hget
  | cons module rest ih =>
    intro mi h d m ti t hget htest hname
    by_cases hs : streq moduleName module.name = true
    · cases hf : findTest testName module.tests 0 with
      | some p =>
        obtain ⟨ti0, t0⟩ := p
        have he : findModuleTest moduleName testName (module :: rest) mi
            = some (mi, ti0, t0) := by
          unfold findModuleTest
          rw [if_pos hs, hf]
        rw [he] at h
        exact absurd h (by simp)
      | none =>
        rw [findModuleTest_step moduleName testName module rest mi (Or.inr hf)] at h
        cases d with
        | zero =>
          rw [List.getElem?_cons_zero] at hget
          rw [← Option.some.inj hget] at htest
          exact findTest_none testName module.tests 0 hf ti t htest
        | succ d3 =>
          rw [List.getElem?_cons_succ] at hget
          exact ih (mi + 1) h d3 m ti t hget htest hname
    · have hs2 : streq moduleName module.name = false := Bool.eq_false_iff.mpr hs
      rw [findModuleTest_step moduleName testName module rest mi (Or.inl hs2)] at h
      cases d with
      | zero =>
        rw [List.getElem?_cons_zero] at hget
        rw [← Option.some.inj hget, hs2] at hname
        exact absurd hname (by decide)
      | succ d3 =>
        rw [List.getElem?_cons_succ] at hget
        exact ih (mi + 1) h d3 m ti t hget htest hname

theorem selectSingleTest_fields (mi ti : Nat) (test : test_t) (s : TestSuiteState) :
    (selectSingleTest mi ti test s).currentModuleIndex = mi ∧
    (selectSingleTest mi ti test s).currentTestIndex = ti ∧
    (selectSingleTest mi ti test s).singleTestMode = true ∧
    (selectSingleTest mi ti test s).TestHooks_Active = true ∧
    (selectSingleTest mi ti test s).phaseTest = test := by
  refine ⟨rfl, rfl, rfl, rfl, ?_⟩
  simp [selectSingleTest, startTest, startPhase, getCurrentActions, ENV_PASS_NONE]

theorem mem_of_getElem?_eq_some {α : Type} (l : List α) (i : Nat) (a : α)
    (h : l[i]? = some a) : a ∈ l := by
  obtain ⟨hi, he⟩ := List.getElem?_eq_some.mp h
  rw [← he]
  exact List.getElem_mem hi

/-! ## The claim on the test runner -/

/-- C33. `TestSuite_RunSingle` lookup, for tables whose names are NUL-terminated
strings (no NUL inside a name): the call returns 0 iff some module's name equals
the byte range `[moduleStart, moduleEnd)` exactly and one of that module's tests
has a name exactly equal to `[testStart, testEnd)`; it then selects the first
such pair in module-then-test order (`currentModuleIndex` and `currentTestIndex`
set to it, single-test mode on, test hooks active, the test installed as the
phase test); otherwise it returns 255 and leaves every variable unchanged.
`streq` holds exactly for equal byte sequences, so a proper prefix or a proper
extension of a name never matches. -/
theorem C33_run_single_lookup (AllTestModules : List test_module_t)
    (moduleName testName : List Nat) (s : TestSuiteState)
    (hnames : ∀ m ∈ AllTestModules, 0 ∉ m.name ∧ ∀ t ∈ m.tests, 0 ∉ t.name) :
    ((TestSuite_RunSingle AllTestModules moduleName testName s).1 = 0 ↔
      ∃ (mi : Nat) (m : test_module_t) (ti : Nat) (t : test_t),
        AllTestModules[mi]? = some m ∧ m.tests[ti]? = some t ∧
        m.name = moduleName ∧ t.name = testName) ∧
    ((TestSuite_RunSingle AllTestModules moduleName testName s).1 = 0 →
      ∃ (mi : Nat) (m : test_module_t) (ti : Nat) (t : test_t),
        AllTestModules[mi]? = some m ∧ m.tests[ti]? = some t ∧
        m.name = moduleName ∧ t.name = testName ∧
        (TestSuite_RunSingle AllTestModules moduleName testName s).2.currentModuleIndex = mi ∧
        (TestSuite_RunSingle AllTestModules moduleName testName s).2.currentTestIndex = ti ∧
        (TestSuite_RunSingle AllTestModules moduleName testName s).2.singleTestMode = true ∧
        (TestSuite_RunSingle AllTestModules moduleName testName s).2.TestHooks_Active = true ∧
        (TestSuite_RunSingle AllTestModules moduleName testName s).2.phaseTest = t ∧
        ∀ (mi2 : Nat) (m2 : test_module_t) (ti2 : Nat) (t2 : test_t),
          AllTestModules[mi2]? = some m2 → m2.tests[ti2]? = some t2 →
          m2.name = moduleName → t2.name = testName →
          mi < mi2 ∨ (mi = mi2 ∧ ti ≤ ti2)) ∧
    ((TestSuite_RunSingle AllTestModules moduleName testName s).1 ≠ 0 →
      (TestSuite_RunSingle AllTestModules moduleName testName s).1 = 255 ∧
      (TestSuite_RunSingle AllTestModules moduleName testName s).2 = s) ∧
    (∀ (m : test_module_t), m ∈ AllTestModules → ∀ range : List Nat,
      (streq range m.name = true ↔ range = m.name) ∧
      ∀ t ∈ m.tests, (streq range t.name = true ↔ range = t.name)) := by
  have hm : ∀ (d : Nat) (m : test_module_t), AllTestModules[d]? = some m →
      (streq moduleName m.name = true ↔ m.name = moduleName) := by
    intro d m hget
    rw [streq_iff moduleName m.name (hnames m (mem_of_getElem?_eq_some _ d m hget)).1]
    exact eq_comm
  have ht : ∀ (d : Nat) (m : test_module_t) (ti : Nat) (t : test_t),
      AllTestModules[d]? = some m → m.tests[ti]? = some t →
      (streq testName t.name = true ↔ t.name = testName) := by
    intro d m ti t hget htest
    rw [streq_iff testName t.name ((hnames m (mem_of_getElem?_eq_some _ d m hget)).2 t
      (mem_of_getElem?_eq_some _ ti t htest))]
    exact eq_comm
  have hstr : ∀ (m : test_module_t), m ∈ AllTestModules → ∀ range : List Nat,
      (streq range m.name = true ↔ range = m.name) ∧
      ∀ t ∈ m.tests, (streq range t.name = true ↔ range = t.name) :=
    fun m hmem range => ⟨streq_iff range m.name (hnames m hmem).1,
      fun t htm => streq_iff range t.name ((hnames m hmem).2 t htm)⟩
  cases hf : findModuleTest moduleName testName AllTestModules 0 with
  | none =>
    have hr : TestSuite_RunSingle AllTestModules moduleName testName s = (255, s) := by
      unfold TestSuite_RunSingle
      rw [hf]
    have hno := findModuleTest_none moduleName testName AllTestModules 0 hf
    rw [hr]
    have h255 : ¬ ((255, s) : Nat × TestSuiteState).1 = 0 := by
      show ¬ (255 : Nat) = 0
      decide
    refine ⟨⟨fun h => absurd h h255, ?_⟩, fun h => absurd h h255,
      fun _ => ⟨rfl, rfl⟩, hstr⟩
    rintro ⟨mi, m, ti, t, h1, h2, h3, h4⟩
    have := hno mi m ti t h1 h2 ((hm mi m h1).mpr h3)
    rw [(ht mi m ti t h1 h2).mpr h4] at this
    exact absurd this (by decide)
  | some p =>
    obtain ⟨mi, ti, t⟩ := p
    have hr : TestSuite_RunSingle AllTestModules moduleName testName s
        = (0, selectSingleTest mi ti t s) := by
      unfold TestSuite_RunSingle
      rw [hf]
    obtain ⟨d, m, g1, g2, g3, g4, g5, g6, g7⟩ :=
      findModuleTest_some moduleName testName AllTestModules 0 mi ti t hf
    have hd : d = mi := by omega
    rw [hd] at g2 g7
    obtain ⟨f1, f2, f3, f4, f5⟩ := selectSingleTest_fields mi ti t s
    have hmatch : m.name = moduleName ∧ t.name = testName :=
      ⟨(hm mi m g2).mp g3, (ht mi m ti t g2 g4).mp g5⟩
    rw [hr]
    refine ⟨⟨fun _ => ⟨mi, m, ti, t, g2, g4, hmatch.1, hmatch.2⟩, fun _ => rfl⟩, fun _ => ?_,
      fun h => absurd rfl h, hstr⟩
    refine ⟨mi, m, ti, t, g2, g4, hmatch.1, hmatch.2, f1, f2, f3, f4, f5, ?_⟩
    intro mi2 m2 ti2 t2 h1 h2 h3 h4
    by_contra hcon
    have hs1 := (hm mi2 m2 h1).mpr h3
    have hs2 := (ht mi2 m2 ti2 t2 h1 h2).mpr h4
    rcases Nat.lt_trichotomy mi2 mi with hlt | heq | hgt
    · have := g7 mi2 m2 ti2 t2 hlt h1 h2 hs1
      rw [hs2] at this
      exact absurd this (by decide)
    · rw [heq] at h1
      have hmm : m2 = m := Option.some.inj (h1.symm.trans g2)
      rw [hmm] at h2
      have hti : ti2 < ti := by omega
      have := g6 ti2 t2 hti h2
      rw [hs2] at this
      exact absurd this (by decide)
    · omega

/-- Worked instance of C33: in module `"kb"` with the tests `"tapHold"` and
`"tap"`, the range `"tap"` selects the test with index 1, and the range `"ta"`
selects nothing. -/
theorem C33_run_single_lookup_witness :
    (TestSuite_RunSingle sampleModules name_kb name_tap initialTestSuiteState).1 = 0 ∧
    (TestSuite_RunSingle sampleModules name_kb name_tap
      initialTestSuiteState).2.currentModuleIndex = 0 ∧
    (TestSuite_RunSingle sampleModules name_kb name_tap
      initialTestSuiteState).2.currentTestIndex = 1 ∧
    (TestSuite_RunSingle sampleModules name_kb name_tap
      initialTestSuiteState).2.TestHooks_Active = true ∧
    TestSuite_RunSingle sampleModules name_kb name_ta initialTestSuiteState
      = (255, initialTestSuiteState) := by
  have hn : ∀ m ∈ sampleModules, 0 ∉ m.name ∧ ∀ t ∈ m.tests, 0 ∉ t.name := by decide
  have h := (C33_run_single_lookup sampleModules name_kb name_ta initialTestSuiteState hn).2.2.1
    (by decide)
  exact ⟨by decide, by decide, by decide, by decide, Prod.ext h.1 h.2⟩

end TestSuite
